import Mathlib

/-!
# ORA Scrum backend: a shallow embedding of the service and repository layers

Two implementations live in the repository:

* `backend/` keeps every entity in Go maps held in memory
  (`backend/internal/repository/repository.go`) and drives them from
  `backend/internal/service/service.go`;
* `ORA_SCRUM_BACKEND_CODE/` talks to a database through a generated Prisma client.

Modelling conventions

* A Go `map[string]V` is a `GoMap V`: a list of key/value entries.  A Go map never
  holds a key twice; `GoMap.get`, `GoMap.set` and `GoMap.delete` obey the map laws
  on every list, and the few results that iterate over a map state the absence of
  duplicate keys as `GoMap.WF`.
* A pointer to a struct held in a map is modelled by the struct value: a service
  reads the value, changes fields and writes it back with the repository call the
  source makes.  A pointer field that only caches another entity
  (`Task.Assignee`, `WorkspaceMember.User`) holds the ID of the entity it points to.
* `time.Now()` and `uuid.New().String()` are inputs of the call that performs them.
* Go `int` is the 64-bit two's complement integer: arithmetic goes through `wrapInt`.
* A Go `(value, error)` result is an `Except Error value`; since a call may change
  the stores before it fails, every operation returns the result together with
  the new stores.
* Library calls: the `bcrypt` and `jwt` functions are arguments of the auth methods
  (`Crypto`), so every result holds for whatever they compute; `strconv.Atoi` and
  gin's `Query` are written out from their documented behaviour.
-/

namespace OraScrum

/-- Instants as returned by `time.Now()`; the zero `time.Time` is `0`. -/
abbrev Time := Nat

/-- Go `int` (64-bit): the representative of `x` in `[-2^63, 2^63)`. -/
def wrapInt (x : Int) : Int := (x + 2 ^ 63) % 2 ^ 64 - 2 ^ 63

/-- The verb `%d` of `fmt.Sprintf` applied to an `int`. -/
def fmtInt (n : Int) : String := toString n

/-! ## Go maps -/

/-- A Go `map[string]β`, as the list of its entries. -/
structure GoMap (β : Type) where
  entries : List (String × β)
deriving DecidableEq, Repr

namespace GoMap

variable {β : Type}

/-- The result of `make(map[string]β)`. -/
def empty : GoMap β := ⟨[]⟩

/-- The lookup `v, ok := m[k]`. -/
def get (m : GoMap β) (k : String) : Option β :=
  (m.entries.find? (fun e => e.1 == k)).map Prod.snd

/-- The assignment `m[k] = v`. -/
def set (m : GoMap β) (k : String) (v : β) : GoMap β :=
  if m.entries.any (fun e => e.1 == k) then
    ⟨m.entries.map (fun e => if e.1 == k then (k, v) else e)⟩
  else
    ⟨m.entries ++ [(k, v)]⟩

/-- The builtin `delete(m, k)`. -/
def delete (m : GoMap β) (k : String) : GoMap β :=
  ⟨m.entries.filter (fun e => e.1 != k)⟩

/-- The values met by `for _, v := range m`, in one of the orders Go may choose. -/
def values (m : GoMap β) : List β := m.entries.map Prod.snd

/-- The keys of the map. -/
def keys (m : GoMap β) : List String := m.entries.map Prod.fst

/-- No key occurs twice: what the Go map type guarantees. -/
def WF (m : GoMap β) : Prop := m.keys.Nodup

instance (m : GoMap β) : Decidable m.WF := by
  unfold WF; infer_instance

end GoMap

/-! ## Errors of the service layer (`service.go`, lines 17-24) -/

inductive Error where
  | ErrInvalidCredentials
  | ErrUserExists
  | ErrUserNotFound
  | ErrInvalidToken
  | ErrNotFound
  | ErrUnauthorized
  /-- An error value made outside the service layer (by `bcrypt`, by `jwt`, or by a
  repository), told apart by its message. -/
  | external (msg : String)
deriving DecidableEq, Repr

/-! ## Entities of the in-memory repository (`backend/internal/repository/repository.go`) -/

structure User where
  ID : String
  Email : String
  Password : String
  Name : String
  Avatar : Option String
  Status : String
  CreatedAt : Time
  UpdatedAt : Time
deriving DecidableEq, Repr

structure Workspace where
  ID : String
  Name : String
  Description : Option String
  Icon : Option String
  Color : Option String
  OwnerID : String
  CreatedAt : Time
  UpdatedAt : Time
deriving DecidableEq, Repr

structure WorkspaceMember where
  ID : String
  WorkspaceID : String
  UserID : String
  Role : String
  JoinedAt : Time
  User : Option String
deriving DecidableEq, Repr

structure Project where
  ID : String
  Name : String
  Key : String
  Description : Option String
  Icon : Option String
  Color : Option String
  SpaceID : String
  LeadID : Option String
  CreatedAt : Time
  UpdatedAt : Time
deriving DecidableEq, Repr

structure ProjectMember where
  ID : String
  ProjectID : String
  UserID : String
  Role : String
  JoinedAt : Time
  User : Option String
deriving DecidableEq, Repr

structure Sprint where
  ID : String
  Name : String
  Goal : Option String
  ProjectID : String
  Status : String
  StartDate : Option Time
  EndDate : Option Time
  CreatedAt : Time
  UpdatedAt : Time
deriving DecidableEq, Repr

structure Task where
  ID : String
  Key : String
  Title : String
  Description : Option String
  Status : String
  Priority : String
  Type_ : String
  ProjectID : String
  SprintID : Option String
  AssigneeID : Option String
  ReporterID : String
  ParentID : Option String
  StoryPoints : Option Int
  DueDate : Option Time
  OrderIndex : Int
  Labels : List String
  CreatedAt : Time
  UpdatedAt : Time
  Assignee : Option String
  Reporter : Option String
deriving DecidableEq, Repr

structure BulkTaskUpdate where
  ID : String
  Status : Option String
  SprintID : Option String
  OrderIndex : Option Int
deriving DecidableEq, Repr

structure Notification where
  ID : String
  UserID : String
  Type_ : String
  Title : String
  Message : String
  Read : Bool
  Data : List (String × String)
  CreatedAt : Time
deriving DecidableEq, Repr

/-! ## User repository -/

structure RefreshToken where
  ID : String
  Token : String
  UserID : String
  ExpiresAt : Time
  CreatedAt : Time
deriving DecidableEq, Repr

/-- The struct `userRepository` (lines 75-78); the refresh tokens are keyed by the token
string. A repository written without refresh tokens has the empty map, as
`NewUserRepository` makes it. -/
structure userRepository where
  users : GoMap User
  refreshTokens : GoMap RefreshToken := ⟨[]⟩
deriving DecidableEq, Repr

/-- The method `userRepository.FindByID`. -/
def userRepository.FindByID (r : userRepository) (id : String) : Option User :=
  r.users.get id

/-- The method `userRepository.FindByEmail`: the first user met with that email. -/
def userRepository.FindByEmail (r : userRepository) (email : String) : Option User :=
  r.users.values.find? (fun user => user.Email == email)

/-! ## Workspace repository -/

structure workspaceRepository where
  workspaces : GoMap Workspace
  members : GoMap (List WorkspaceMember)
deriving DecidableEq, Repr

/-- The index expression `r.members[workspaceID]`: a missing key reads as the nil slice. -/
def workspaceRepository.membersOf (r : workspaceRepository) (workspaceID : String) :
    List WorkspaceMember :=
  (r.members.get workspaceID).getD []

/-- The method `workspaceRepository.FindByID`. -/
def workspaceRepository.FindByID (r : workspaceRepository) (id : String) : Option Workspace :=
  r.workspaces.get id

/-- The method `workspaceRepository.AddMember` (lines 236-241): it never fails. -/
def workspaceRepository.AddMember (r : workspaceRepository) (member : WorkspaceMember)
    (now : Time) (uuid : String) : Except Error Unit × workspaceRepository :=
  let member := { member with ID := uuid, JoinedAt := now }
  let rows := r.membersOf member.WorkspaceID ++ [member]
  (.ok (), { r with members := r.members.set member.WorkspaceID rows })

/-- The method `workspaceRepository.FindMembers`. -/
def workspaceRepository.FindMembers (r : workspaceRepository) (workspaceID : String) :
    List WorkspaceMember :=
  r.membersOf workspaceID

/-- The method `workspaceRepository.FindMember`. -/
def workspaceRepository.FindMember (r : workspaceRepository) (workspaceID userID : String) :
    Option WorkspaceMember :=
  (r.membersOf workspaceID).find? (fun m => m.UserID == userID)

/-- The loop of `workspaceRepository.UpdateMemberRole`: the first row of the user gets
the role and the loop returns. -/
def workspaceRepository.updateRoleLoop (userID role : String) :
    List WorkspaceMember → List WorkspaceMember
  | [] => []
  | m :: ms =>
    if m.UserID == userID then { m with Role := role } :: ms
    else m :: workspaceRepository.updateRoleLoop userID role ms

/-- The method `workspaceRepository.UpdateMemberRole` (lines 256-264): both exits
return `nil`. -/
def workspaceRepository.UpdateMemberRole (r : workspaceRepository)
    (workspaceID userID role : String) : Except Error Unit × workspaceRepository :=
  match r.members.get workspaceID with
  | none => (.ok (), r)
  | some ms =>
    let rows := workspaceRepository.updateRoleLoop userID role ms
    (.ok (), { r with members := r.members.set workspaceID rows })

/-! ## Project repository -/

structure projectRepository where
  projects : GoMap Project
  members : GoMap (List ProjectMember)
  taskCounter : GoMap Int
deriving DecidableEq, Repr

/-- The index expression `r.taskCounter[projectID]`: a missing key reads as `0`. -/
def projectRepository.counterOf (r : projectRepository) (projectID : String) : Int :=
  (r.taskCounter.get projectID).getD 0

/-- The method `projectRepository.Create` (lines 398-405). -/
def projectRepository.Create (r : projectRepository) (project : Project)
    (now : Time) (uuid : String) : Except Error Project × projectRepository :=
  let project := { project with ID := uuid, CreatedAt := now, UpdatedAt := now }
  (.ok project, { r with
    projects := r.projects.set project.ID project,
    taskCounter := r.taskCounter.set project.ID 0 })

/-- The method `projectRepository.FindByID`. -/
def projectRepository.FindByID (r : projectRepository) (id : String) : Option Project :=
  r.projects.get id

/-- The method `projectRepository.Update` (lines 424-428). -/
def projectRepository.Update (r : projectRepository) (project : Project) (now : Time) :
    Except Error Project × projectRepository :=
  let project := { project with UpdatedAt := now }
  (.ok project, { r with projects := r.projects.set project.ID project })

/-- The method `projectRepository.GetNextTaskNumber` (lines 458-461):
`r.taskCounter[projectID]++` and the new value. -/
def projectRepository.GetNextTaskNumber (r : projectRepository) (projectID : String) :
    Int × projectRepository :=
  let n := wrapInt (r.counterOf projectID + 1)
  (n, { r with taskCounter := r.taskCounter.set projectID n })

/-! ## Sprint repository -/

structure sprintRepository where
  sprints : GoMap Sprint
deriving DecidableEq, Repr

/-- The method `sprintRepository.Create` (lines 498-504). -/
def sprintRepository.Create (r : sprintRepository) (sprint : Sprint)
    (now : Time) (uuid : String) : Except Error Sprint × sprintRepository :=
  let sprint := { sprint with ID := uuid, CreatedAt := now, UpdatedAt := now }
  (.ok sprint, { r with sprints := r.sprints.set sprint.ID sprint })

/-- The method `sprintRepository.FindByID` (lines 506-511). -/
def sprintRepository.FindByID (r : sprintRepository) (id : String) : Option Sprint :=
  r.sprints.get id

/-- The method `sprintRepository.Update` (lines 532-536). -/
def sprintRepository.Update (r : sprintRepository) (sprint : Sprint) (now : Time) :
    Except Error Sprint × sprintRepository :=
  let sprint := { sprint with UpdatedAt := now }
  (.ok sprint, { r with sprints := r.sprints.set sprint.ID sprint })

/-! ## Task repository -/

structure taskRepository where
  tasks : GoMap Task
deriving DecidableEq, Repr

/-- The method `taskRepository.Create` (lines 612-618). -/
def taskRepository.Create (r : taskRepository) (task : Task)
    (now : Time) (uuid : String) : Except Error Task × taskRepository :=
  let task := { task with ID := uuid, CreatedAt := now, UpdatedAt := now }
  (.ok task, { r with tasks := r.tasks.set task.ID task })

/-- The method `taskRepository.FindByID` (lines 620-625). -/
def taskRepository.FindByID (r : taskRepository) (id : String) : Option Task :=
  r.tasks.get id

/-- The method `taskRepository.FindBySprintID` (lines 637-645). -/
def taskRepository.FindBySprintID (r : taskRepository) (sprintID : String) : List Task :=
  r.tasks.values.filter (fun t => t.SprintID == some sprintID)

/-- The method `taskRepository.Update` (lines 680-684). -/
def taskRepository.Update (r : taskRepository) (task : Task) (now : Time) :
    Except Error Task × taskRepository :=
  let task := { task with UpdatedAt := now }
  (.ok task, { r with tasks := r.tasks.set task.ID task })

/-- The method `taskRepository.Delete` (lines 686-689). -/
def taskRepository.Delete (r : taskRepository) (id : String) :
    Except Error Unit × taskRepository :=
  (.ok (), { r with tasks := r.tasks.delete id })

/-- One round of the loop of `taskRepository.BulkUpdate` (lines 692-705). -/
def taskRepository.bulkStep (now : Time) (r : taskRepository) (u : BulkTaskUpdate) :
    taskRepository :=
  match r.tasks.get u.ID with
  | some t =>
    let t := match u.Status with
      | some st => { t with Status := st }
      | none => t
    let t := match u.SprintID with
      | some sp => { t with SprintID := some sp }
      | none => t
    let t := match u.OrderIndex with
      | some o => { t with OrderIndex := o }
      | none => t
    let t := { t with UpdatedAt := now }
    { r with tasks := r.tasks.set u.ID t }
  | none => r

/-- The method `taskRepository.BulkUpdate` (lines 691-707). -/
def taskRepository.BulkUpdate (r : taskRepository) (updates : List BulkTaskUpdate)
    (now : Time) : Except Error Unit × taskRepository :=
  (.ok (), updates.foldl (taskRepository.bulkStep now) r)

/-! ## Notification repository and `notification.Service` -/

structure notificationRepository where
  notifications : GoMap Notification
deriving DecidableEq, Repr

/-- The method `notificationRepository.Create` (lines 877-882). -/
def notificationRepository.Create (r : notificationRepository) (n : Notification)
    (now : Time) (uuid : String) : Except Error Unit × notificationRepository :=
  let n := { n with ID := uuid, CreatedAt := now }
  (.ok (), { r with notifications := r.notifications.set n.ID n })

namespace notification

/-- The struct `notification.Service` (`backend/internal/notification/notification.go`). -/
structure Service where
  notificationRepo : notificationRepository
deriving DecidableEq, Repr

/-- The method `Service.SendTaskAssigned` (lines 23-37). -/
def Service.SendTaskAssigned (s : Service) (userID taskTitle taskID projectID : String)
    (now : Time) (uuid : String) : Except Error Unit × Service :=
  let n : Notification :=
    { ID := "", UserID := userID, Type_ := "TASK_ASSIGNED", Title := "Task Assigned",
      Message := "You have been assigned to task: " ++ taskTitle, Read := false,
      Data := [("taskId", taskID), ("projectId", projectID)], CreatedAt := 0 }
  let res := s.notificationRepo.Create n now uuid
  (res.1, { s with notificationRepo := res.2 })

/-- The method `Service.SendSprintStarted` (lines 72-85). -/
def Service.SendSprintStarted (s : Service) (userID sprintName sprintID : String)
    (now : Time) (uuid : String) : Except Error Unit × Service :=
  let n : Notification :=
    { ID := "", UserID := userID, Type_ := "SPRINT_STARTED", Title := "Sprint Started",
      Message := "Sprint has started: " ++ sprintName, Read := false,
      Data := [("sprintId", sprintID)], CreatedAt := 0 }
  let res := s.notificationRepo.Create n now uuid
  (res.1, { s with notificationRepo := res.2 })

/-- The method `Service.SendSprintCompleted` (lines 88-101). -/
def Service.SendSprintCompleted (s : Service) (userID sprintName sprintID : String)
    (now : Time) (uuid : String) : Except Error Unit × Service :=
  let n : Notification :=
    { ID := "", UserID := userID, Type_ := "SPRINT_COMPLETED", Title := "Sprint Completed",
      Message := "Sprint has been completed: " ++ sprintName, Read := false,
      Data := [("sprintId", sprintID)], CreatedAt := 0 }
  let res := s.notificationRepo.Create n now uuid
  (res.1, { s with notificationRepo := res.2 })

/-- The method `Service.SendWorkspaceInvitation` (lines 161-174). -/
def Service.SendWorkspaceInvitation (s : Service) (userID workspaceName workspaceID : String)
    (now : Time) (uuid : String) : Except Error Unit × Service :=
  let n : Notification :=
    { ID := "", UserID := userID, Type_ := "WORKSPACE_INVITATION",
      Title := "Workspace Invitation",
      Message := "You have been invited to workspace: " ++ workspaceName, Read := false,
      Data := [("workspaceId", workspaceID)], CreatedAt := 0 }
  let res := s.notificationRepo.Create n now uuid
  (res.1, { s with notificationRepo := res.2 })

end notification

/-! ## Workspace service (`backend/internal/service/service.go`, lines 289-418) -/

structure workspaceService where
  workspaceRepo : workspaceRepository
  userRepo : userRepository
  notifSvc : notification.Service
deriving DecidableEq, Repr

/-- The method `workspaceService.AddMember` (lines 372-395).  `memberUUID` is the ID
drawn for the membership row, `notifUUID` the one drawn for the invitation. -/
def workspaceService.AddMember (s : workspaceService) (workspaceID email role : String)
    (now : Time) (memberUUID notifUUID : String) : Except Error Unit × workspaceService :=
  match s.userRepo.FindByEmail email with
  | none => (.error .ErrUserNotFound, s)
  | some user =>
    let member : WorkspaceMember :=
      { ID := "", WorkspaceID := workspaceID, UserID := user.ID, Role := role,
        JoinedAt := 0, User := none }
    match s.workspaceRepo.AddMember member now memberUUID with
    | (.error err, workspaceRepo) => (.error err, { s with workspaceRepo := workspaceRepo })
    | (.ok _, workspaceRepo) =>
      match workspaceRepo.FindByID workspaceID with
      | some workspace =>
        let sent := s.notifSvc.SendWorkspaceInvitation user.ID workspace.Name workspaceID
          now notifUUID
        (.ok (), { s with workspaceRepo := workspaceRepo, notifSvc := sent.2 })
      | none => (.ok (), { s with workspaceRepo := workspaceRepo })

/-- The method `workspaceService.ListMembers` without the user lookup that fills the
cached `User` pointer of each row: the rows of the workspace. -/
def workspaceService.memberRows (s : workspaceService) (workspaceID : String) :
    List WorkspaceMember :=
  s.workspaceRepo.FindMembers workspaceID

/-- The method `workspaceService.UpdateMemberRole` (lines 412-414). -/
def workspaceService.UpdateMemberRole (s : workspaceService)
    (workspaceID userID role : String) : Except Error Unit × workspaceService :=
  let res := s.workspaceRepo.UpdateMemberRole workspaceID userID role
  (res.1, { s with workspaceRepo := res.2 })

/-! ## Project service (lines 516-635) -/

structure projectService where
  projectRepo : projectRepository
  userRepo : userRepository
  notifSvc : notification.Service
deriving DecidableEq, Repr

/-- The method `projectService.Create` (lines 530-546). -/
def projectService.Create (s : projectService) (spaceID name key : String)
    (description icon color leadID : Option String) (now : Time) (uuid : String) :
    Except Error Project × projectService :=
  let project : Project :=
    { ID := "", Name := name, Key := key, Description := description, Icon := icon,
      Color := color, SpaceID := spaceID, LeadID := leadID, CreatedAt := 0, UpdatedAt := 0 }
  let res := s.projectRepo.Create project now uuid
  (res.1, { s with projectRepo := res.2 })

/-- The method `projectService.Update` (lines 563-593). -/
def projectService.Update (s : projectService) (id : String)
    (name key description icon color leadID : Option String) (now : Time) :
    Except Error Project × projectService :=
  match s.projectRepo.FindByID id with
  | none => (.error .ErrNotFound, s)
  | some project =>
    let project := match name with
      | some v => { project with Name := v }
      | none => project
    let project := match key with
      | some v => { project with Key := v }
      | none => project
    let project := match description with
      | some v => { project with Description := some v }
      | none => project
    let project := match icon with
      | some v => { project with Icon := some v }
      | none => project
    let project := match color with
      | some v => { project with Color := some v }
      | none => project
    let project := match leadID with
      | some v => { project with LeadID := some v }
      | none => project
    let res := s.projectRepo.Update project now
    (res.1, { s with projectRepo := res.2 })

/-! ## Sprint service (lines 651-779) -/

structure sprintService where
  sprintRepo : sprintRepository
  taskRepo : taskRepository
  notifSvc : notification.Service
deriving DecidableEq, Repr

/-- The method `sprintService.Create` (lines 665-680). -/
def sprintService.Create (s : sprintService) (projectID name : String) (goal : Option String)
    (startDate endDate : Option Time) (now : Time) (uuid : String) :
    Except Error Sprint × sprintService :=
  let sprint : Sprint :=
    { ID := "", Name := name, Goal := goal, ProjectID := projectID, Status := "PLANNING",
      StartDate := startDate, EndDate := endDate, CreatedAt := 0, UpdatedAt := 0 }
  let res := s.sprintRepo.Create sprint now uuid
  (res.1, { s with sprintRepo := res.2 })

/-- The method `sprintService.GetByID` (lines 682-691). -/
def sprintService.GetByID (s : sprintService) (id : String) :
    Except Error Sprint × sprintService :=
  match s.sprintRepo.FindByID id with
  | none => (.error .ErrNotFound, s)
  | some sprint => (.ok sprint, s)

/-- The method `sprintService.Update` (lines 697-721). -/
def sprintService.Update (s : sprintService) (id : String) (name goal : Option String)
    (startDate endDate : Option Time) (now : Time) : Except Error Sprint × sprintService :=
  match s.sprintRepo.FindByID id with
  | none => (.error .ErrNotFound, s)
  | some sprint =>
    let sprint := match name with
      | some v => { sprint with Name := v }
      | none => sprint
    let sprint := match goal with
      | some v => { sprint with Goal := some v }
      | none => sprint
    let sprint := match startDate with
      | some v => { sprint with StartDate := some v }
      | none => sprint
    let sprint := match endDate with
      | some v => { sprint with EndDate := some v }
      | none => sprint
    let res := s.sprintRepo.Update sprint now
    (res.1, { s with sprintRepo := res.2 })

/-- The method `sprintService.Start` (lines 727-745). -/
def sprintService.Start (s : sprintService) (id : String) (now : Time) (uuid : String) :
    Except Error Sprint × sprintService :=
  match s.sprintRepo.FindByID id with
  | none => (.error .ErrNotFound, s)
  | some sprint =>
    let sprint := { sprint with Status := "ACTIVE", StartDate := some now }
    match s.sprintRepo.Update sprint now with
    | (.error err, sprintRepo) => (.error err, { s with sprintRepo := sprintRepo })
    | (.ok sprint, sprintRepo) =>
      let sent := s.notifSvc.SendSprintStarted "" sprint.Name sprint.ID now uuid
      (.ok sprint, { s with sprintRepo := sprintRepo, notifSvc := sent.2 })

/-- The body of the loop of `sprintService.Complete` (lines 760-769) for one task. -/
def sprintService.moveTask (moveIncomplete : String) (now : Time) (taskRepo : taskRepository)
    (task : Task) : taskRepository :=
  if task.Status != "DONE" then
    let task :=
      if moveIncomplete == "backlog" then { task with SprintID := none }
      else { task with SprintID := some moveIncomplete }
    (taskRepo.Update task now).2
  else taskRepo

/-- The method `sprintService.Complete` (lines 747-779). -/
def sprintService.Complete (s : sprintService) (id moveIncomplete : String) (now : Time)
    (uuid : String) : Except Error Sprint × sprintService :=
  match s.sprintRepo.FindByID id with
  | none => (.error .ErrNotFound, s)
  | some sprint =>
    let sprint := { sprint with Status := "COMPLETED", EndDate := some now }
    let taskRepo :=
      if moveIncomplete != "" then
        (s.taskRepo.FindBySprintID id).foldl (sprintService.moveTask moveIncomplete now)
          s.taskRepo
      else s.taskRepo
    match s.sprintRepo.Update sprint now with
    | (.error err, sprintRepo) =>
      (.error err, { s with sprintRepo := sprintRepo, taskRepo := taskRepo })
    | (.ok sprint, sprintRepo) =>
      let sent := s.notifSvc.SendSprintCompleted "" sprint.Name sprint.ID now uuid
      (.ok sprint, { s with sprintRepo := sprintRepo, taskRepo := taskRepo, notifSvc := sent.2 })

/-! ## Task service (lines 795-989) -/

structure taskService where
  taskRepo : taskRepository
  projectRepo : projectRepository
  userRepo : userRepository
  notifSvc : notification.Service
deriving DecidableEq, Repr

/-- The arguments of one call of `taskService.Create`, with the clock reading and the
two IDs the call draws (`taskUUID` in `taskRepo.Create`, `notifUUID` in
`notificationRepo.Create`). -/
structure CreateTaskArgs where
  projectID : String
  reporterID : String
  title : String
  description : Option String
  status : Option String
  priority : Option String
  taskType : Option String
  assigneeID : Option String
  sprintID : Option String
  parentID : Option String
  storyPoints : Option Int
  dueDate : Option Time
  labels : List String
  now : Time
  taskUUID : String
  notifUUID : String
deriving DecidableEq, Repr

/-- The cached user pointers filled at the end of `Create`, `GetByID` and `Update`
(lines 862-866): the pointer is nil when the user store has no such user. -/
def taskService.populate (userRepo : userRepository) (task : Task) : Task :=
  let task := match task.AssigneeID with
    | some a => { task with Assignee := (userRepo.FindByID a).map User.ID }
    | none => task
  { task with Reporter := (userRepo.FindByID task.ReporterID).map User.ID }

/-- The method `taskService.Create` (lines 811-869).  The task is held by pointer, so the
user pointers filled in after `taskRepo.Create` also show on the stored task: the last
step writes the populated task back under its ID. -/
def taskService.Create (s : taskService) (a : CreateTaskArgs) :
    Except Error Task × taskService :=
  match s.projectRepo.FindByID a.projectID with
  | none => (.error .ErrNotFound, s)
  | some project =>
    let next := s.projectRepo.GetNextTaskNumber a.projectID
    let taskNum := next.1
    let projectRepo := next.2
    let taskKey := project.Key ++ "-" ++ fmtInt taskNum
    let statusVal := match a.status with
      | some v => v
      | none => "BACKLOG"
    let priorityVal := match a.priority with
      | some v => v
      | none => "MEDIUM"
    let typeVal := match a.taskType with
      | some v => v
      | none => "TASK"
    let task : Task :=
      { ID := "", Key := taskKey, Title := a.title, Description := a.description,
        Status := statusVal, Priority := priorityVal, Type_ := typeVal,
        ProjectID := a.projectID, SprintID := a.sprintID, AssigneeID := a.assigneeID,
        ReporterID := a.reporterID, ParentID := a.parentID, StoryPoints := a.storyPoints,
        DueDate := a.dueDate, OrderIndex := 0, Labels := a.labels, CreatedAt := 0,
        UpdatedAt := 0, Assignee := none, Reporter := none }
    match s.taskRepo.Create task a.now a.taskUUID with
    | (.error err, taskRepo) =>
      (.error err, { s with projectRepo := projectRepo, taskRepo := taskRepo })
    | (.ok task, taskRepo) =>
      let notifSvc :=
        match a.assigneeID with
        | some assignee =>
          if assignee != a.reporterID then
            (s.notifSvc.SendTaskAssigned assignee task.Title task.ID a.projectID
              a.now a.notifUUID).2
          else s.notifSvc
        | none => s.notifSvc
      let task := taskService.populate s.userRepo task
      (.ok task, { s with projectRepo := projectRepo,
                          taskRepo := { tasks := taskRepo.tasks.set task.ID task },
                          notifSvc := notifSvc })

/-- A value of the `map[string]interface{}` handed to `taskService.Update`, by dynamic
type. -/
inductive Value where
  | str (v : String)
  | strPtr (v : Option String)
  | int (v : Int)
  | intPtr (v : Option Int)
  | timePtr (v : Option Time)
  | strs (v : List String)
  | other
deriving DecidableEq, Repr

/-- The assignments of `taskService.Update` (lines 931-963): each one fires when the
key is present with the asserted dynamic type. -/
def taskService.applyUpdates (updates : GoMap Value) (task : Task) : Task :=
  let task := match updates.get "title" with
    | some (.str v) => { task with Title := v }
    | _ => task
  let task := match updates.get "description" with
    | some (.strPtr v) => { task with Description := v }
    | _ => task
  let task := match updates.get "status" with
    | some (.str v) => { task with Status := v }
    | _ => task
  let task := match updates.get "priority" with
    | some (.str v) => { task with Priority := v }
    | _ => task
  let task := match updates.get "type" with
    | some (.str v) => { task with Type_ := v }
    | _ => task
  let task := match updates.get "assigneeId" with
    | some (.strPtr v) => { task with AssigneeID := v }
    | _ => task
  let task := match updates.get "sprintId" with
    | some (.strPtr v) => { task with SprintID := v }
    | _ => task
  let task := match updates.get "storyPoints" with
    | some (.intPtr v) => { task with StoryPoints := v }
    | _ => task
  let task := match updates.get "dueDate" with
    | some (.timePtr v) => { task with DueDate := v }
    | _ => task
  let task := match updates.get "orderIndex" with
    | some (.int v) => { task with OrderIndex := v }
    | _ => task
  let task := match updates.get "labels" with
    | some (.strs v) => { task with Labels := v }
    | _ => task
  task

/-- The method `taskService.Update` (lines 922-981); as in `Create`, the populated task is
the stored one. -/
def taskService.Update (s : taskService) (id : String) (updates : GoMap Value)
    (now : Time) (notifUUID : String) : Except Error Task × taskService :=
  match s.taskRepo.FindByID id with
  | none => (.error .ErrNotFound, s)
  | some task =>
    let oldAssigneeID := task.AssigneeID
    let task := taskService.applyUpdates updates task
    match s.taskRepo.Update task now with
    | (.error err, taskRepo) => (.error err, { s with taskRepo := taskRepo })
    | (.ok task, taskRepo) =>
      let notifSvc :=
        match task.AssigneeID with
        | some assignee =>
          if oldAssigneeID != some assignee then
            (s.notifSvc.SendTaskAssigned assignee task.Title task.ID task.ProjectID
              now notifUUID).2
          else s.notifSvc
        | none => s.notifSvc
      let task := taskService.populate s.userRepo task
      (.ok task, { s with taskRepo := { tasks := taskRepo.tasks.set task.ID task },
                          notifSvc := notifSvc })

/-- The method `taskService.Delete` (lines 983-985). -/
def taskService.Delete (s : taskService) (id : String) : Except Error Unit × taskService :=
  let res := s.taskRepo.Delete id
  (res.1, { s with taskRepo := res.2 })

/-- The method `taskService.BulkUpdate` (lines 987-989). -/
def taskService.BulkUpdate (s : taskService) (updates : List BulkTaskUpdate) (now : Time) :
    Except Error Unit × taskService :=
  let res := s.taskRepo.BulkUpdate updates now
  (res.1, { s with taskRepo := res.2 })

/-- A run of calls of `taskService.Create`, one after another: the results in call
order and the final stores. -/
def taskService.createAll : taskService → List CreateTaskArgs →
    List (Except Error Task) × taskService
  | s, [] => ([], s)
  | s, a :: rest =>
    let r := s.Create a
    let tail := taskService.createAll r.2 rest
    (r.1 :: tail.1, tail.2)

/-- The calls among the first `i + 1` of `args` that name project `pid`. -/
def callsOn (pid : String) (args : List CreateTaskArgs) (i : Nat) : Nat :=
  ((args.take (i + 1)).filter (fun b => b.projectID == pid)).length

/-! ## Concrete stores used to evaluate the operations -/

/-- A project `p1` with key `ABC`. -/
def demoProject : Project :=
  { ID := "p1", Name := "Demo", Key := "ABC", Description := none, Icon := none,
    Color := none, SpaceID := "s1", LeadID := none, CreatedAt := 1, UpdatedAt := 1 }

/-- The task service right after `projectRepository.Create` stored `demoProject`:
its counter is `0` and no task exists. -/
def demoTaskService : taskService :=
  { taskRepo := { tasks := ⟨[]⟩ },
    projectRepo := { projects := ⟨[("p1", demoProject)]⟩, members := ⟨[]⟩,
                     taskCounter := ⟨[("p1", 0)]⟩ },
    userRepo := { users := ⟨[]⟩ },
    notifSvc := { notificationRepo := { notifications := ⟨[]⟩ } } }

/-- A call of `taskService.Create` on project `p1` by reporter `u1` with every optional
argument absent. -/
def demoCreate (title uuid : String) : CreateTaskArgs :=
  { projectID := "p1", reporterID := "u1", title := title, description := none,
    status := none, priority := none, taskType := none, assigneeID := none,
    sprintID := none, parentID := none, storyPoints := none, dueDate := none,
    labels := [], now := 5, taskUUID := uuid, notifUUID := "n-" ++ uuid }

/-- Reading a list of decimal digits, most significant first, on top of `a`. -/
def readDigits (a : Nat) (cs : List Char) : Nat :=
  cs.foldl (fun acc c => 10 * acc + (c.toNat - 48)) a

/-! ## Runs of operations on the task and project stores -/

/-- The operations of the task and project services that can be mixed in a run. -/
inductive TaskOp where
  | create (a : CreateTaskArgs)
  | delete (id : String)
  | update (id : String) (updates : GoMap Value) (now : Time) (notifUUID : String)
  | bulkUpdate (updates : List BulkTaskUpdate) (now : Time)
  | projectUpdate (id : String) (name key description icon color leadID : Option String)
      (now : Time)
deriving DecidableEq, Repr

/-- The project service wired by `NewServices` (lines 43-56) on the same repositories
as the task service. -/
def taskService.projectSvc (s : taskService) : projectService :=
  { projectRepo := s.projectRepo, userRepo := s.userRepo, notifSvc := s.notifSvc }

/-- One operation: the task a successful `taskService.Create` returned, if the
operation is one, and the stores afterwards. -/
def taskService.step (s : taskService) : TaskOp → Option Task × taskService
  | .create a =>
    let r := s.Create a
    (r.1.toOption, r.2)
  | .delete id => (none, (s.Delete id).2)
  | .update id updates now notifUUID => (none, (s.Update id updates now notifUUID).2)
  | .bulkUpdate updates now => (none, (s.BulkUpdate updates now).2)
  | .projectUpdate id name key description icon color leadID now =>
    let r := s.projectSvc.Update id name key description icon color leadID now
    (none, { s with projectRepo := r.2.projectRepo, userRepo := r.2.userRepo,
                    notifSvc := r.2.notifSvc })

/-- A run of operations, one after another: the tasks returned by the successful
calls of `taskService.Create`, in call order, and the final stores. -/
def taskService.run : taskService → List TaskOp → List Task × taskService
  | s, [] => ([], s)
  | s, op :: rest =>
    let r := s.step op
    let tail := taskService.run r.2 rest
    (r.1.toList ++ tail.1, tail.2)

/-- Two task values agree on what identifies a task: ID, key and project. -/
def SameIdentity (t u : Task) : Prop :=
  t.ID = u.ID ∧ t.Key = u.Key ∧ t.ProjectID = u.ProjectID

/-- Every task is stored under its own ID, as `taskRepository.Create` and
`taskRepository.Update` store it (`r.tasks[task.ID] = task`). -/
def taskRepository.KeyedByID (r : taskRepository) : Prop :=
  ∀ id t, r.FindByID id = some t → t.ID = id

/-- A run on `demoTaskService`: a task is created, the project key is changed to
`ABC-1`, a second task is created, the first one is deleted and a third one is created. -/
def demoOps : List TaskOp :=
  [ .create (demoCreate "first" "t1"),
    .projectUpdate "p1" none (some "ABC-1") none none none none 6,
    .create (demoCreate "second" "t2"),
    .delete "t1",
    .create (demoCreate "third" "t3") ]

/-! ## The Prisma-backed implementation (`ORA_SCRUM_BACKEND_CODE/internal`) -/

namespace Prisma

/-- Modelled from the spec: a row of the task table behind the generated Prisma client
(`db.TaskModel`, whose declaration is not among the sources), with the attributes the
data model of the specification lists; status, priority and type default to `BACKLOG`,
`MEDIUM` and `TASK`. -/
structure TaskModel where
  ID : String
  Key : String
  Title : String
  Description : Option String
  Status : String
  Priority : String
  Type_ : String
  StoryPoints : Option Int
  Order : Int
  ProjectID : String
  SprintID : Option String
  AssigneeID : Option String
  ReporterID : String
  ParentID : Option String
  CreatedAt : Time
  UpdatedAt : Time
deriving DecidableEq, Repr

/-- Modelled from the spec: a row of the project table (`db.ProjectModel`, not among the
sources). -/
structure ProjectModel where
  ID : String
  Name : String
  Key : String
  SpaceID : String
deriving DecidableEq, Repr

/-- Modelled from the spec: the database behind `db.PrismaClient` (not among the sources),
each table the list of its rows; queries are answered without database failures. -/
structure PrismaClient where
  projects : List ProjectModel
  tasks : List TaskModel
deriving DecidableEq, Repr

/-- The errors of this implementation that the modelled calls can return:
`service.ErrNotFound` and the client's own not-found error of `FindUnique`. -/
inductive Error where
  | ErrNotFound
  | dbNotFound
deriving DecidableEq, Repr

/-- The struct `models.CreateTaskRequest` (`models.go`, lines 165-178). -/
structure CreateTaskRequest where
  Title : String
  Description : Option String
  Status : Option String
  Priority : Option String
  Type_ : Option String
  StoryPoints : Option Int
  DueDate : Option String
  ProjectID : String
  SprintID : Option String
  AssigneeID : Option String
  ParentID : Option String
  LabelIDs : List String
deriving DecidableEq, Repr

/-- The method `projectRepository.FindByID` (`repository.go`, lines 299-306). -/
def projectRepository.FindByID (client : PrismaClient) (id : String) :
    Except Error ProjectModel :=
  match client.projects.find? (fun p => p.ID == id) with
  | some p => .ok p
  | none => .error .dbNotFound

/-- The method `projectRepository.GetNextTaskNumber` (`repository.go`, lines 356-362):
one more than the number of task rows of the project. -/
def projectRepository.GetNextTaskNumber (client : PrismaClient) (projectID : String) : Int :=
  let tasks := client.tasks.filter (fun t => t.ProjectID == projectID)
  wrapInt ((tasks.length : Int) + 1)

/-- The method `taskRepository.Create` (`repository.go`, lines 464-497); `uuid` is the ID
the database gives the new row. -/
def taskRepository.Create (client : PrismaClient) (req : CreateTaskRequest)
    (key reporterID : String) (now : Time) (uuid : String) : TaskModel × PrismaClient :=
  let row : TaskModel :=
    { ID := uuid, Key := key, Title := req.Title, Description := req.Description,
      Status := req.Status.getD "BACKLOG", Priority := req.Priority.getD "MEDIUM",
      Type_ := req.Type_.getD "TASK", StoryPoints := req.StoryPoints, Order := 0,
      ProjectID := req.ProjectID, SprintID := req.SprintID, AssigneeID := req.AssigneeID,
      ReporterID := reporterID, ParentID := req.ParentID, CreatedAt := now, UpdatedAt := now }
  (row, { client with tasks := client.tasks ++ [row] })

/-- The method `taskRepository.FindByID` (`repository.go`, lines 499-507). -/
def taskRepository.FindByID (client : PrismaClient) (id : String) : Except Error TaskModel :=
  match client.tasks.find? (fun t => t.ID == id) with
  | some t => .ok t
  | none => .error .dbNotFound

/-- The method `taskRepository.Delete` (`repository.go`, lines 583-586). -/
def taskRepository.Delete (client : PrismaClient) (id : String) :
    Except Error Unit × PrismaClient :=
  if client.tasks.any (fun t => t.ID == id) then
    (.ok (), { client with tasks := client.tasks.filter (fun t => t.ID != id) })
  else (.error .dbNotFound, client)

/-- The method `taskService.GetByID` (`service.go`, lines 603-609), returning the row
that `taskToResponse` renders. -/
def taskService.GetByID (client : PrismaClient) (id : String) : Except Error TaskModel :=
  match taskRepository.FindByID client id with
  | .ok t => .ok t
  | .error _ => .error .ErrNotFound

/-- The method `taskService.Create` (`service.go`, lines 585-601). -/
def taskService.Create (client : PrismaClient) (req : CreateTaskRequest) (reporterID : String)
    (now : Time) (uuid : String) : Except Error TaskModel × PrismaClient :=
  match projectRepository.FindByID client req.ProjectID with
  | .error _ => (.error .ErrNotFound, client)
  | .ok project =>
    let nextNum := projectRepository.GetNextTaskNumber client req.ProjectID
    let key := project.Key ++ "-" ++ fmtInt nextNum
    let created := taskRepository.Create client req key reporterID now uuid
    (taskService.GetByID created.2 created.1.ID, created.2)

/-- The method `taskService.Delete` (`service.go`, lines 664-666). -/
def taskService.Delete (client : PrismaClient) (id : String) :
    Except Error Unit × PrismaClient :=
  taskRepository.Delete client id

/-- Task creations and deletions through the task service. -/
inductive Op where
  | create (req : CreateTaskRequest) (reporterID : String) (now : Time) (uuid : String)
  | delete (id : String)
deriving DecidableEq, Repr

/-- A run of operations: the numbers `GetNextTaskNumber` handed to the calls of
`taskService.Create` on project `pid`, in call order, and the database afterwards. -/
def handedOut (pid : String) : PrismaClient → List Op → List Int × PrismaClient
  | client, [] => ([], client)
  | client, .create req reporterID now uuid :: rest =>
    let handed :=
      match projectRepository.FindByID client req.ProjectID with
      | .ok _ =>
        if req.ProjectID == pid then [projectRepository.GetNextTaskNumber client req.ProjectID]
        else []
      | .error _ => []
    let tail := handedOut pid (taskService.Create client req reporterID now uuid).2 rest
    (handed ++ tail.1, tail.2)
  | client, .delete id :: rest => handedOut pid (taskService.Delete client id).2 rest

/-- A database holding project `p1` with key `ABC` and no task. -/
def demoClient : PrismaClient :=
  { projects := [{ ID := "p1", Name := "Demo", Key := "ABC", SpaceID := "s1" }], tasks := [] }

/-- A request to create a task titled `title` in project `p1`. -/
def demoRequest (title : String) : CreateTaskRequest :=
  { Title := title, Description := none, Status := none, Priority := none, Type_ := none,
    StoryPoints := none, DueDate := none, ProjectID := "p1", SprintID := none,
    AssigneeID := none, ParentID := none, LabelIDs := [] }

/-- Two creations, the deletion of the first task, a third creation. -/
def demoRun : List Op :=
  [ .create (demoRequest "first") "u1" 1 "t1",
    .create (demoRequest "second") "u1" 2 "t2",
    .delete "t1",
    .create (demoRequest "third") "u1" 3 "t3" ]

end Prisma

/-! ## Runs of sprint operations -/

/-- Every sprint is stored under its own ID (`r.sprints[sprint.ID] = sprint`). -/
def sprintRepository.KeyedByID (r : sprintRepository) : Prop :=
  ∀ id sp, r.FindByID id = some sp → sp.ID = id

/-- The state-changing operations of the sprint service named by the lifecycle. -/
inductive SprintOp where
  | create (projectID name : String) (goal : Option String) (startDate endDate : Option Time)
      (now : Time) (uuid : String)
  | update (id : String) (name goal : Option String) (startDate endDate : Option Time)
      (now : Time)
  | start (id : String) (now : Time) (uuid : String)
  | complete (id moveIncomplete : String) (now : Time) (uuid : String)
deriving DecidableEq, Repr

/-- The ID drawn by `uuid.New()` for the sprint of a `Create`. -/
def SprintOp.createdID : SprintOp → Option String
  | .create _ _ _ _ _ _ uuid => some uuid
  | _ => none

/-- Whether the operation is `Start` on sprint `id`. -/
def SprintOp.starts (id : String) : SprintOp → Bool
  | .start id0 _ _ => id0 == id
  | _ => false

/-- Whether the operation is `Complete` on sprint `id`. -/
def SprintOp.completes (id : String) : SprintOp → Bool
  | .complete id0 _ _ _ => id0 == id
  | _ => false

/-- One operation of the sprint service: the stores afterwards. -/
def sprintService.step (s : sprintService) : SprintOp → sprintService
  | .create projectID name goal startDate endDate now uuid =>
    (s.Create projectID name goal startDate endDate now uuid).2
  | .update id name goal startDate endDate now =>
    (s.Update id name goal startDate endDate now).2
  | .start id now uuid => (s.Start id now uuid).2
  | .complete id moveIncomplete now uuid => (s.Complete id moveIncomplete now uuid).2

/-- A run of operations of the sprint service, one after another. -/
def sprintService.run (s : sprintService) (ops : List SprintOp) : sprintService :=
  ops.foldl sprintService.step s

/-- The status of sprint `id`, if it is stored. -/
def sprintService.statusOf (s : sprintService) (id : String) : Option String :=
  (s.sprintRepo.FindByID id).map Sprint.Status

/-- A sprint service with empty stores. -/
def demoSprintService : sprintService :=
  { sprintRepo := { sprints := ⟨[]⟩ }, taskRepo := { tasks := ⟨[]⟩ },
    notifSvc := { notificationRepo := { notifications := ⟨[]⟩ } } }

/-- The sprint service after sprint `sp1` was created and started. -/
def demoStartedSprint : sprintService :=
  demoSprintService.run
    [.create "p1" "Sprint 1" none none none 1 "sp1", .start "sp1" 2 "n1"]

/-- The task store is a Go map keyed by task ID: no key twice, every task under its ID. -/
def taskRepository.WellFormed (r : taskRepository) : Prop :=
  r.tasks.WF ∧ ∀ e ∈ r.tasks.entries, e.2.ID = e.1

instance (r : taskRepository) : Decidable r.WellFormed := by
  unfold taskRepository.WellFormed; infer_instance

/-- The value that the loop of `sprintService.Complete` stores for a task it moves. -/
def sprintService.movedTask (moveIncomplete : String) (now : Time) (task : Task) : Task :=
  let task :=
    if moveIncomplete == "backlog" then { task with SprintID := none }
    else { task with SprintID := some moveIncomplete }
  { task with UpdatedAt := now }

/-- A task of project `p1` reported by `u1`. -/
def demoTask (id key status : String) (sprintID : Option String) : Task :=
  { ID := id, Key := key, Title := "task " ++ id, Description := none, Status := status,
    Priority := "MEDIUM", Type_ := "TASK", ProjectID := "p1", SprintID := sprintID,
    AssigneeID := none, ReporterID := "u1", ParentID := none, StoryPoints := none,
    DueDate := none, OrderIndex := 0, Labels := [], CreatedAt := 1, UpdatedAt := 1,
    Assignee := none, Reporter := none }

/-- The active sprint `sp1` of project `p1`. -/
def demoSprint : Sprint :=
  { ID := "sp1", Name := "Sprint 1", Goal := none, ProjectID := "p1", Status := "ACTIVE",
    StartDate := some 2, EndDate := none, CreatedAt := 1, UpdatedAt := 2 }

/-- A sprint service holding sprint `sp1` with an open task `t1` and a finished task `t2`,
and a task `t3` of another sprint. -/
def demoBoard : sprintService :=
  { sprintRepo := { sprints := ⟨[("sp1", demoSprint)]⟩ },
    taskRepo := { tasks := ⟨[("t1", demoTask "t1" "ABC-1" "TODO" (some "sp1")),
                             ("t2", demoTask "t2" "ABC-2" "DONE" (some "sp1")),
                             ("t3", demoTask "t3" "ABC-3" "TODO" (some "sp0"))]⟩ },
    notifSvc := { notificationRepo := { notifications := ⟨[]⟩ } } }

/-- A user with the given ID and email. -/
def demoUser (id email : String) : User :=
  { ID := id, Email := email, Password := "hash", Name := id, Avatar := none,
    Status := "ONLINE", CreatedAt := 1, UpdatedAt := 1 }

/-- A workspace service holding workspace `w1`, owned by `u1`, with the members `u1`
(owner) and `u2` (member), and the users `u1`, `u2`, `u3`. -/
def demoWorkspaceService : workspaceService :=
  { workspaceRepo :=
      { workspaces := ⟨[("w1", { ID := "w1", Name := "Team", Description := none,
                                 Icon := none, Color := none, OwnerID := "u1",
                                 CreatedAt := 1, UpdatedAt := 1 })]⟩,
        members := ⟨[("w1", [{ ID := "m1", WorkspaceID := "w1", UserID := "u1",
                               Role := "OWNER", JoinedAt := 1, User := none },
                             { ID := "m2", WorkspaceID := "w1", UserID := "u2",
                               Role := "MEMBER", JoinedAt := 2, User := none }])]⟩ },
    userRepo := { users := ⟨[("u1", demoUser "u1" "a@x.io"), ("u2", demoUser "u2" "b@x.io"),
                             ("u3", demoUser "u3" "c@x.io")]⟩ },
    notifSvc := { notificationRepo := { notifications := ⟨[]⟩ } } }

/-! ## Workspaces and members: the remaining repository and service methods -/

/-- The method `workspaceRepository.Create` (lines 194-200). -/
def workspaceRepository.Create (r : workspaceRepository) (workspace : Workspace)
    (now : Time) (uuid : String) : Except Error Workspace × workspaceRepository :=
  let workspace := { workspace with ID := uuid, CreatedAt := now, UpdatedAt := now }
  (.ok workspace, { r with workspaces := r.workspaces.set workspace.ID workspace })

/-- The method `workspaceRepository.FindByUserID` (lines 209-222): for each key of the
member map whose rows name the user, the workspace stored under that key, if any. -/
def workspaceRepository.FindByUserID (r : workspaceRepository) (userID : String) :
    List Workspace :=
  r.members.entries.filterMap (fun e =>
    if e.2.any (fun m => m.UserID == userID) then r.workspaces.get e.1 else none)

/-- The method `workspaceRepository.Update` (lines 224-228). -/
def workspaceRepository.Update (r : workspaceRepository) (workspace : Workspace)
    (now : Time) : Except Error Workspace × workspaceRepository :=
  let workspace := { workspace with UpdatedAt := now }
  (.ok workspace, { r with workspaces := r.workspaces.set workspace.ID workspace })

/-- The method `workspaceRepository.Delete` (lines 230-234). -/
def workspaceRepository.Delete (r : workspaceRepository) (id : String) :
    Except Error Unit × workspaceRepository :=
  (.ok (), { workspaces := r.workspaces.delete id, members := r.members.delete id })

/-- The loop of `RemoveMember` (lines 268-273): the rows without the first row of the
user (`append(members[:i], members[i+1:]...)`), or nothing when no row names the user. -/
def workspaceRepository.removeLoop (userID : String) :
    List WorkspaceMember → Option (List WorkspaceMember)
  | [] => none
  | m :: ms =>
    if m.UserID == userID then some ms
    else (workspaceRepository.removeLoop userID ms).map (fun rest => m :: rest)

/-- The method `workspaceRepository.RemoveMember` (lines 266-275): both exits return
`nil`. -/
def workspaceRepository.RemoveMember (r : workspaceRepository) (workspaceID userID : String) :
    Except Error Unit × workspaceRepository :=
  match workspaceRepository.removeLoop userID (r.membersOf workspaceID) with
  | some rows => (.ok (), { r with members := r.members.set workspaceID rows })
  | none => (.ok (), r)

/-- The index expression `r.members[projectID]` of the project repository. -/
def projectRepository.membersOf (r : projectRepository) (projectID : String) :
    List ProjectMember :=
  (r.members.get projectID).getD []

/-- The method `projectRepository.FindMembers` (lines 443-445). -/
def projectRepository.FindMembers (r : projectRepository) (projectID : String) :
    List ProjectMember :=
  r.membersOf projectID

/-- The loop of `projectRepository.RemoveMember` (lines 449-454). -/
def projectRepository.removeLoop (userID : String) :
    List ProjectMember → Option (List ProjectMember)
  | [] => none
  | m :: ms =>
    if m.UserID == userID then some ms
    else (projectRepository.removeLoop userID ms).map (fun rest => m :: rest)

/-- The method `projectRepository.RemoveMember` (lines 447-456). -/
def projectRepository.RemoveMember (r : projectRepository) (projectID userID : String) :
    Except Error Unit × projectRepository :=
  match projectRepository.removeLoop userID (r.membersOf projectID) with
  | some rows => (.ok (), { r with members := r.members.set projectID rows })
  | none => (.ok (), r)

/-- The method `workspaceService.Create` (lines 303-325); `wsUUID` is the ID drawn for the
workspace and `memberUUID` the one drawn for the owner's membership row. -/
def workspaceService.Create (s : workspaceService) (userID name : String)
    (description icon color : Option String) (now : Time) (wsUUID memberUUID : String) :
    Except Error Workspace × workspaceService :=
  let workspace : Workspace :=
    { ID := "", Name := name, Description := description, Icon := icon, Color := color,
      OwnerID := userID, CreatedAt := 0, UpdatedAt := 0 }
  match s.workspaceRepo.Create workspace now wsUUID with
  | (.error err, workspaceRepo) => (.error err, { s with workspaceRepo := workspaceRepo })
  | (.ok workspace, workspaceRepo) =>
    let member : WorkspaceMember :=
      { ID := "", WorkspaceID := workspace.ID, UserID := userID, Role := "OWNER",
        JoinedAt := 0, User := none }
    let added := workspaceRepo.AddMember member now memberUUID
    (.ok workspace, { s with workspaceRepo := added.2 })

/-- The method `workspaceService.GetByID` (lines 327-336). -/
def workspaceService.GetByID (s : workspaceService) (id : String) :
    Except Error Workspace × workspaceService :=
  match s.workspaceRepo.FindByID id with
  | none => (.error .ErrNotFound, s)
  | some workspace => (.ok workspace, s)

/-- The method `workspaceService.List` (lines 338-340); the trailing underscore keeps the
name from shadowing the list type inside this namespace. -/
def workspaceService.List_ (s : workspaceService) (userID : String) :
    Except Error (List Workspace) × workspaceService :=
  (.ok (s.workspaceRepo.FindByUserID userID), s)

/-- The method `workspaceService.Update` (lines 342-366). -/
def workspaceService.Update (s : workspaceService) (id : String)
    (name description icon color : Option String) (now : Time) :
    Except Error Workspace × workspaceService :=
  match s.workspaceRepo.FindByID id with
  | none => (.error .ErrNotFound, s)
  | some workspace =>
    let workspace := match name with
      | some v => { workspace with Name := v }
      | none => workspace
    let workspace := match description with
      | some v => { workspace with Description := some v }
      | none => workspace
    let workspace := match icon with
      | some v => { workspace with Icon := some v }
      | none => workspace
    let workspace := match color with
      | some v => { workspace with Color := some v }
      | none => workspace
    let res := s.workspaceRepo.Update workspace now
    (res.1, { s with workspaceRepo := res.2 })

/-- The method `workspaceService.Delete` (lines 368-370). -/
def workspaceService.Delete (s : workspaceService) (id : String) :
    Except Error Unit × workspaceService :=
  let res := s.workspaceRepo.Delete id
  (res.1, { s with workspaceRepo := res.2 })

/-- The user pointer that `ListMembers` stores in a row (lines 404-407). -/
def workspaceService.withUser (userRepo : userRepository) (m : WorkspaceMember) :
    WorkspaceMember :=
  { m with User := (userRepo.FindByID m.UserID).map User.ID }

/-- The method `workspaceService.ListMembers` (lines 397-410): the rows are held by
pointer, so the user pointers it fills in also show on the stored rows. -/
def workspaceService.ListMembers (s : workspaceService) (workspaceID : String) :
    Except Error (List WorkspaceMember) × workspaceService :=
  let members := (s.workspaceRepo.FindMembers workspaceID).map
    (workspaceService.withUser s.userRepo)
  match s.workspaceRepo.members.get workspaceID with
  | some _ =>
    (.ok members, { s with workspaceRepo :=
                      { s.workspaceRepo with
                          members := s.workspaceRepo.members.set workspaceID members } })
  | none => (.ok members, s)

/-- The method `workspaceService.RemoveMember` (lines 416-418). -/
def workspaceService.RemoveMember (s : workspaceService) (workspaceID userID : String) :
    Except Error Unit × workspaceService :=
  let res := s.workspaceRepo.RemoveMember workspaceID userID
  (res.1, { s with workspaceRepo := res.2 })

/-- The method `projectService.RemoveMember` (lines 633-635). -/
def projectService.RemoveMember (s : projectService) (projectID userID : String) :
    Except Error Unit × projectService :=
  let res := s.projectRepo.RemoveMember projectID userID
  (res.1, { s with projectRepo := res.2 })

/-- A project service holding project `p1` with the members `u1` and `u2`. -/
def demoProjectService : projectService :=
  { projectRepo :=
      { projects := ⟨[("p1", demoProject)]⟩,
        members := ⟨[("p1", [{ ID := "pm1", ProjectID := "p1", UserID := "u1", Role := "LEAD",
                               JoinedAt := 1, User := none },
                             { ID := "pm2", ProjectID := "p1", UserID := "u2",
                               Role := "MEMBER", JoinedAt := 2, User := none }])]⟩,
        taskCounter := ⟨[("p1", 0)]⟩ },
    userRepo := { users := ⟨[("u1", demoUser "u1" "a@x.io"), ("u2", demoUser "u2" "b@x.io")]⟩ },
    notifSvc := { notificationRepo := { notifications := ⟨[]⟩ } } }

/-! ## Runs of workspace operations -/

/-- The operations of the workspace service that touch the stores. -/
inductive WorkspaceOp where
  | create (userID name : String) (description icon color : Option String) (now : Time)
      (wsUUID memberUUID : String)
  | update (id : String) (name description icon color : Option String) (now : Time)
  | delete (id : String)
  | addMember (workspaceID email role : String) (now : Time) (memberUUID notifUUID : String)
  | listMembers (workspaceID : String)
  | updateMemberRole (workspaceID userID role : String)
  | removeMember (workspaceID userID : String)
deriving DecidableEq, Repr

/-- One operation of the workspace service: the stores afterwards. -/
def workspaceService.step (s : workspaceService) : WorkspaceOp → workspaceService
  | .create userID name description icon color now wsUUID memberUUID =>
    (s.Create userID name description icon color now wsUUID memberUUID).2
  | .update id name description icon color now =>
    (s.Update id name description icon color now).2
  | .delete id => (s.Delete id).2
  | .addMember workspaceID email role now memberUUID notifUUID =>
    (s.AddMember workspaceID email role now memberUUID notifUUID).2
  | .listMembers workspaceID => (s.ListMembers workspaceID).2
  | .updateMemberRole workspaceID userID role =>
    (s.UpdateMemberRole workspaceID userID role).2
  | .removeMember workspaceID userID => (s.RemoveMember workspaceID userID).2

/-- A run of operations of the workspace service, one after another. -/
def workspaceService.run (s : workspaceService) (ops : List WorkspaceOp) : workspaceService :=
  ops.foldl workspaceService.step s

/-- The workspace service at start-up (`NewWorkspaceRepository`: both maps empty), with
the registered users `u1` and `u2`. -/
def freshWorkspaceService : workspaceService :=
  { workspaceRepo := { workspaces := ⟨[]⟩, members := ⟨[]⟩ },
    userRepo := { users := ⟨[("u1", demoUser "u1" "a@x.io"), ("u2", demoUser "u2" "b@x.io")]⟩ },
    notifSvc := { notificationRepo := { notifications := ⟨[]⟩ } } }

/-- User `u1` creates workspace `w1` and invites `b@x.io` (user `u2`) twice. -/
def inviteTwice : List WorkspaceOp :=
  [ .create "u1" "Team" none none none 1 "w1" "m1",
    .addMember "w1" "b@x.io" "MEMBER" 2 "m2" "n1",
    .addMember "w1" "b@x.io" "ADMIN" 3 "m3" "n2" ]

/-- Every stored workspace sits under its own ID and its owner has a membership row with
role `OWNER`. -/
def workspaceRepository.OwnerInv (r : workspaceRepository) : Prop :=
  ∀ id ws, r.FindByID id = some ws →
    ws.ID = id ∧ ∃ m ∈ r.FindMembers id, m.UserID = ws.OwnerID ∧ m.Role = "OWNER"

/-- Whether an operation leaves the owner's `OWNER` row alone: `UpdateMemberRole` on the
owner of a stored workspace only with role `OWNER`, and no `RemoveMember` on the owner. -/
def WorkspaceOp.sparesOwner (s : workspaceService) : WorkspaceOp → Bool
  | .updateMemberRole workspaceID userID role =>
    role == "OWNER" ||
      (s.workspaceRepo.FindByID workspaceID).map Workspace.OwnerID != some userID
  | .removeMember workspaceID userID =>
    (s.workspaceRepo.FindByID workspaceID).map Workspace.OwnerID != some userID
  | _ => true

/-- Whether every operation of a run, at the point it is applied, leaves the owner's row
alone. -/
def workspaceService.sparesOwners : workspaceService → List WorkspaceOp → Bool
  | _, [] => true
  | s, op :: rest => op.sparesOwner s && workspaceService.sparesOwners (s.step op) rest

/-! ## Comments (`repository.go`, lines 713-775; `service.go`, lines 1003-1102) -/

structure Comment where
  ID : String
  Content : String
  TaskID : String
  UserID : String
  CreatedAt : Time
  UpdatedAt : Time
  User : Option String
deriving DecidableEq, Repr

structure commentRepository where
  comments : GoMap Comment
deriving DecidableEq, Repr

/-- The method `commentRepository.FindByID` (lines 749-754). -/
def commentRepository.FindByID (r : commentRepository) (id : String) : Option Comment :=
  r.comments.get id

/-- The method `commentRepository.Update` (lines 766-770). -/
def commentRepository.Update (r : commentRepository) (comment : Comment) (now : Time) :
    Except Error Comment × commentRepository :=
  let comment := { comment with UpdatedAt := now }
  (.ok comment, { r with comments := r.comments.set comment.ID comment })

/-- The method `commentRepository.Delete` (lines 772-775). -/
def commentRepository.Delete (r : commentRepository) (id : String) :
    Except Error Unit × commentRepository :=
  (.ok (), { r with comments := r.comments.delete id })

/-- Every comment is stored under its own ID (`r.comments[comment.ID] = comment`). -/
def commentRepository.KeyedByID (r : commentRepository) : Prop :=
  ∀ id c, r.FindByID id = some c → c.ID = id

structure commentService where
  commentRepo : commentRepository
  taskRepo : taskRepository
  userRepo : userRepository
  notifSvc : notification.Service
deriving DecidableEq, Repr

/-- The method `commentService.Update` (lines 1072-1089); the comment is held by pointer,
so the user pointer filled in after `commentRepo.Update` also shows on the stored
comment. -/
def commentService.Update (s : commentService) (id userID content : String) (now : Time) :
    Except Error Comment × commentService :=
  match s.commentRepo.FindByID id with
  | none => (.error .ErrNotFound, s)
  | some comment =>
    if comment.UserID != userID then (.error .ErrUnauthorized, s)
    else
      let comment := { comment with Content := content }
      match s.commentRepo.Update comment now with
      | (.error err, commentRepo) => (.error err, { s with commentRepo := commentRepo })
      | (.ok comment, commentRepo) =>
        let comment := { comment with User := (s.userRepo.FindByID comment.UserID).map User.ID }
        (.ok comment,
          { s with commentRepo := { comments := commentRepo.comments.set comment.ID comment } })

/-- The method `commentService.Delete` (lines 1091-1102). -/
def commentService.Delete (s : commentService) (id userID : String) :
    Except Error Unit × commentService :=
  match s.commentRepo.FindByID id with
  | none => (.error .ErrNotFound, s)
  | some comment =>
    if comment.UserID != userID then (.error .ErrUnauthorized, s)
    else
      let res := s.commentRepo.Delete id
      (res.1, { s with commentRepo := res.2 })

/-- A comment service holding comment `c1`, written by `u1` on task `t1`. -/
def demoCommentService : commentService :=
  { commentRepo :=
      { comments := ⟨[("c1", { ID := "c1", Content := "first draft", TaskID := "t1",
                               UserID := "u1", CreatedAt := 1, UpdatedAt := 1,
                               User := none })]⟩ },
    taskRepo := { tasks := ⟨[("t1", demoTask "t1" "ABC-1" "TODO" none)]⟩ },
    userRepo := { users := ⟨[("u1", demoUser "u1" "a@x.io"), ("u2", demoUser "u2" "b@x.io")]⟩ },
    notifSvc := { notificationRepo := { notifications := ⟨[]⟩ } } }

/-! ## Reordering tasks in the Prisma-backed implementation -/

namespace Prisma

/-- The struct `models.ReorderTasksRequest` (`models.go`, lines 201-203). -/
structure ReorderTasksRequest where
  TaskIDs : List String
deriving DecidableEq, Repr

/-- The method `taskRepository.UpdateOrder` (`repository.go`, lines 576-581): the row with
that ID gets the order, and the client's not-found error comes back when no row has it. -/
def taskRepository.UpdateOrder (client : PrismaClient) (id : String) (order : Int) :
    Except Error Unit × PrismaClient :=
  if client.tasks.any (fun t => t.ID == id) then
    (.ok (), { client with
      tasks := client.tasks.map (fun t => if t.ID == id then { t with Order := order } else t) })
  else (.error .dbNotFound, client)

/-- The loop of `taskService.Reorder` from position `i` on. -/
def taskService.reorderFrom : Nat → List String → PrismaClient →
    Except Error Unit × PrismaClient
  | _, [], client => (.ok (), client)
  | i, taskID :: rest, client =>
    match taskRepository.UpdateOrder client taskID (i : Int) with
    | (.error err, client) => (.error err, client)
    | (.ok _, client) => taskService.reorderFrom (i + 1) rest client

/-- The method `taskService.Reorder` (`service.go`, lines 655-662). -/
def taskService.Reorder (client : PrismaClient) (req : ReorderTasksRequest) :
    Except Error Unit × PrismaClient :=
  taskService.reorderFrom 0 req.TaskIDs client

/-- The row with the given ID. -/
def PrismaClient.task (client : PrismaClient) (id : String) : Option TaskModel :=
  client.tasks.find? (fun t => t.ID == id)

/-- A row of project `p1` with the given ID and order. -/
def demoRow (id : String) (order : Int) : TaskModel :=
  { ID := id, Key := "ABC-" ++ id, Title := "task " ++ id, Description := none,
    Status := "TODO", Priority := "MEDIUM", Type_ := "TASK", StoryPoints := none,
    Order := order, ProjectID := "p1", SprintID := none, AssigneeID := none,
    ReporterID := "u1", ParentID := none, CreatedAt := 1, UpdatedAt := 1 }

/-- A database with four tasks `t1`..`t4` in that order. -/
def demoOrdered : PrismaClient :=
  { projects := [{ ID := "p1", Name := "Demo", Key := "ABC", SpaceID := "s1" }],
    tasks := [demoRow "t1" 0, demoRow "t2" 1, demoRow "t3" 2, demoRow "t4" 7] }

end Prisma

/-- A task service holding project `p1`, the users `u1` and `u2`, and the tasks `t1`
(assigned to nobody) and `t2` (assigned to `u2`), both reported by `u1`. -/
def demoTracker : taskService :=
  { taskRepo := { tasks := ⟨[("t1", demoTask "t1" "ABC-1" "TODO" none),
                             ("t2", { demoTask "t2" "ABC-2" "TODO" none with
                                        AssigneeID := some "u2" })]⟩ },
    projectRepo := { projects := ⟨[("p1", demoProject)]⟩, members := ⟨[]⟩,
                     taskCounter := ⟨[("p1", 2)]⟩ },
    userRepo := { users := ⟨[("u1", demoUser "u1" "a@x.io"), ("u2", demoUser "u2" "b@x.io")]⟩ },
    notifSvc := { notificationRepo := { notifications := ⟨[]⟩ } } }

/-- The notification that `Service.SendTaskAssigned` hands to `notificationRepo.Create`,
as it is stored (lines 24-36 with the ID and creation time set by the repository). -/
def notification.taskAssigned (userID taskTitle taskID projectID : String) (now : Time)
    (uuid : String) : Notification :=
  { ID := uuid, UserID := userID, Type_ := "TASK_ASSIGNED", Title := "Task Assigned",
    Message := "You have been assigned to task: " ++ taskTitle, Read := false,
    Data := [("taskId", taskID), ("projectId", projectID)], CreatedAt := now }

/-! ## Commenting on a task (`repository.go`, lines 741-747; `service.go`, lines 1019-1045) -/

/-- The method `commentRepository.Create` (lines 741-747). -/
def commentRepository.Create (r : commentRepository) (comment : Comment) (now : Time)
    (uuid : String) : Except Error Comment × commentRepository :=
  let comment := { comment with ID := uuid, CreatedAt := now, UpdatedAt := now }
  (.ok comment, { r with comments := r.comments.set comment.ID comment })

/-- The method `Service.SendTaskCommented` (`notification.go`, lines 56-69). -/
def notification.Service.SendTaskCommented (s : notification.Service)
    (userID taskTitle taskID : String) (now : Time) (uuid : String) :
    Except Error Unit × notification.Service :=
  let n : Notification :=
    { ID := "", UserID := userID, Type_ := "TASK_COMMENTED", Title := "New Comment",
      Message := "New comment on task: " ++ taskTitle, Read := false,
      Data := [("taskId", taskID)], CreatedAt := 0 }
  let res := s.notificationRepo.Create n now uuid
  (res.1, { s with notificationRepo := res.2 })

/-- The notifications sent by `commentService.Create` (lines 1029-1038): `uuidA` is the ID
drawn when the assignee is notified, `uuidR` the one drawn when the reporter is. The
error of `taskRepo.FindByID` and the results of `SendTaskCommented` are discarded by the
source. -/
def commentService.notify (s : commentService) (taskID userID : String) (now : Time)
    (uuidA uuidR : String) : notification.Service :=
  match s.taskRepo.FindByID taskID with
  | none => s.notifSvc
  | some task =>
    let notifSvc :=
      match task.AssigneeID with
      | some assignee =>
        if assignee != userID then
          (s.notifSvc.SendTaskCommented assignee task.Title task.ID now uuidA).2
        else s.notifSvc
      | none => s.notifSvc
    if task.ReporterID != userID
        && (task.AssigneeID.isNone || task.AssigneeID != some task.ReporterID) then
      (notifSvc.SendTaskCommented task.ReporterID task.Title task.ID now uuidR).2
    else notifSvc

/-- The method `commentService.Create` (lines 1019-1045); `uuid` is the ID drawn for the
comment. The comment is held by pointer, so the user pointer filled in at the end also
shows on the stored comment. -/
def commentService.Create (s : commentService) (taskID userID content : String) (now : Time)
    (uuid uuidA uuidR : String) : Except Error Comment × commentService :=
  let comment : Comment :=
    { ID := "", Content := content, TaskID := taskID, UserID := userID, CreatedAt := 0,
      UpdatedAt := 0, User := none }
  match s.commentRepo.Create comment now uuid with
  | (.error err, commentRepo) => (.error err, { s with commentRepo := commentRepo })
  | (.ok comment, commentRepo) =>
    let notifSvc := s.notify taskID userID now uuidA uuidR
    let comment := { comment with User := (s.userRepo.FindByID userID).map User.ID }
    (.ok comment,
      { s with commentRepo := { comments := commentRepo.comments.set comment.ID comment },
               notifSvc := notifSvc })

/-- The notification that `Service.SendTaskCommented` hands to `notificationRepo.Create`,
as it is stored (lines 57-66 with the ID and creation time set by the repository). -/
def notification.taskCommented (userID taskTitle taskID : String) (now : Time)
    (uuid : String) : Notification :=
  { ID := uuid, UserID := userID, Type_ := "TASK_COMMENTED", Title := "New Comment",
    Message := "New comment on task: " ++ taskTitle, Read := false,
    Data := [("taskId", taskID)], CreatedAt := now }

/-- A task of the demo project reported by `reporter` and assigned to `assignee`. -/
def demoAssigned (id reporter : String) (assignee : Option String) : Task :=
  { demoTask id "ABC-1" "TODO" none with ReporterID := reporter, AssigneeID := assignee }

/-- A comment service over one task `t1` reported by `u1` and assigned to `u2`. -/
def demoDiscussion : commentService :=
  { demoCommentService with
    taskRepo := { tasks := ⟨[("t1", demoAssigned "t1" "u1" (some "u2"))]⟩ } }

/-! ## Spaces (`repository.go`, lines 280-344; `service.go`, lines 432-485) -/

structure Space where
  ID : String
  Name : String
  Description : Option String
  Icon : Option String
  Color : Option String
  WorkspaceID : String
  CreatedAt : Time
  UpdatedAt : Time
deriving DecidableEq, Repr

structure spaceRepository where
  spaces : GoMap Space
deriving DecidableEq, Repr

/-- The method `spaceRepository.Create` (lines 309-315). -/
def spaceRepository.Create (r : spaceRepository) (space : Space) (now : Time) (uuid : String) :
    Except Error Space × spaceRepository :=
  let space := { space with ID := uuid, CreatedAt := now, UpdatedAt := now }
  (.ok space, { r with spaces := r.spaces.set space.ID space })

/-- The method `spaceRepository.FindByID` (lines 317-322). -/
def spaceRepository.FindByID (r : spaceRepository) (id : String) : Option Space :=
  r.spaces.get id

/-- The method `spaceRepository.FindByWorkspaceID` (lines 324-332). -/
def spaceRepository.FindByWorkspaceID (r : spaceRepository) (workspaceID : String) :
    List Space :=
  r.spaces.values.filter (fun s => s.WorkspaceID == workspaceID)

/-- The method `spaceRepository.Delete` (lines 341-344). -/
def spaceRepository.Delete (r : spaceRepository) (id : String) :
    Except Error Unit × spaceRepository :=
  (.ok (), { r with spaces := r.spaces.delete id })

structure spaceService where
  spaceRepo : spaceRepository
deriving DecidableEq, Repr

/-- The method `spaceService.Create` (lines 440-454). -/
def spaceService.Create (s : spaceService) (workspaceID name : String)
    (description icon color : Option String) (now : Time) (uuid : String) :
    Except Error Space × spaceService :=
  let space : Space :=
    { ID := "", Name := name, Description := description, Icon := icon, Color := color,
      WorkspaceID := workspaceID, CreatedAt := 0, UpdatedAt := 0 }
  let res := s.spaceRepo.Create space now uuid
  (res.1, { s with spaceRepo := res.2 })

/-- The method `spaceService.GetByID` (lines 456-465). -/
def spaceService.GetByID (s : spaceService) (id : String) : Except Error Space :=
  match s.spaceRepo.FindByID id with
  | none => .error .ErrNotFound
  | some space => .ok space

/-- The method `spaceService.ListByWorkspace` (lines 467-469). -/
def spaceService.ListByWorkspace (s : spaceService) (workspaceID : String) : List Space :=
  s.spaceRepo.FindByWorkspaceID workspaceID

/-- The method `spaceService.Delete` (lines 483-485). -/
def spaceService.Delete (s : spaceService) (id : String) : Except Error Unit × spaceService :=
  let res := s.spaceRepo.Delete id
  (res.1, { s with spaceRepo := res.2 })

/-- The container `Services` of `NewServices` (`service.go`, lines 30-58), cut down to the
workspace service and the space service. The two are built over different repositories
(`repos.WorkspaceRepo`, `repos.UserRepo` and the notification service for the first,
`repos.SpaceRepo` for the second), so holding them side by side by value loses nothing. -/
structure Services where
  Workspace : workspaceService
  Space : spaceService
deriving DecidableEq, Repr

/-- The call `Workspace.Delete(ctx, id)` on the container, as made by
`WorkspaceHandler.Delete` (`handlers.go`, lines 252-261). -/
def Services.deleteWorkspace (S : Services) (id : String) : Except Error Unit × Services :=
  let res := S.Workspace.Delete id
  (res.1, { S with Workspace := res.2 })

/-- A space `sp1` of workspace `w1`. -/
def demoSpace : Space :=
  { ID := "sp1", Name := "Engineering", Description := none, Icon := none, Color := none,
    WorkspaceID := "w1", CreatedAt := 2, UpdatedAt := 2 }

/-- The workspace `w1` of `demoWorkspaceService` together with its space `sp1`. -/
def demoServices : Services :=
  { Workspace := demoWorkspaceService,
    Space := { spaceRepo := { spaces := ⟨[("sp1", demoSpace)]⟩ } } }

/-! ## Authentication (`repository.go`, lines 87-143; `service.go`, lines 60-271) -/

/-- The method `userRepository.Create` (lines 87-93). -/
def userRepository.Create (r : userRepository) (user : User) (now : Time) (uuid : String) :
    Except Error User × userRepository :=
  let user := { user with ID := uuid, CreatedAt := now, UpdatedAt := now }
  (.ok user, { r with users := r.users.set user.ID user })

/-- The method `userRepository.Update` (lines 111-115). -/
def userRepository.Update (r : userRepository) (user : User) (now : Time) :
    Except Error User × userRepository :=
  let user := { user with UpdatedAt := now }
  (.ok user, { r with users := r.users.set user.ID user })

/-- The method `userRepository.SaveRefreshToken` (lines 117-122). -/
def userRepository.SaveRefreshToken (r : userRepository) (token : RefreshToken) (now : Time)
    (uuid : String) : Except Error Unit × userRepository :=
  let token := { token with ID := uuid, CreatedAt := now }
  (.ok (), { r with refreshTokens := r.refreshTokens.set token.Token token })

/-- The method `userRepository.FindRefreshToken` (lines 124-129). -/
def userRepository.FindRefreshToken (r : userRepository) (token : String) :
    Option RefreshToken :=
  r.refreshTokens.get token

/-- The method `userRepository.DeleteRefreshToken` (lines 131-134). -/
def userRepository.DeleteRefreshToken (r : userRepository) (token : String) :
    Except Error Unit × userRepository :=
  (.ok (), { r with refreshTokens := r.refreshTokens.delete token })

/-- The fields of `config.Config` read by the auth service (`config.go`, lines 19-22). -/
structure Config where
  JWTSecret : String
  JWTExpiry : Int
  RefreshExpiry : Int
deriving DecidableEq, Repr

/-- The library calls of the auth service, as functions that are not looked into:
`bcrypt.GenerateFromPassword` (the hash or an error), `bcrypt.CompareHashAndPassword`
(hash, then password; true when it returns no error) and the signing of the access token
`jwt.NewWithClaims(...).SignedString` (secret, subject, expiry, issue time). -/
structure Crypto where
  GenerateFromPassword : String → Except Error String
  CompareHashAndPassword : String → String → Bool
  SignedString : String → String → Time → Time → Except Error String

/-- The instant `t.Add(time.Hour * time.Duration(h))`, instants being counted in
seconds; the configured numbers of hours and days are far from the range of
`time.Duration`. -/
def Time.addHours (t : Time) (h : Int) : Time := Int.toNat ((t : Int) + 3600 * h)

structure authService where
  cfg : Config
  userRepo : userRepository
deriving DecidableEq, Repr

/-- The method `authService.generateTokens` (lines 195-223): `tokenUUID` is the refresh
token string drawn by `uuid.New()`, `idUUID` the ID drawn by `SaveRefreshToken`. -/
def authService.generateTokens (lib : Crypto) (s : authService) (userID : String) (now : Time)
    (tokenUUID idUUID : String) : Except Error (String × String) × authService :=
  match lib.SignedString s.cfg.JWTSecret userID (Time.addHours now s.cfg.JWTExpiry) now with
  | .error err => (.error err, s)
  | .ok accessTokenString =>
    let rt : RefreshToken :=
      { ID := "", Token := tokenUUID, UserID := userID,
        ExpiresAt := Time.addHours now (24 * s.cfg.RefreshExpiry), CreatedAt := 0 }
    match s.userRepo.SaveRefreshToken rt now idUUID with
    | (.error err, userRepo) => (.error err, { s with userRepo := userRepo })
    | (.ok _, userRepo) => (.ok (accessTokenString, tokenUUID), { s with userRepo := userRepo })

/-- The method `authService.Register` (lines 80-112); `userUUID` is the ID drawn for the
user. The results are the user, the access token and the refresh token. -/
def authService.Register (lib : Crypto) (s : authService) (name email password : String)
    (now : Time) (userUUID tokenUUID idUUID : String) :
    Except Error (User × String × String) × authService :=
  match s.userRepo.FindByEmail email with
  | some _ => (.error .ErrUserExists, s)
  | none =>
    match lib.GenerateFromPassword password with
    | .error err => (.error err, s)
    | .ok hashedPassword =>
      let user : User :=
        { ID := "", Email := email, Password := hashedPassword, Name := name, Avatar := none,
          Status := "ONLINE", CreatedAt := 0, UpdatedAt := 0 }
      match s.userRepo.Create user now userUUID with
      | (.error err, userRepo) => (.error err, { s with userRepo := userRepo })
      | (.ok user, userRepo) =>
        match authService.generateTokens lib { s with userRepo := userRepo } user.ID now
            tokenUUID idUUID with
        | (.error err, s) => (.error err, s)
        | (.ok (accessToken, refreshToken), s) => (.ok (user, accessToken, refreshToken), s)

/-- The method `authService.Login` (lines 114-135). The user is held by pointer and
stored under its ID, so the status set before `userRepo.Update` is the one stored. -/
def authService.Login (lib : Crypto) (s : authService) (email password : String)
    (now : Time) (tokenUUID idUUID : String) :
    Except Error (User × String × String) × authService :=
  match s.userRepo.FindByEmail email with
  | none => (.error .ErrInvalidCredentials, s)
  | some user =>
    if !lib.CompareHashAndPassword user.Password password then
      (.error .ErrInvalidCredentials, s)
    else
      let user := { user with Status := "ONLINE" }
      let res := s.userRepo.Update user now
      let user := match res.1 with
        | .ok user => user
        | .error _ => user
      match authService.generateTokens lib { s with userRepo := res.2 } user.ID now
          tokenUUID idUUID with
      | (.error err, s) => (.error err, s)
      | (.ok (accessToken, refreshToken), s) => (.ok (user, accessToken, refreshToken), s)

/-- The method `authService.RefreshToken` (lines 137-160): `time.Now().After(rt.ExpiresAt)`
is `rt.ExpiresAt < now`. The results are the access token and the new refresh token. -/
def authService.RefreshToken (lib : Crypto) (s : authService) (refreshToken : String)
    (now : Time) (tokenUUID idUUID : String) :
    Except Error (String × String) × authService :=
  match s.userRepo.FindRefreshToken refreshToken with
  | none => (.error .ErrInvalidToken, s)
  | some rt =>
    if rt.ExpiresAt < now then
      (.error .ErrInvalidToken,
        { s with userRepo := (s.userRepo.DeleteRefreshToken refreshToken).2 })
    else
      let s := { s with userRepo := (s.userRepo.DeleteRefreshToken refreshToken).2 }
      authService.generateTokens lib s rt.UserID now tokenUUID idUUID

/-- The method `authService.Logout` (lines 162-164). -/
def authService.Logout (s : authService) (refreshToken : String) :
    Except Error Unit × authService :=
  let res := s.userRepo.DeleteRefreshToken refreshToken
  (res.1, { s with userRepo := res.2 })

structure userService where
  userRepo : userRepository
deriving DecidableEq, Repr

/-- The method `userService.Update` (lines 253-271). -/
def userService.Update (s : userService) (id : String) (name avatar : Option String)
    (now : Time) : Except Error User × userService :=
  match s.userRepo.FindByID id with
  | none => (.error .ErrUserNotFound, s)
  | some user =>
    let user := match name with
      | some name => { user with Name := name }
      | none => user
    let user := match avatar with
      | some _ => { user with Avatar := avatar }
      | none => user
    let res := s.userRepo.Update user now
    (res.1, { s with userRepo := res.2 })

/-- The calls that write to the user store: `Register`, `Login`, and `Update` of the
user service, which `NewServices` builds over the same `repos.UserRepo` (lines 45-46). -/
inductive AuthOp where
  | register (name email password : String) (now : Time) (userUUID tokenUUID idUUID : String)
  | login (email password : String) (now : Time) (tokenUUID idUUID : String)
  | update (id : String) (name avatar : Option String) (now : Time)

/-- The state after one call. -/
def authService.step (lib : Crypto) (s : authService) : AuthOp → authService
  | .register name email password now userUUID tokenUUID idUUID =>
    (authService.Register lib s name email password now userUUID tokenUUID idUUID).2
  | .login email password now tokenUUID idUUID =>
    (authService.Login lib s email password now tokenUUID idUUID).2
  | .update id name avatar now =>
    { s with userRepo := ((userService.mk s.userRepo).Update id name avatar now).2.userRepo }

/-- The state after a list of calls. -/
def authService.run (lib : Crypto) (s : authService) (ops : List AuthOp) : authService :=
  ops.foldl (authService.step lib) s

/-- Every user is stored under its own ID (`r.users[user.ID] = user`). -/
def userRepository.KeyedByID (r : userRepository) : Prop :=
  ∀ e ∈ r.users.entries, e.2.ID = e.1

/-- Users stored under different IDs have different emails. -/
def userRepository.EmailsUnique (r : userRepository) : Prop :=
  ∀ e1 ∈ r.users.entries, ∀ e2 ∈ r.users.entries, e1.2.Email = e2.2.Email → e1.1 = e2.1

/-- Stand-ins for the library calls, used to evaluate the auth service. -/
def demoCrypto : Crypto :=
  { GenerateFromPassword := fun password => .ok ("hash:" ++ password),
    CompareHashAndPassword := fun hash password => hash == "hash:" ++ password,
    SignedString := fun _ sub _ _ => .ok ("jwt:" ++ sub) }

/-- The auth service over the repository made by `NewUserRepository`, with the default
configuration of `config.Load`. -/
def freshAuthService : authService :=
  { cfg := { JWTSecret := "your-secret-key-change-in-production", JWTExpiry := 24,
             RefreshExpiry := 7 },
    userRepo := { users := ⟨[]⟩ } }

/-- An auth service after `a@x.io` registered at instant 10. -/
def demoAuthService : authService :=
  (authService.Register demoCrypto freshAuthService "Ann" "a@x.io" "password1" 10
    "u1" "r1" "k1").2

/-- The user stored by the registration in `demoAuthService`. -/
def demoAnn : User :=
  { ID := "u1", Email := "a@x.io", Password := "hash:password1", Name := "Ann",
    Avatar := none, Status := "ONLINE", CreatedAt := 10, UpdatedAt := 10 }

/-! ## Sprint notifications and the handler of `Complete` -/

/-- The notification that `Service.SendSprintStarted` hands to `notificationRepo.Create`,
as it is stored (`notification.go`, lines 73-82, with the ID and creation time set by the
repository). -/
def notification.sprintStarted (userID sprintName sprintID : String) (now : Time)
    (uuid : String) : Notification :=
  { ID := uuid, UserID := userID, Type_ := "SPRINT_STARTED", Title := "Sprint Started",
    Message := "Sprint has started: " ++ sprintName, Read := false,
    Data := [("sprintId", sprintID)], CreatedAt := now }

/-- The notification that `Service.SendSprintCompleted` hands to
`notificationRepo.Create`, as it is stored (`notification.go`, lines 89-98). -/
def notification.sprintCompleted (userID sprintName sprintID : String) (now : Time)
    (uuid : String) : Notification :=
  { ID := uuid, UserID := userID, Type_ := "SPRINT_COMPLETED", Title := "Sprint Completed",
    Message := "Sprint has been completed: " ++ sprintName, Read := false,
    Data := [("sprintId", sprintID)], CreatedAt := now }

/-- The request body `models.CompleteSprintRequest` (`models.go`, lines 191-193). -/
structure CompleteSprintRequest where
  MoveIncomplete : String
deriving DecidableEq, Repr

/-- The request as `SprintHandler.Complete` has it after `var req` and
`c.ShouldBindJSON(&req)` (`handlers.go`, lines 640-641), whose error is not looked at:
the field holds the `moveIncomplete` value of the body, and stays at the zero value `""`
when the body carries none. -/
def SprintHandler.bind (moveIncomplete : Option String) : CompleteSprintRequest :=
  match moveIncomplete with
  | some v => { MoveIncomplete := v }
  | none => { MoveIncomplete := "" }

/-- The call of the service in `SprintHandler.Complete` (`handlers.go`, line 643). -/
def SprintHandler.Complete (sprintService : sprintService) (id : String)
    (moveIncomplete : Option String) (now : Time) (uuid : String) :
    Except Error Sprint × OraScrum.sprintService :=
  let req := SprintHandler.bind moveIncomplete
  sprintService.Complete id req.MoveIncomplete now uuid

/-- The task that a bulk update is said to leave behind: `Status`, `SprintID` and
`OrderIndex` take the value of the update where it has one, `UpdatedAt` is the time of
the call, and every other field is the old one. -/
def BulkTaskUpdate.applied (u : BulkTaskUpdate) (now : Time) (t : Task) : Task :=
  { t with Status := u.Status.getD t.Status,
           SprintID := if u.SprintID.isSome then u.SprintID else t.SprintID,
           OrderIndex := u.OrderIndex.getD t.OrderIndex,
           UpdatedAt := now }

/-- Three tasks of the demo project and a bulk update that names two of them. -/
def demoBulkStore : taskRepository :=
  { tasks := ⟨[("t1", demoTask "t1" "ABC-1" "TODO" none),
               ("t2", demoTask "t2" "ABC-2" "TODO" (some "sp1")),
               ("t3", demoTask "t3" "ABC-3" "DONE" (some "sp1"))]⟩ }

/-- The bulk update used with `demoBulkStore`. -/
def demoBulk : List BulkTaskUpdate :=
  [{ ID := "t1", Status := some "IN_PROGRESS", SprintID := some "sp1", OrderIndex := none },
   { ID := "t2", Status := none, SprintID := none, OrderIndex := some 4 }]

/-! ## Reading notifications (`repository.go`, lines 884-930) -/

/-- The method `notificationRepository.FindByID` (lines 884-889). -/
def notificationRepository.FindByID (r : notificationRepository) (id : String) :
    Option Notification :=
  r.notifications.get id

/-- One round of the loop of `CountByUserID` (lines 906-912) on the pair
`(total, unread)`. -/
def notificationRepository.countStep (userID : String) (acc : Int × Int) (n : Notification) :
    Int × Int :=
  if n.UserID == userID then
    (wrapInt (acc.1 + 1), if !n.Read then wrapInt (acc.2 + 1) else acc.2)
  else acc

/-- The method `notificationRepository.CountByUserID` (lines 904-914): the pair
`(total, unread)`; the error returned is always nil. -/
def notificationRepository.CountByUserID (r : notificationRepository) (userID : String) :
    Int × Int :=
  r.notifications.values.foldl (notificationRepository.countStep userID) (0, 0)

/-- The method `notificationRepository.MarkAsRead` (lines 916-921): the flag is set through
the stored pointer. -/
def notificationRepository.MarkAsRead (r : notificationRepository) (id : String) :
    Except Error Unit × notificationRepository :=
  match r.notifications.get id with
  | some n => (.ok (), { r with notifications := r.notifications.set id { n with Read := true } })
  | none => (.ok (), r)

/-- The body of the loop of `MarkAllAsRead` (lines 924-928) for one notification. -/
def notificationRepository.markFor (userID : String) (n : Notification) : Notification :=
  if n.UserID == userID then { n with Read := true } else n

/-- The method `notificationRepository.MarkAllAsRead` (lines 923-930): the flag is set
through each stored pointer whose notification belongs to the user. -/
def notificationRepository.MarkAllAsRead (r : notificationRepository) (userID : String) :
    Except Error Unit × notificationRepository :=
  (.ok (), { r with notifications :=
    ⟨r.notifications.entries.map
      (fun e => (e.1, notificationRepository.markFor userID e.2))⟩ })

/-! ## Pagination in the Prisma-backed implementation
(`handlers.go`, lines 792-820; `models.go`, lines 291-308; `repository.go`, lines 84-85 and
505-526; `service.go`, lines 243-261 and 611-629) -/

/-- The library function `strconv.Atoi` of Go (not part of the repository): an optional
sign followed by one or more decimal digits, the value within the 64-bit `int`; every
other string is an error. -/
def strconv.Atoi (s : String) : Option Int :=
  let cs := s.data
  let signed := cs.head? == some '-' || cs.head? == some '+'
  let ds := if signed then cs.tail else cs
  if ds.isEmpty || !ds.all Char.isDigit then none
  else
    let n : Int := (readDigits 0 ds : Nat)
    let v : Int := if cs.head? == some '-' then -n else n
    if v < -9223372036854775808 ∨ 9223372036854775807 < v then none else some v

/-- Integer division of Go on `int`: the quotient is truncated toward zero, and a zero
divisor is a run-time panic, shown as `none`. -/
def goDiv (a b : Int) : Option Int :=
  if b = 0 then none else some (wrapInt (Int.tdiv a b))

namespace Prisma

/-- The struct `models.ListParams` (`models.go`, lines 291-298). -/
structure ListParams where
  Page : Int
  PageSize : Int
  Search : String
  SortBy : String
  SortOrder : String
  Filters : List (String × String)
deriving DecidableEq, Repr

/-- The function `models.NewListParams` (`models.go`, lines 300-308). -/
def NewListParams : ListParams :=
  { Page := 1, PageSize := 20, Search := "", SortBy := "createdAt", SortOrder := "desc",
    Filters := [] }

/-- The call `c.Query(key)` of gin on the query of the request URL, given as its list of
keys and values: the first value of the key, or the empty string. -/
def Query (query : List (String × String)) (key : String) : String :=
  ((query.find? (fun e => e.1 == key)).map Prod.snd).getD ""

/-- The function `parseListParams` (`handlers.go`, lines 792-820). -/
def parseListParams (query : List (String × String)) : ListParams :=
  let params := NewListParams
  let params :=
    if Query query "page" != "" then
      match strconv.Atoi (Query query "page") with
      | some p => if p > 0 then { params with Page := p } else params
      | none => params
    else params
  let params :=
    if Query query "pageSize" != "" then
      match strconv.Atoi (Query query "pageSize") with
      | some ps => if ps > 0 ∧ ps ≤ 100 then { params with PageSize := ps } else params
      | none => params
    else params
  let params :=
    if Query query "search" != "" then { params with Search := Query query "search" }
    else params
  let params :=
    if Query query "sortBy" != "" then { params with SortBy := Query query "sortBy" }
    else params
  let params :=
    if Query query "sortOrder" != "" then { params with SortOrder := Query query "sortOrder" }
    else params
  params

/-- The local `offset := (params.Page - 1) * params.PageSize` of
`taskRepository.FindByProjectID` (`repository.go`, line 506) and of `userRepository.List`
(line 85), which is handed to `Skip`. -/
def pageOffset (params : ListParams) : Int :=
  wrapInt (wrapInt (params.Page - 1) * params.PageSize)

/-- The field `TotalPages: (total + params.PageSize - 1) / params.PageSize` of the
responses of `taskService.ListByProject` (`service.go`, line 627) and `userService.List`
(line 259). -/
def totalPages (total : Int) (params : ListParams) : Option Int :=
  goDiv (wrapInt (wrapInt (total + params.PageSize) - 1)) params.PageSize

/-- The numbers of `taskRepository.FindByProjectID` (`repository.go`, lines 505-526): the
offset of the page query and the total `len(all)` of the rows of the project. The rows
of the page, which are the answer of the database to the query with `Skip(offset)` and
`Take(params.PageSize)`, are left out. -/
def taskRepository.FindByProjectID (client : PrismaClient) (projectID : String)
    (params : ListParams) : Int × Int :=
  let offset := pageOffset params
  let all := client.tasks.filter (fun t => t.ProjectID == projectID)
  (offset, (all.length : Int))

/-- The struct `models.PaginatedResponse` (`models.go`, lines 278-284) without `Data`. -/
structure PaginatedResponse where
  Total : Int
  Page : Int
  PageSize : Int
  TotalPages : Int
deriving DecidableEq, Repr

/-- The method `taskService.ListByProject` (`service.go`, lines 611-629), without the
rows of the page; `none` is the panic of a division by zero. -/
def taskService.ListByProject (client : PrismaClient) (projectID : String)
    (params : ListParams) : Option PaginatedResponse :=
  let total := (taskRepository.FindByProjectID client projectID params).2
  (totalPages total params).map (fun pages =>
    { Total := total, Page := params.Page, PageSize := params.PageSize, TotalPages := pages })

/-- The query `?page=9223372036854775807&pageSize=100`. -/
def demoQuery : List (String × String) :=
  [("page", "9223372036854775807"), ("pageSize", "100")]

end Prisma

/-! ## `taskService.Create` over repositories that may fail -/

/-- The calls that `taskService.Create` makes on the interfaces `ProjectRepository` and
`TaskRepository` (`repository.go`, lines 372-382 and 582-593), as functions on the stores
that may return an error. A Go result `(value, error)` is a pair: the value is there
whatever the error is. `Create` gives back the task as the call leaves it behind the
pointer. -/
structure TaskRepos where
  FindByID : projectRepository → String → Option Project × Option Error
  GetNextTaskNumber : projectRepository → String → (Int × Option Error) × projectRepository
  Create : taskRepository → Task → Time → String → (Task × Option Error) × taskRepository

/-- The in-memory repositories of `repository.go` as such functions: they never return an
error. -/
def TaskRepos.inMemory : TaskRepos :=
  { FindByID := fun r id => (r.FindByID id, none),
    GetNextTaskNumber := fun r projectID =>
      (((r.GetNextTaskNumber projectID).1, none), (r.GetNextTaskNumber projectID).2),
    Create := fun r task now uuid =>
      match r.Create task now uuid with
      | (.ok created, r2) => ((created, none), r2)
      | (.error err, r2) => ((task, some err), r2) }

/-- The task that `taskService.Create` builds before it calls `taskRepo.Create`
(lines 822-850). -/
def taskService.draft (a : CreateTaskArgs) (taskKey : String) : Task :=
  let statusVal := match a.status with
    | some v => v
    | none => "BACKLOG"
  let priorityVal := match a.priority with
    | some v => v
    | none => "MEDIUM"
  let typeVal := match a.taskType with
    | some v => v
    | none => "TASK"
  { ID := "", Key := taskKey, Title := a.title, Description := a.description,
    Status := statusVal, Priority := priorityVal, Type_ := typeVal,
    ProjectID := a.projectID, SprintID := a.sprintID, AssigneeID := a.assigneeID,
    ReporterID := a.reporterID, ParentID := a.parentID, StoryPoints := a.storyPoints,
    DueDate := a.dueDate, OrderIndex := 0, Labels := a.labels, CreatedAt := 0,
    UpdatedAt := 0, Assignee := none, Reporter := none }

/-- The method `taskService.Create` (lines 811-869) with the calls on `s.projectRepo` and
`s.taskRepo` made through `repos`. -/
def taskService.CreateWith (repos : TaskRepos) (s : taskService) (a : CreateTaskArgs) :
    Except Error Task × taskService :=
  match repos.FindByID s.projectRepo a.projectID with
  | (_, some _) => (.error .ErrNotFound, s)
  | (none, none) => (.error .ErrNotFound, s)
  | (some project, none) =>
    let next := repos.GetNextTaskNumber s.projectRepo a.projectID
    let taskNum := next.1.1
    let projectRepo := next.2
    let taskKey := project.Key ++ "-" ++ fmtInt taskNum
    let task := taskService.draft a taskKey
    match repos.Create s.taskRepo task a.now a.taskUUID with
    | ((_, some err), taskRepo) =>
      (.error err, { s with projectRepo := projectRepo, taskRepo := taskRepo })
    | ((task, none), taskRepo) =>
      let notifSvc :=
        match a.assigneeID with
        | some assignee =>
          if assignee != a.reporterID then
            (s.notifSvc.SendTaskAssigned assignee task.Title task.ID a.projectID
              a.now a.notifUUID).2
          else s.notifSvc
        | none => s.notifSvc
      let task := taskService.populate s.userRepo task
      (.ok task, { s with projectRepo := projectRepo,
                          taskRepo := { tasks := taskRepo.tasks.set task.ID task },
                          notifSvc := notifSvc })

/-- In-memory repositories whose `GetNextTaskNumber` fails with `err` (and the number 0)
without touching the counter. -/
def TaskRepos.failingNumber (err : Error) : TaskRepos :=
  { TaskRepos.inMemory with GetNextTaskNumber := fun r _ => ((0, some err), r) }

/-- In-memory repositories whose `FindByID` fails with `err`. -/
def TaskRepos.failingFind (err : Error) : TaskRepos :=
  { TaskRepos.inMemory with FindByID := fun _ _ => (none, some err) }

/-- In-memory repositories whose `Create` fails with `err` and stores nothing. -/
def TaskRepos.failingCreate (err : Error) : TaskRepos :=
  { TaskRepos.inMemory with Create := fun r task _ _ => ((task, some err), r) }

namespace Prisma

/-- The calls that `taskService.Create` and `GetByID` make on the repositories
(`service.go`, lines 585-609), as functions on the database that may return an error;
`GetNextTaskNumber` returns its number next to the error, as the source does
(`return 1, err`). -/
structure TaskRepos where
  FindProject : PrismaClient → String → Except Error ProjectModel
  GetNextTaskNumber : PrismaClient → String → Int × Option Error
  Create : PrismaClient → CreateTaskRequest → String → String → Time → String →
    Except Error TaskModel × PrismaClient
  FindByID : PrismaClient → String → Except Error TaskModel

/-- The repositories of `repository.go` over a database that answers every query. -/
def TaskRepos.working : TaskRepos :=
  { FindProject := projectRepository.FindByID,
    GetNextTaskNumber := fun client projectID =>
      (projectRepository.GetNextTaskNumber client projectID, none),
    Create := fun client req key reporterID now uuid =>
      (.ok (taskRepository.Create client req key reporterID now uuid).1,
        (taskRepository.Create client req key reporterID now uuid).2),
    FindByID := taskRepository.FindByID }

/-- The method `taskService.Create` (`service.go`, lines 585-601) followed by `GetByID`
(lines 603-609), with the calls on the repositories made through `repos`. -/
def taskService.CreateWith (repos : TaskRepos) (client : PrismaClient)
    (req : CreateTaskRequest) (reporterID : String) (now : Time) (uuid : String) :
    Except Error TaskModel × PrismaClient :=
  match repos.FindProject client req.ProjectID with
  | .error _ => (.error .ErrNotFound, client)
  | .ok project =>
    let nextNum := (repos.GetNextTaskNumber client req.ProjectID).1
    let key := project.Key ++ "-" ++ fmtInt nextNum
    match repos.Create client req key reporterID now uuid with
    | (.error err, client) => (.error err, client)
    | (.ok task, client) =>
      match repos.FindByID client task.ID with
      | .ok t => (.ok t, client)
      | .error _ => (.error .ErrNotFound, client)

/-- The working repositories, but the query of `GetNextTaskNumber` fails with `err`:
the method returns `1, err` (`repository.go`, lines 358-360). -/
def TaskRepos.failingNumber (err : Error) : TaskRepos :=
  { TaskRepos.working with GetNextTaskNumber := fun _ _ => (1, some err) }

end Prisma

/-- A notification store with two unread notifications of `u1` and one of `u2`. -/
def demoInbox : notificationRepository :=
  { notifications := ⟨[("n1", notification.taskAssigned "u1" "task t1" "t1" "p1" 3 "n1"),
                       ("n2", notification.taskCommented "u1" "task t1" "t1" 4 "n2"),
                       ("n3", notification.taskAssigned "u2" "task t2" "t2" "p1" 5 "n3")]⟩ }

/-- The working repositories of the Prisma-backed implementation, but the `FindByID` of
the task repository, which `GetByID` calls for the closing re-read, fails with `err`. -/
def Prisma.TaskRepos.failingReread (err : Prisma.Error) : Prisma.TaskRepos :=
  { Prisma.TaskRepos.working with FindByID := fun _ _ => .error err }

/-! ## Calls of `taskService.Create` that run at the same time (Prisma-backed implementation) -/

namespace Prisma

/-- A call of `taskService.Create` (`service.go`, lines 585-609) between two of its
repository calls, with the local variables it holds: not yet started; `project` read by
`projectRepo.FindByID`; `nextNum` read by `GetNextTaskNumber`; `task` inserted by
`repo.Create`; returned. Each repository call is one query (`FindUnique`, `FindMany`,
`CreateOne`, `FindUnique`), and the source opens no transaction and takes no lock around
them. -/
inductive CreateCall where
  | start (req : CreateTaskRequest) (reporterID : String) (now : Time) (uuid : String)
  | found (req : CreateTaskRequest) (reporterID : String) (now : Time) (uuid : String)
      (project : ProjectModel)
  | numbered (req : CreateTaskRequest) (reporterID : String) (now : Time) (uuid : String)
      (project : ProjectModel) (nextNum : Int)
  | created (task : TaskModel)
  | returned (result : Except Error TaskModel)

/-- The next repository call of a call of `taskService.Create`, on the database as it is
at that moment. -/
def CreateCall.step (client : PrismaClient) : CreateCall → CreateCall × PrismaClient
  | .start req reporterID now uuid =>
    match projectRepository.FindByID client req.ProjectID with
    | .error _ => (.returned (.error .ErrNotFound), client)
    | .ok project => (.found req reporterID now uuid project, client)
  | .found req reporterID now uuid project =>
    (.numbered req reporterID now uuid project
      (projectRepository.GetNextTaskNumber client req.ProjectID), client)
  | .numbered req reporterID now uuid project nextNum =>
    let key := project.Key ++ "-" ++ fmtInt nextNum
    let made := taskRepository.Create client req key reporterID now uuid
    (.created made.1, made.2)
  | .created task => (.returned (taskService.GetByID client task.ID), client)
  | .returned result => (.returned result, client)

/-- The result of a call that has returned. -/
def CreateCall.result : CreateCall → Option (Except Error TaskModel)
  | .returned result => some result
  | _ => none

end Prisma

namespace GoMap

variable {β : Type}

theorem find_map_set (l : List (String × β)) (k k' : String) (v : β) :
    ((l.map (fun e => if e.1 == k then (k, v) else e)).find? (fun e => e.1 == k')).map Prod.snd
      = if k' = k then ((l.find? (fun e => e.1 == k)).map (fun _ => v))
        else (l.find? (fun e => e.1 == k')).map Prod.snd := by
  induction l with
  | nil => simp
  | cons e l ih =>
    obtain ⟨a, b⟩ := e
    simp only [List.map_cons, List.find?_cons]
    by_cases hk : a = k
    · subst hk
      simp only [beq_self_eq_true, if_true]
      by_cases hkk : k' = a
      · subst hkk; simp
      · have hb : (a == k') = false := beq_eq_false_iff_ne.mpr (fun h => hkk h.symm)
        simp only [hb, if_neg hkk]
        rw [if_neg hkk] at ih; exact ih
    · have hb : (a == k) = false := beq_eq_false_iff_ne.mpr hk
      simp only [hb, Bool.false_eq_true, if_false]
      by_cases hkk : k' = k
      · subst hkk
        simp only [hb, if_true] at ih ⊢
        exact ih
      · simp only [if_neg hkk] at ih ⊢
        by_cases he : a = k'
        · subst he; simp
        · have hb2 : (a == k') = false := beq_eq_false_iff_ne.mpr he
          simp only [hb2]
          exact ih

theorem get_set (m : GoMap β) (k k' : String) (v : β) :
    (m.set k v).get k' = if k' = k then some v else m.get k' := by
  unfold set get
  by_cases hany : m.entries.any (fun e => e.1 == k) = true
  · rw [if_pos hany]
    simp only []
    rw [find_map_set]
    by_cases hkk : k' = k
    · simp only [if_pos hkk]
      obtain ⟨e, he, hek⟩ := List.any_eq_true.mp hany
      cases hf : m.entries.find? (fun e => e.1 == k) with
      | none =>
        have := List.find?_eq_none.mp hf e he
        exact absurd hek this
      | some x => rfl
    · simp only [if_neg hkk]
  · rw [if_neg hany]
    simp only [List.find?_append]
    have hnone : ∀ e ∈ m.entries, ¬ ((e.1 == k) = true) := by
      intro e he hek
      exact hany (List.any_eq_true.mpr ⟨e, he, hek⟩)
    by_cases hkk : k' = k
    · subst hkk
      have hf : m.entries.find? (fun e => e.1 == k') = none :=
        List.find?_eq_none.mpr hnone
      simp [hf, List.find?]
    · have hb : (k == k') = false := beq_eq_false_iff_ne.mpr (fun h => hkk h.symm)
      rw [if_neg hkk]
      simp only [List.find?_cons, hb, List.find?_nil, Option.or_none]

theorem get_delete (m : GoMap β) (k k' : String) :
    (m.delete k).get k' = if k' = k then none else m.get k' := by
  unfold delete get
  simp only []
  induction m.entries with
  | nil => simp
  | cons e l ih =>
    obtain ⟨a, b⟩ := e
    simp only [List.filter_cons, List.find?_cons]
    by_cases hk : a = k
    · subst hk
      simp only [bne_self_eq_false, Bool.false_eq_true, if_false]
      by_cases hkk : k' = a
      · subst hkk
        simp only [if_true] at ih ⊢
        exact ih
      · have hb : (a == k') = false := beq_eq_false_iff_ne.mpr (fun h => hkk h.symm)
        simp only [hb]
        exact ih
    · have hb : (a != k) = true := bne_iff_ne.mpr hk
      simp only [hb, if_true, List.find?_cons]
      by_cases hkk : k' = k
      · subst hkk
        have hb2 : (a == k') = false := beq_eq_false_iff_ne.mpr hk
        simp only [hb2, if_true] at ih ⊢
        exact ih
      · by_cases he : a = k'
        · subst he; simp [hkk]
        · have hb2 : (a == k') = false := beq_eq_false_iff_ne.mpr he
          simp only [hb2]
          exact ih
end GoMap

/-! ## Task keys: `taskService.Create` and the per-project counter -/

theorem wrapInt_of_lt (n : Nat) (h : n < 2 ^ 63) : wrapInt (n : Int) = (n : Int) := by
  unfold wrapInt
  have h1 : (n : Int) < 9223372036854775808 := by
    have : (2 : Nat) ^ 63 = 9223372036854775808 := by norm_num
    omega
  norm_num
  omega

theorem fmtInt_natCast (n : Nat) : fmtInt (n : Int) = toString n := rfl

theorem counterOf_getNext (r : projectRepository) (pid q : String) :
    (r.GetNextTaskNumber pid).2.counterOf q
      = if q = pid then wrapInt (r.counterOf pid + 1) else r.counterOf q := by
  unfold projectRepository.GetNextTaskNumber projectRepository.counterOf
  simp only [GoMap.get_set]
  by_cases h : q = pid
  · simp [h]
  · simp [h]

/-- What one call of `taskService.Create` does to the project store and the counters. -/
theorem create_projectRepo (s : taskService) (a : CreateTaskArgs) :
    (s.Create a).2.projectRepo.projects = s.projectRepo.projects ∧
    ∀ q, (s.Create a).2.projectRepo.counterOf q =
      if q = a.projectID ∧ (s.projectRepo.FindByID a.projectID).isSome
      then wrapInt (s.projectRepo.counterOf a.projectID + 1)
      else s.projectRepo.counterOf q := by
  unfold taskService.Create
  cases hP : s.projectRepo.FindByID a.projectID with
  | none => simp
  | some P =>
    simp only [taskRepository.Create, Option.isSome_some, and_true]
    refine ⟨rfl, fun q => ?_⟩
    exact counterOf_getNext s.projectRepo a.projectID q

/-- The result of one call of `taskService.Create` on a stored project. -/
theorem create_result (s : taskService) (a : CreateTaskArgs) (P : Project)
    (hP : s.projectRepo.FindByID a.projectID = some P) :
    ∃ t, (s.Create a).1 = .ok t ∧ t.ProjectID = a.projectID ∧
      t.Key = P.Key ++ "-" ++ fmtInt (wrapInt (s.projectRepo.counterOf a.projectID + 1)) := by
  unfold taskService.Create
  simp only [hP, taskRepository.Create]
  refine ⟨_, rfl, ?_, ?_⟩
  · cases a.assigneeID <;> rfl
  · cases a.assigneeID <;> rfl

theorem callsOn_cons_succ (pid : String) (b : CreateTaskArgs) (rest : List CreateTaskArgs)
    (j : Nat) :
    callsOn pid (b :: rest) (j + 1)
      = (if b.projectID = pid then 1 else 0) + callsOn pid rest j := by
  unfold callsOn
  by_cases h : b.projectID = pid
  · have hb : (b.projectID == pid) = true := beq_iff_eq.mpr h
    simp only [List.take_succ_cons, List.filter_cons, hb, if_true, List.length_cons, if_pos h]
    omega
  · have hb : (b.projectID == pid) = false := beq_eq_false_iff_ne.mpr h
    simp only [List.take_succ_cons, List.filter_cons, hb, Bool.false_eq_true, if_false,
      if_neg h, Nat.zero_add]

theorem createAll_key_from (pid : String) (P : Project) :
    ∀ (args : List CreateTaskArgs) (s : taskService) (c i : Nat) (a : CreateTaskArgs),
      s.projectRepo.FindByID pid = some P →
      s.projectRepo.counterOf pid = (c : Int) →
      args[i]? = some a → a.projectID = pid →
      c + callsOn pid args i < 2 ^ 63 →
      ∃ t, (s.createAll args).1[i]? = some (.ok t) ∧
        t.Key = P.Key ++ "-" ++ toString (c + callsOn pid args i) := by
  intro args
  induction args with
  | nil => intro s c i a _ _ hi; simp at hi
  | cons b rest ih =>
    intro s c i a hP hc hi ha hlt
    have hstep := create_projectRepo s b
    cases i with
    | zero =>
      simp only [List.getElem?_cons_zero, Option.some.injEq] at hi
      subst hi
      have hcount : callsOn pid (b :: rest) 0 = 1 := by
        simp [callsOn, List.take, List.filter, ha]
      rw [hcount] at hlt ⊢
      obtain ⟨t, ht, _, hkey⟩ := create_result s b P (by rw [ha]; exact hP)
      refine ⟨t, ?_, ?_⟩
      · simp [taskService.createAll, ht]
      · rw [hkey, ha, hc]
        have : ((c : Int) + 1) = ((c + 1 : Nat) : Int) := by push_cast; rfl
        rw [this, wrapInt_of_lt _ hlt, fmtInt_natCast]
    | succ j =>
      simp only [List.getElem?_cons_succ] at hi
      rw [callsOn_cons_succ] at hlt ⊢
      have hP2 : (s.Create b).2.projectRepo.FindByID pid = some P := by
        unfold projectRepository.FindByID at hP ⊢
        rw [hstep.1]; exact hP
      have hres : ((s.createAll (b :: rest)).1)[j + 1]? = ((s.Create b).2.createAll rest).1[j]? := by
        simp [taskService.createAll]
      rw [hres]
      by_cases hb : b.projectID = pid
      · simp only [hb, if_true] at hlt ⊢
        have hc2 : (s.Create b).2.projectRepo.counterOf pid = ((c + 1 : Nat) : Int) := by
          rw [hstep.2 pid, hb, hP, hc]
          simp only [Option.isSome_some, and_self, if_true]
          have : ((c : Int) + 1) = ((c + 1 : Nat) : Int) := by push_cast; rfl
          rw [this, wrapInt_of_lt _ (by omega)]
        obtain ⟨t, ht, hkey⟩ := ih (s.Create b).2 (c + 1) j a hP2 hc2 hi ha (by omega)
        refine ⟨t, ht, ?_⟩
        rw [hkey]
        have : c + 1 + callsOn pid rest j = c + (1 + callsOn pid rest j) := by omega
        rw [this]
      · simp only [hb, if_false, Nat.zero_add] at hlt ⊢
        have hc2 : (s.Create b).2.projectRepo.counterOf pid = (c : Int) := by
          rw [hstep.2 pid]
          have : ¬ (pid = b.projectID) := fun h => hb h.symm
          simp [this, hc]
        exact ih (s.Create b).2 c j a hP2 hc2 hi ha hlt

/-- C1: on a stored project with key `K` and a fresh counter, the call of
`taskService.Create` that is the `n`-th one on this project in a run of calls returns
a task whose key is `K`, a hyphen and the decimal rendering of `n` (for `n` in the
range of Go's `int`). -/
theorem create_nth_key (s : taskService) (pid : String) (P : Project)
    (args : List CreateTaskArgs) (i : Nat) (a : CreateTaskArgs)
    (hP : s.projectRepo.FindByID pid = some P)
    (hfresh : s.projectRepo.counterOf pid = 0)
    (hi : args[i]? = some a) (ha : a.projectID = pid)
    (hrange : callsOn pid args i < 2 ^ 63) :
    ∃ t, (s.createAll args).1[i]? = some (.ok t) ∧
      t.Key = P.Key ++ "-" ++ toString (callsOn pid args i) := by
  have h := createAll_key_from pid P args s 0 i a hP (by simpa using hfresh) hi ha
    (by simpa using hrange)
  simpa using h

theorem create_nth_key_witness :
    ∃ t, (demoTaskService.createAll [demoCreate "first" "t1", demoCreate "second" "t2"]).1[1]?
        = some (.ok t) ∧
      t.Key = "ABC" ++ "-" ++
        toString (callsOn "p1" [demoCreate "first" "t1", demoCreate "second" "t2"] 1) :=
  create_nth_key demoTaskService "p1" demoProject
    [demoCreate "first" "t1", demoCreate "second" "t2"] 1 (demoCreate "second" "t2")
    (by decide) (by decide) (by decide) rfl (by decide)

/-- The scenario of the specification: the first two tasks of project `ABC` get the keys
`ABC-1` and `ABC-2`. -/
theorem create_keys_abc :
    (demoTaskService.createAll [demoCreate "first" "t1", demoCreate "second" "t2"]).1.map
        (fun r => r.toOption.map Task.Key)
      = [some "ABC-1", some "ABC-2"] := by
  decide

/-! ## The decimal rendering in a task key -/

theorem digitChar_toNat (k : Nat) (h : k < 10) : (Nat.digitChar k).toNat - 48 = k := by
  interval_cases k <;> rfl

theorem digitChar_ne_hyphen (k : Nat) (h : k < 10) : Nat.digitChar k ≠ '-' := by
  interval_cases k <;> decide

theorem readDigits_toDigitsCore (fuel : Nat) :
    ∀ (n : Nat) (ds : List Char), n < fuel →
      readDigits 0 (Nat.toDigitsCore 10 fuel n ds) = readDigits n ds := by
  induction fuel with
  | zero => intro n ds h; omega
  | succ f ih =>
    intro n ds h
    unfold Nat.toDigitsCore
    simp only []
    by_cases h0 : n / 10 = 0
    · rw [if_pos h0]
      have hn : n < 10 := by omega
      have hmod : n % 10 = n := Nat.mod_eq_of_lt hn
      simp only [readDigits, List.foldl_cons, hmod, digitChar_toNat n hn]
      simp
    · rw [if_neg h0]
      have hlt : n / 10 < f := by omega
      rw [ih (n / 10) _ hlt]
      simp only [readDigits, List.foldl_cons, digitChar_toNat (n % 10) (Nat.mod_lt _ (by norm_num))]
      have : 10 * (n / 10) + n % 10 = n := Nat.div_add_mod n 10
      rw [this]

theorem toDigitsCore_no_hyphen (fuel : Nat) :
    ∀ (n : Nat) (ds : List Char), '-' ∉ ds → '-' ∉ Nat.toDigitsCore 10 fuel n ds := by
  induction fuel with
  | zero => intro n ds h; simpa [Nat.toDigitsCore] using h
  | succ f ih =>
    intro n ds h
    unfold Nat.toDigitsCore
    simp only []
    have hd : '-' ∉ Nat.digitChar (n % 10) :: ds := by
      intro hmem
      rcases List.mem_cons.mp hmem with h1 | h1
      · exact digitChar_ne_hyphen (n % 10) (Nat.mod_lt _ (by norm_num)) h1.symm
      · exact h h1
    by_cases h0 : n / 10 = 0
    · rw [if_pos h0]; exact hd
    · rw [if_neg h0]; exact ih _ _ hd

theorem toDigits_injective (a b : Nat) (h : Nat.toDigits 10 a = Nat.toDigits 10 b) : a = b := by
  have ha := readDigits_toDigitsCore (a + 1) a [] (by omega)
  have hb := readDigits_toDigitsCore (b + 1) b [] (by omega)
  unfold Nat.toDigits at h
  rw [h, hb] at ha
  simpa [readDigits] using ha.symm

theorem split_last_hyphen (l1 l2 d1 d2 : List Char) (h1 : '-' ∉ d1) (h2 : '-' ∉ d2)
    (h : l1 ++ '-' :: d1 = l2 ++ '-' :: d2) : d1 = d2 := by
  rcases List.append_eq_append_iff.mp h with ⟨a, _, ha⟩ | ⟨c, _, hc⟩
  · cases a with
    | nil => simpa using ha
    | cons x a =>
      simp only [List.cons_append, List.cons.injEq] at ha
      exact absurd (by rw [ha.2]; simp) h1
  · cases c with
    | nil => simpa using hc.symm
    | cons x c =>
      simp only [List.cons_append, List.cons.injEq] at hc
      exact absurd (by rw [hc.2]; simp) h2

theorem key_number_injective (K1 K2 : String) (a b : Nat)
    (h : K1 ++ "-" ++ toString a = K2 ++ "-" ++ toString b) : a = b := by
  have hd := congrArg String.data h
  simp only [String.data_append] at hd
  have ea : (toString a).data = Nat.toDigits 10 a := rfl
  have eb : (toString b).data = Nat.toDigits 10 b := rfl
  rw [ea, eb] at hd
  simp only [List.append_assoc, List.singleton_append] at hd
  exact toDigits_injective a b
    (split_last_hyphen _ _ _ _ (toDigitsCore_no_hyphen _ _ _ (by simp))
      (toDigitsCore_no_hyphen _ _ _ (by simp)) hd)

/-! ## Keys of the tasks created in a run -/

theorem wrapInt_of_range (x : Int) (h0 : 0 ≤ x) (h1 : x < 2 ^ 63) : wrapInt x = x := by
  obtain ⟨n, rfl⟩ := Int.eq_ofNat_of_zero_le h0
  exact wrapInt_of_lt n (by exact_mod_cast h1)

theorem update_projectRepo (s : taskService) (id : String) (updates : GoMap Value)
    (now : Time) (notifUUID : String) :
    (s.Update id updates now notifUUID).2.projectRepo = s.projectRepo := by
  unfold taskService.Update
  cases s.taskRepo.FindByID id with
  | none => rfl
  | some t => simp only [taskRepository.Update]

theorem projectUpdate_counter (s : projectService) (id : String)
    (name key description icon color leadID : Option String) (now : Time) :
    (s.Update id name key description icon color leadID now).2.projectRepo.taskCounter
      = s.projectRepo.taskCounter := by
  unfold projectService.Update
  cases s.projectRepo.FindByID id with
  | none => rfl
  | some P => simp only [projectRepository.Update]

/-- An operation leaves each counter alone or increments it. -/
theorem step_counter (s : taskService) (op : TaskOp) (q : String) :
    (s.step op).2.projectRepo.counterOf q = s.projectRepo.counterOf q ∨
    (s.step op).2.projectRepo.counterOf q = wrapInt (s.projectRepo.counterOf q + 1) := by
  cases op with
  | create a =>
    have h := (create_projectRepo s a).2 q
    simp only [taskService.step]
    by_cases hc : q = a.projectID ∧ (s.projectRepo.FindByID a.projectID).isSome = true
    · rw [if_pos hc] at h; right; rw [h, hc.1]
    · rw [if_neg hc] at h; left; exact h
  | delete id => left; rfl
  | update id updates now notifUUID =>
    left; simp only [taskService.step, update_projectRepo]
  | bulkUpdate updates now => left; rfl
  | projectUpdate id name key description icon color leadID now =>
    left
    simp only [taskService.step, projectRepository.counterOf, projectUpdate_counter]
    rfl

/-- A task returned by a step carries the incremented counter of its project. -/
theorem step_created (s : taskService) (op : TaskOp) (t : Task)
    (h : (s.step op).1 = some t) :
    ∃ K, t.Key = K ++ "-" ++ fmtInt (wrapInt (s.projectRepo.counterOf t.ProjectID + 1)) ∧
      (s.step op).2.projectRepo.counterOf t.ProjectID
        = wrapInt (s.projectRepo.counterOf t.ProjectID + 1) := by
  cases op with
  | create a =>
    simp only [taskService.step] at h ⊢
    cases hP : s.projectRepo.FindByID a.projectID with
    | none =>
      have : (s.Create a).1 = .error .ErrNotFound := by
        unfold taskService.Create; simp [hP]
      rw [this] at h
      simp [Except.toOption] at h
    | some P =>
      obtain ⟨t', ht', hproj, hkey⟩ := create_result s a P hP
      rw [ht'] at h
      simp only [Except.toOption, Option.some.injEq] at h
      subst h
      refine ⟨P.Key, ?_, ?_⟩
      · rw [hkey, hproj]
      · rw [(create_projectRepo s a).2 t'.ProjectID, hproj, hP]
        simp
  | delete id => simp [taskService.step] at h
  | update id updates now notifUUID => simp [taskService.step] at h
  | bulkUpdate updates now => simp [taskService.step] at h
  | projectUpdate id name key description icon color leadID now =>
    simp [taskService.step] at h

theorem run_cons (s : taskService) (op : TaskOp) (rest : List TaskOp) :
    (s.run (op :: rest)).1 = (s.step op).1.toList ++ ((s.step op).2.run rest).1 ∧
    (s.run (op :: rest)).2 = ((s.step op).2.run rest).2 := ⟨rfl, rfl⟩

/-- Every task created in a run carries a number above the counter its project had at
the start, and two created tasks of one project differ in their keys. -/
theorem run_created_inv : ∀ (ops : List TaskOp) (s : taskService),
    (∀ pid, 0 ≤ s.projectRepo.counterOf pid ∧
      s.projectRepo.counterOf pid + ops.length < 2 ^ 63) →
    List.Pairwise (fun t u => t.ProjectID = u.ProjectID → t.Key ≠ u.Key) (s.run ops).1 ∧
    ∀ t ∈ (s.run ops).1, ∃ (K : String) (n : Nat), t.Key = K ++ "-" ++ toString n ∧
      s.projectRepo.counterOf t.ProjectID < (n : Int) := by
  intro ops
  induction ops with
  | nil => intro s _; simp [taskService.run]
  | cons op rest ih =>
    intro s H
    have hlen : ((op :: rest).length : Int) = (rest.length : Int) + 1 := by
      simp
    have hwrap : ∀ pid, wrapInt (s.projectRepo.counterOf pid + 1)
        = s.projectRepo.counterOf pid + 1 := by
      intro pid
      have := H pid
      exact wrapInt_of_range _ (by omega) (by omega)
    have hmono : ∀ pid, s.projectRepo.counterOf pid ≤ (s.step op).2.projectRepo.counterOf pid ∧
        (s.step op).2.projectRepo.counterOf pid ≤ s.projectRepo.counterOf pid + 1 := by
      intro pid
      rcases step_counter s op pid with h | h
      · rw [h]; omega
      · rw [h, hwrap pid]; omega
    have H2 : ∀ pid, 0 ≤ (s.step op).2.projectRepo.counterOf pid ∧
        (s.step op).2.projectRepo.counterOf pid + rest.length < 2 ^ 63 := by
      intro pid
      have h1 := H pid
      have h2 := hmono pid
      constructor
      · omega
      · omega
    obtain ⟨hpair, hnum⟩ := ih (s.step op).2 H2
    have htail : ∀ t ∈ ((s.step op).2.run rest).1, ∃ (K : String) (n : Nat),
        t.Key = K ++ "-" ++ toString n ∧ s.projectRepo.counterOf t.ProjectID < (n : Int) := by
      intro t ht
      obtain ⟨K, n, hk, hn⟩ := hnum t ht
      exact ⟨K, n, hk, lt_of_le_of_lt (hmono t.ProjectID).1 hn⟩
    rw [(run_cons s op rest).1]
    cases hr : (s.step op).1 with
    | none =>
      simp only [Option.toList, List.nil_append]
      exact ⟨hpair, htail⟩
    | some t0 =>
      simp only [Option.toList, List.singleton_append, List.pairwise_cons, List.mem_cons]
      obtain ⟨K0, hkey0, hc0⟩ := step_created s op t0 hr
      rw [hwrap] at hkey0 hc0
      obtain ⟨n0, hn0⟩ := Int.eq_ofNat_of_zero_le
        (show (0 : Int) ≤ s.projectRepo.counterOf t0.ProjectID + 1 by
          have := (H t0.ProjectID).1; omega)
      rw [hn0] at hkey0 hc0
      rw [fmtInt_natCast] at hkey0
      refine ⟨⟨?_, hpair⟩, ?_⟩
      · intro u hu hproj hkeq
        obtain ⟨K, n, hk, hn⟩ := hnum u hu
        rw [← hproj, hc0] at hn
        rw [hkey0, hk] at hkeq
        have := key_number_injective K0 K n0 n hkeq
        omega
      · intro t ht
        rcases ht with rfl | ht
        · exact ⟨K0, n0, hkey0, by omega⟩
        · exact htail t ht

/-! ## Keys of stored tasks are never rewritten -/

theorem SameIdentity.rfl' (t : Task) : SameIdentity t t := ⟨rfl, rfl, rfl⟩

theorem SameIdentity.trans' {t u v : Task} (h1 : SameIdentity t u) (h2 : SameIdentity u v) :
    SameIdentity t v :=
  ⟨h1.1.trans h2.1, h1.2.1.trans h2.2.1, h1.2.2.trans h2.2.2⟩

theorem populate_identity (userRepo : userRepository) (t : Task) :
    SameIdentity (taskService.populate userRepo t) t := by
  unfold taskService.populate
  cases t.AssigneeID <;> exact ⟨rfl, rfl, rfl⟩

theorem applyUpdates_identity (updates : GoMap Value) (t : Task) :
    SameIdentity (taskService.applyUpdates updates t) t := by
  unfold taskService.applyUpdates
  lift_lets
  intro t1 t2 t3 t4 t5 t6 t7 t8 t9 t10 t11
  have h1 : SameIdentity t1 t := by simp only [t1]; split <;> exact ⟨rfl, rfl, rfl⟩
  have h2 : SameIdentity t2 t1 := by simp only [t2]; split <;> exact ⟨rfl, rfl, rfl⟩
  have h3 : SameIdentity t3 t2 := by simp only [t3]; split <;> exact ⟨rfl, rfl, rfl⟩
  have h4 : SameIdentity t4 t3 := by simp only [t4]; split <;> exact ⟨rfl, rfl, rfl⟩
  have h5 : SameIdentity t5 t4 := by simp only [t5]; split <;> exact ⟨rfl, rfl, rfl⟩
  have h6 : SameIdentity t6 t5 := by simp only [t6]; split <;> exact ⟨rfl, rfl, rfl⟩
  have h7 : SameIdentity t7 t6 := by simp only [t7]; split <;> exact ⟨rfl, rfl, rfl⟩
  have h8 : SameIdentity t8 t7 := by simp only [t8]; split <;> exact ⟨rfl, rfl, rfl⟩
  have h9 : SameIdentity t9 t8 := by simp only [t9]; split <;> exact ⟨rfl, rfl, rfl⟩
  have h10 : SameIdentity t10 t9 := by simp only [t10]; split <;> exact ⟨rfl, rfl, rfl⟩
  have h11 : SameIdentity t11 t10 := by simp only [t11]; split <;> exact ⟨rfl, rfl, rfl⟩
  exact h11.trans' (h10.trans' (h9.trans' (h8.trans' (h7.trans' (h6.trans' (h5.trans'
    (h4.trans' (h3.trans' (h2.trans' h1)))))))))

theorem populate_ID (userRepo : userRepository) (t : Task) :
    (taskService.populate userRepo t).ID = t.ID := (populate_identity userRepo t).1

/-- The task store after `taskService.Create`: the new task sits under its ID and every
other entry is as before. -/
theorem create_store (s : taskService) (a : CreateTaskArgs) (hK : s.taskRepo.KeyedByID) :
    (s.Create a).2.taskRepo.KeyedByID ∧
    ∀ id t', (s.Create a).2.taskRepo.FindByID id = some t' →
      s.taskRepo.FindByID id = some t' ∨ (s.Create a).1 = .ok t' := by
  unfold taskService.Create
  cases hP : s.projectRepo.FindByID a.projectID with
  | none => exact ⟨hK, fun id t' h => Or.inl h⟩
  | some P =>
    simp only [taskRepository.Create, taskRepository.KeyedByID, taskRepository.FindByID,
      populate_ID, GoMap.get_set]
    constructor
    · intro id t h
      by_cases hid : id = a.taskUUID
      · rw [if_pos hid] at h
        simp only [Option.some.injEq] at h
        rw [← h, populate_ID, hid]
      · rw [if_neg hid, if_neg hid] at h
        exact hK id t h
    · intro id t h
      by_cases hid : id = a.taskUUID
      · rw [if_pos hid] at h
        simp only [Option.some.injEq] at h
        right; rw [← h]
      · rw [if_neg hid, if_neg hid] at h
        left; exact h

/-- The task store after `taskService.Update`: the updated task keeps ID, key and project,
every other entry is as before. -/
theorem update_store (s : taskService) (id0 : String) (updates : GoMap Value) (now : Time)
    (notifUUID : String) (hK : s.taskRepo.KeyedByID) :
    (s.Update id0 updates now notifUUID).2.taskRepo.KeyedByID ∧
    ∀ id t', (s.Update id0 updates now notifUUID).2.taskRepo.FindByID id = some t' →
      ∃ t, s.taskRepo.FindByID id = some t ∧ SameIdentity t' t := by
  unfold taskService.Update
  cases hT : s.taskRepo.FindByID id0 with
  | none => exact ⟨hK, fun id t' h => ⟨t', h, SameIdentity.rfl' t'⟩⟩
  | some t0 =>
    have hid0 : t0.ID = id0 := hK id0 t0 hT
    have hap := applyUpdates_identity updates t0
    simp only [taskRepository.Update, taskRepository.KeyedByID, taskRepository.FindByID,
      populate_ID, GoMap.get_set, hap.1, hid0]
    constructor
    · intro id t h
      by_cases hid : id = id0
      · rw [if_pos hid] at h
        simp only [Option.some.injEq] at h
        rw [← h, populate_ID, hid]
      · rw [if_neg hid, if_neg hid] at h
        exact hK id t h
    · intro id t h
      by_cases hid : id = id0
      · rw [if_pos hid] at h
        simp only [Option.some.injEq] at h
        refine ⟨t0, by rw [hid]; exact hT, ?_⟩
        rw [← h]
        exact (populate_identity _ _).trans' ⟨hid0.symm, hap.2.1, hap.2.2⟩
      · rw [if_neg hid, if_neg hid] at h
        exact ⟨t, h, SameIdentity.rfl' t⟩

theorem bulkStep_store (now : Time) (r : taskRepository) (u : BulkTaskUpdate)
    (hK : r.KeyedByID) :
    (taskRepository.bulkStep now r u).KeyedByID ∧
    ∀ id t', (taskRepository.bulkStep now r u).FindByID id = some t' →
      ∃ t, r.FindByID id = some t ∧ SameIdentity t' t := by
  unfold taskRepository.bulkStep
  cases hT : r.tasks.get u.ID with
  | none => exact ⟨hK, fun id t' h => ⟨t', h, SameIdentity.rfl' t'⟩⟩
  | some t0 =>
    have hid0 : t0.ID = u.ID := hK u.ID t0 hT
    simp only [taskRepository.KeyedByID, taskRepository.FindByID, GoMap.get_set]
    constructor
    · intro id t h
      by_cases hid : id = u.ID
      · rw [if_pos hid] at h
        simp only [Option.some.injEq] at h
        rw [← h, hid, ← hid0]
        cases u.Status <;> cases u.SprintID <;> cases u.OrderIndex <;> rfl
      · rw [if_neg hid] at h
        exact hK id t h
    · intro id t h
      by_cases hid : id = u.ID
      · rw [if_pos hid] at h
        simp only [Option.some.injEq] at h
        refine ⟨t0, by rw [hid]; exact hT, ?_⟩
        rw [← h]
        cases u.Status <;> cases u.SprintID <;> cases u.OrderIndex <;> exact ⟨rfl, rfl, rfl⟩
      · rw [if_neg hid] at h
        exact ⟨t, h, SameIdentity.rfl' t⟩

theorem bulkUpdate_store (now : Time) (updates : List BulkTaskUpdate) :
    ∀ (r : taskRepository), r.KeyedByID →
      (updates.foldl (taskRepository.bulkStep now) r).KeyedByID ∧
      ∀ id t', (updates.foldl (taskRepository.bulkStep now) r).FindByID id = some t' →
        ∃ t, r.FindByID id = some t ∧ SameIdentity t' t := by
  induction updates with
  | nil => intro r hK; exact ⟨hK, fun id t' h => ⟨t', h, SameIdentity.rfl' t'⟩⟩
  | cons u rest ih =>
    intro r hK
    obtain ⟨hK1, h1⟩ := bulkStep_store now r u hK
    obtain ⟨hK2, h2⟩ := ih (taskRepository.bulkStep now r u) hK1
    refine ⟨hK2, fun id t' h => ?_⟩
    obtain ⟨t1, ht1, hs1⟩ := h2 id t' h
    obtain ⟨t, ht, hs⟩ := h1 id t1 ht1
    exact ⟨t, ht, hs1.trans' hs⟩

/-- What one operation of a run does to the task store. -/
theorem step_store (s : taskService) (op : TaskOp) (hK : s.taskRepo.KeyedByID) :
    (s.step op).2.taskRepo.KeyedByID ∧
    ∀ id t', (s.step op).2.taskRepo.FindByID id = some t' →
      (∃ t, s.taskRepo.FindByID id = some t ∧ SameIdentity t' t) ∨
      (s.step op).1 = some t' := by
  cases op with
  | create a =>
    obtain ⟨h1, h2⟩ := create_store s a hK
    refine ⟨h1, fun id t' h => ?_⟩
    rcases h2 id t' h with h3 | h3
    · exact Or.inl ⟨t', h3, SameIdentity.rfl' t'⟩
    · right; simp only [taskService.step, h3, Except.toOption]
  | delete id0 =>
    simp only [taskService.step, taskService.Delete, taskRepository.Delete,
      taskRepository.KeyedByID, taskRepository.FindByID, GoMap.get_delete]
    constructor
    · intro id t h
      by_cases hid : id = id0
      · rw [if_pos hid] at h; exact absurd h (by simp)
      · rw [if_neg hid] at h; exact hK id t h
    · intro id t h
      by_cases hid : id = id0
      · rw [if_pos hid] at h; exact absurd h (by simp)
      · rw [if_neg hid] at h; exact Or.inl ⟨t, h, SameIdentity.rfl' t⟩
  | update id0 updates now notifUUID =>
    obtain ⟨h1, h2⟩ := update_store s id0 updates now notifUUID hK
    exact ⟨h1, fun id t' h => Or.inl (h2 id t' h)⟩
  | bulkUpdate updates now =>
    obtain ⟨h1, h2⟩ := bulkUpdate_store now updates s.taskRepo hK
    exact ⟨h1, fun id t' h => Or.inl (h2 id t' h)⟩
  | projectUpdate id0 name key description icon color leadID now =>
    exact ⟨hK, fun id t' h => Or.inl ⟨t', h, SameIdentity.rfl' t'⟩⟩

/-- Every task stored at the end of a run has the ID, key and project of the task stored
under that ID at the start, or of a task created in the run. -/
theorem run_store : ∀ (ops : List TaskOp) (s : taskService), s.taskRepo.KeyedByID →
    (s.run ops).2.taskRepo.KeyedByID ∧
    ∀ id t', (s.run ops).2.taskRepo.FindByID id = some t' →
      (∃ t, s.taskRepo.FindByID id = some t ∧ SameIdentity t' t) ∨
      (∃ c ∈ (s.run ops).1, SameIdentity t' c) := by
  intro ops
  induction ops with
  | nil => intro s hK; exact ⟨hK, fun id t' h => Or.inl ⟨t', h, SameIdentity.rfl' t'⟩⟩
  | cons op rest ih =>
    intro s hK
    obtain ⟨hK1, h1⟩ := step_store s op hK
    obtain ⟨hK2, h2⟩ := ih (s.step op).2 hK1
    rw [(run_cons s op rest).1, (run_cons s op rest).2]
    refine ⟨hK2, fun id t' h => ?_⟩
    rcases h2 id t' h with ⟨t1, ht1, hs1⟩ | ⟨c, hc, hsc⟩
    · rcases h1 id t1 ht1 with ⟨t, ht, hs⟩ | hcr
      · exact Or.inl ⟨t, ht, hs1.trans' hs⟩
      · right
        refine ⟨t1, ?_, hs1⟩
        rw [hcr]; simp [Option.toList]
    · right
      exact ⟨c, List.mem_append_right _ hc, hsc⟩

/-- C2: in a run of task creations, deletions, updates, bulk updates and project updates
(changes of the project key included), two tasks returned by `taskService.Create` for the
same project never have the same key, and no operation rewrites the key or project of a
stored task: each task in the final store has the ID, key and project it had at the start
or was created with. -/
theorem created_keys_distinct (s : taskService) (ops : List TaskOp)
    (hcnt : ∀ pid, 0 ≤ s.projectRepo.counterOf pid ∧
      s.projectRepo.counterOf pid + ops.length < 2 ^ 63)
    (hK : s.taskRepo.KeyedByID) :
    (∀ (i j : Nat) (t u : Task), i < j →
      (s.run ops).1[i]? = some t → (s.run ops).1[j]? = some u →
      t.ProjectID = u.ProjectID → t.Key ≠ u.Key) ∧
    (∀ id t', (s.run ops).2.taskRepo.FindByID id = some t' →
      (∃ t, s.taskRepo.FindByID id = some t ∧ SameIdentity t' t) ∨
      (∃ c ∈ (s.run ops).1, SameIdentity t' c)) := by
  refine ⟨?_, (run_store ops s hK).2⟩
  intro i j t u hij hi hj
  have hp := (run_created_inv ops s hcnt).1
  rw [List.pairwise_iff_getElem] at hp
  obtain ⟨hi1, hi2⟩ := List.getElem?_eq_some.mp hi
  obtain ⟨hj1, hj2⟩ := List.getElem?_eq_some.mp hj
  have := hp i j hi1 hj1 hij
  rw [hi2, hj2] at this
  exact this

theorem demo_counters (n : Nat) (hn : n < 1000) (pid : String) :
    0 ≤ demoTaskService.projectRepo.counterOf pid ∧
      demoTaskService.projectRepo.counterOf pid + n < 2 ^ 63 := by
  have h : demoTaskService.projectRepo.counterOf pid = 0 := by
    unfold projectRepository.counterOf GoMap.get
    by_cases hp : pid = "p1"
    · subst hp; rfl
    · have hb : (("p1" : String) == pid) = false := beq_eq_false_iff_ne.mpr (fun e => hp e.symm)
      simp [demoTaskService, List.find?, hb]
  rw [h]
  constructor
  · exact le_refl _
  · have : (n : Int) < 1000 := by exact_mod_cast hn
    norm_num
    omega

theorem demo_keyed : demoTaskService.taskRepo.KeyedByID := by
  intro id t h
  simp [taskRepository.FindByID, GoMap.get, demoTaskService] at h

theorem created_keys_distinct_witness :
    (∀ pid, 0 ≤ demoTaskService.projectRepo.counterOf pid ∧
      demoTaskService.projectRepo.counterOf pid + demoOps.length < 2 ^ 63) ∧
    demoTaskService.taskRepo.KeyedByID ∧
    ((∀ (i j : Nat) (t u : Task), i < j →
      (demoTaskService.run demoOps).1[i]? = some t →
      (demoTaskService.run demoOps).1[j]? = some u →
      t.ProjectID = u.ProjectID → t.Key ≠ u.Key) ∧
    (∀ id t', (demoTaskService.run demoOps).2.taskRepo.FindByID id = some t' →
      (∃ t, demoTaskService.taskRepo.FindByID id = some t ∧ SameIdentity t' t) ∨
      (∃ c ∈ (demoTaskService.run demoOps).1, SameIdentity t' c))) :=
  ⟨demo_counters demoOps.length (by decide), demo_keyed,
    created_keys_distinct demoTaskService demoOps
      (demo_counters demoOps.length (by decide)) demo_keyed⟩

/-- The keys created in `demoOps`, and the keys left in the store at its end. -/
theorem demoOps_keys :
    (demoTaskService.run demoOps).1.map Task.Key = ["ABC-1", "ABC-1-2", "ABC-1-3"] ∧
    (demoTaskService.run demoOps).2.taskRepo.tasks.values.map Task.Key
      = ["ABC-1-2", "ABC-1-3"] := by
  decide

/-! ## The task number of the Prisma-backed implementation -/

/-- C3 (evaluation of the code): with the Prisma-backed `GetNextTaskNumber`, two
creations, the deletion of the first task and a third creation hand out the numbers
`1, 2, 2`: the third call gets the number of the second again, and the two tasks left
in the table both carry the key `ABC-2`. -/
theorem prisma_task_number_reused :
    (Prisma.handedOut "p1" Prisma.demoClient Prisma.demoRun).1 = [1, 2, 2] ∧
    (Prisma.handedOut "p1" Prisma.demoClient Prisma.demoRun).2.tasks.map
        (fun t => (t.ID, t.Key)) = [("t2", "ABC-2"), ("t3", "ABC-2")] := by
  decide

/-! ## The sprint lifecycle -/

/-- C5 (counterexample): `Start` on a completed sprint takes it back to `ACTIVE`. -/
theorem sprint_start_reopens_completed :
    (demoSprintService.run
        [.create "p1" "Sprint 1" none none none 1 "sp1",
         .start "sp1" 2 "n1",
         .complete "sp1" "backlog" 3 "n2"]).statusOf "sp1" = some "COMPLETED" ∧
    (demoSprintService.run
        [.create "p1" "Sprint 1" none none none 1 "sp1",
         .start "sp1" 2 "n1",
         .complete "sp1" "backlog" 3 "n2",
         .start "sp1" 4 "n3"]).statusOf "sp1" = some "ACTIVE" := by
  decide

/-- The sprint store after `sprintRepository.Update` of a sprint read from it. -/
theorem sprint_store_update (r : sprintRepository) (id0 : String) (sp0 new : Sprint)
    (now : Time) (hK : r.KeyedByID) (h0 : r.FindByID id0 = some sp0) (hnew : new.ID = sp0.ID) :
    (r.Update new now).2.KeyedByID ∧
    ∀ id, (r.Update new now).2.FindByID id
      = if id = id0 then some { new with UpdatedAt := now } else r.FindByID id := by
  have hid0 : sp0.ID = id0 := hK id0 sp0 h0
  simp only [sprintRepository.Update, sprintRepository.KeyedByID, sprintRepository.FindByID,
    GoMap.get_set, hnew, hid0]
  refine ⟨fun id sp h => ?_, fun id => trivial⟩
  by_cases hid : id = id0
  · rw [if_pos hid] at h
    simp only [Option.some.injEq] at h
    rw [← h, hid]
  · rw [if_neg hid] at h
    exact hK id sp h

/-- One operation of the sprint service on a stored sprint: the sprint stays stored,
`Start` on it makes it `ACTIVE`, `Complete` on it makes it `COMPLETED`, and everything
else leaves its status alone. -/
theorem sprint_step_status (s : sprintService) (op : SprintOp) (id : String) (sp : Sprint)
    (hK : s.sprintRepo.KeyedByID) (h : s.sprintRepo.FindByID id = some sp)
    (hfresh : op.createdID ≠ some id) :
    (s.step op).sprintRepo.KeyedByID ∧
    ∃ sp', (s.step op).sprintRepo.FindByID id = some sp' ∧
      sp'.Status = if op.starts id then "ACTIVE"
        else if op.completes id then "COMPLETED" else sp.Status := by
  cases op with
  | create projectID name goal startDate endDate now uuid =>
    have hne : id ≠ uuid := fun e => hfresh (by simp [SprintOp.createdID, e])
    simp only [sprintService.step, sprintService.Create, sprintRepository.Create,
      sprintRepository.KeyedByID, sprintRepository.FindByID, GoMap.get_set, SprintOp.starts,
      SprintOp.completes, Bool.false_eq_true, if_false, if_neg hne]
    refine ⟨fun id' sp' h' => ?_, sp, h, rfl⟩
    by_cases hid : id' = uuid
    · rw [if_pos hid] at h'
      simp only [Option.some.injEq] at h'
      rw [← h', hid]
    · rw [if_neg hid] at h'
      exact hK id' sp' h'
  | update id0 name goal startDate endDate now =>
    simp only [sprintService.step, sprintService.Update, SprintOp.starts, SprintOp.completes,
      Bool.false_eq_true, if_false]
    cases h0 : s.sprintRepo.FindByID id0 with
    | none => exact ⟨hK, sp, h, rfl⟩
    | some sp0 =>
      simp only []
      have key : ∀ new : Sprint, new.ID = sp0.ID → new.Status = sp0.Status →
          (s.sprintRepo.Update new now).2.KeyedByID ∧
          ∃ sp', (s.sprintRepo.Update new now).2.FindByID id = some sp' ∧
            sp'.Status = sp.Status := by
        intro new hID hSt
        obtain ⟨hK', hget⟩ := sprint_store_update s.sprintRepo id0 sp0 new now hK h0 hID
        refine ⟨hK', ?_⟩
        rw [hget id]
        by_cases hid : id = id0
        · rw [if_pos hid]
          refine ⟨_, rfl, ?_⟩
          rw [hid, h0] at h
          simp only [Option.some.injEq] at h
          rw [← h]; exact hSt
        · rw [if_neg hid]; exact ⟨sp, h, rfl⟩
      cases name <;> cases goal <;> cases startDate <;> cases endDate <;>
        exact key _ rfl rfl
  | start id0 now uuid =>
    simp only [sprintService.step, sprintService.Start, SprintOp.starts, SprintOp.completes,
      Bool.false_eq_true, if_false]
    cases h0 : s.sprintRepo.FindByID id0 with
    | none =>
      have hne : ¬ (id0 = id) := fun e => by rw [e, h] at h0; exact absurd h0 (by simp)
      have hb : (id0 == id) = false := beq_eq_false_iff_ne.mpr hne
      simp only [hb, Bool.false_eq_true, if_false]
      exact ⟨hK, sp, h, rfl⟩
    | some sp0 =>
      obtain ⟨hK', hget⟩ := sprint_store_update s.sprintRepo id0 sp0
        { sp0 with Status := "ACTIVE", StartDate := some now } now hK h0 rfl
      simp only [sprintRepository.Update] at hK' hget ⊢
      refine ⟨hK', ?_⟩
      rw [hget id]
      by_cases hid : id = id0
      · have hb : (id0 == id) = true := beq_iff_eq.mpr hid.symm
        rw [if_pos hid]
        simp only [hb, if_true]
        exact ⟨_, rfl, rfl⟩
      · have hb : (id0 == id) = false := beq_eq_false_iff_ne.mpr (fun e => hid e.symm)
        rw [if_neg hid]
        simp only [hb, Bool.false_eq_true, if_false]
        exact ⟨sp, h, rfl⟩
  | complete id0 moveIncomplete now uuid =>
    simp only [sprintService.step, sprintService.Complete, SprintOp.starts,
      SprintOp.completes, Bool.false_eq_true, if_false]
    cases h0 : s.sprintRepo.FindByID id0 with
    | none =>
      have hne : ¬ (id0 = id) := fun e => by rw [e, h] at h0; exact absurd h0 (by simp)
      have hb : (id0 == id) = false := beq_eq_false_iff_ne.mpr hne
      simp only [hb, Bool.false_eq_true, if_false]
      exact ⟨hK, sp, h, rfl⟩
    | some sp0 =>
      obtain ⟨hK', hget⟩ := sprint_store_update s.sprintRepo id0 sp0
        { sp0 with Status := "COMPLETED", EndDate := some now } now hK h0 rfl
      simp only [sprintRepository.Update] at hK' hget ⊢
      refine ⟨hK', ?_⟩
      rw [hget id]
      by_cases hid : id = id0
      · have hb : (id0 == id) = true := beq_iff_eq.mpr hid.symm
        rw [if_pos hid]
        simp only [hb, if_true]
        exact ⟨_, rfl, rfl⟩
      · have hb : (id0 == id) = false := beq_eq_false_iff_ne.mpr (fun e => hid e.symm)
        rw [if_neg hid]
        simp only [hb, Bool.false_eq_true, if_false]
        exact ⟨sp, h, rfl⟩

theorem GoMap.mem_of_get {β : Type} (m : GoMap β) (k : String) (v : β)
    (h : m.get k = some v) : (k, v) ∈ m.entries := by
  unfold GoMap.get at h
  cases hf : m.entries.find? (fun e => e.1 == k) with
  | none => rw [hf] at h; simp at h
  | some e =>
    rw [hf] at h
    simp only [Option.map_some', Option.some.injEq] at h
    have hmem := List.mem_of_find?_eq_some hf
    have hk := List.find?_some hf
    simp only [beq_iff_eq] at hk
    have : e = (k, v) := Prod.ext hk h
    rw [← this]; exact hmem

theorem sprint_keyed_of_entries (r : sprintRepository)
    (h : ∀ e ∈ r.sprints.entries, e.2.ID = e.1) : r.KeyedByID := by
  intro id sp hget
  exact h (id, sp) (GoMap.mem_of_get _ _ _ hget)

theorem sprint_run_cons (s : sprintService) (op : SprintOp) (rest : List SprintOp) :
    s.run (op :: rest) = (s.step op).run rest := rfl

/-- C5 (amended): over every run of `Create` (of other sprints), `Update`, `Start` and
`Complete`, a stored sprint stays stored; once its status is not `PLANNING` it never is
`PLANNING` again; a `COMPLETED` sprint stays `COMPLETED` as long as `Start` is not called
on it; an `ACTIVE` sprint stays `ACTIVE` as long as `Complete` is not called on it, so a
second `Start` does not revert the state. -/
theorem sprint_status_run (ops : List SprintOp) :
    ∀ (s : sprintService) (id : String) (sp : Sprint),
      s.sprintRepo.KeyedByID → s.sprintRepo.FindByID id = some sp →
      (∀ op ∈ ops, op.createdID ≠ some id) →
      ∃ sp', (s.run ops).sprintRepo.FindByID id = some sp' ∧
        (sp.Status ≠ "PLANNING" → sp'.Status ≠ "PLANNING") ∧
        ((∀ op ∈ ops, op.starts id = false) → sp.Status = "COMPLETED" →
          sp'.Status = "COMPLETED") ∧
        ((∀ op ∈ ops, op.completes id = false) → sp.Status = "ACTIVE" →
          sp'.Status = "ACTIVE") := by
  induction ops with
  | nil =>
    intro s id sp _ h _
    exact ⟨sp, h, fun h1 => h1, fun _ h1 => h1, fun _ h1 => h1⟩
  | cons op rest ih =>
    intro s id sp hK h hfresh
    obtain ⟨hK1, sp1, h1, hst⟩ :=
      sprint_step_status s op id sp hK h (hfresh op (List.mem_cons_self _ _))
    obtain ⟨sp', h', hP, hC, hA⟩ := ih (s.step op) id sp1 hK1 h1
      (fun o ho => hfresh o (List.mem_cons_of_mem _ ho))
    rw [sprint_run_cons]
    refine ⟨sp', h', ?_, ?_, ?_⟩
    · intro hne
      apply hP
      rw [hst]
      split
      · decide
      · split
        · decide
        · exact hne
    · intro hno hc
      apply hC (fun o ho => hno o (List.mem_cons_of_mem _ ho))
      rw [hst, hno op (List.mem_cons_self _ _)]
      simp only [Bool.false_eq_true, if_false]
      split
      · rfl
      · exact hc
    · intro hno ha
      apply hA (fun o ho => hno o (List.mem_cons_of_mem _ ho))
      rw [hst, hno op (List.mem_cons_self _ _)]
      simp only [Bool.false_eq_true, if_false]
      split
      · rfl
      · exact ha

theorem sprint_status_run_witness :
    ∃ sp', (demoStartedSprint.run
        [.start "sp1" 3 "n2", .update "sp1" (some "Sprint A") none none none 4,
         .create "p1" "Sprint 2" none none none 5 "sp2"]).sprintRepo.FindByID "sp1" = some sp' ∧
      ("ACTIVE" ≠ "PLANNING" → sp'.Status ≠ "PLANNING") ∧
      ((∀ op ∈ [SprintOp.start "sp1" 3 "n2", .update "sp1" (some "Sprint A") none none none 4,
          .create "p1" "Sprint 2" none none none 5 "sp2"], op.starts "sp1" = false) →
        "ACTIVE" = "COMPLETED" → sp'.Status = "COMPLETED") ∧
      ((∀ op ∈ [SprintOp.start "sp1" 3 "n2", .update "sp1" (some "Sprint A") none none none 4,
          .create "p1" "Sprint 2" none none none 5 "sp2"], op.completes "sp1" = false) →
        "ACTIVE" = "ACTIVE" → sp'.Status = "ACTIVE") :=
  sprint_status_run
    [.start "sp1" 3 "n2", .update "sp1" (some "Sprint A") none none none 4,
     .create "p1" "Sprint 2" none none none 5 "sp2"]
    demoStartedSprint "sp1"
    { ID := "sp1", Name := "Sprint 1", Goal := none, ProjectID := "p1", Status := "ACTIVE",
      StartDate := some 2, EndDate := none, CreatedAt := 1, UpdatedAt := 2 }
    (sprint_keyed_of_entries _ (by decide)) (by decide) (by decide)

/-! ## Completing a sprint -/

theorem movedTask_ID (moveIncomplete : String) (now : Time) (t : Task) :
    (sprintService.movedTask moveIncomplete now t).ID = t.ID := by
  unfold sprintService.movedTask
  split <;> rfl

theorem moveTask_get (moveIncomplete : String) (now : Time) (r : taskRepository) (t : Task)
    (tid : String) :
    (sprintService.moveTask moveIncomplete now r t).FindByID tid
      = if t.Status ≠ "DONE" ∧ tid = t.ID
        then some (sprintService.movedTask moveIncomplete now t) else r.FindByID tid := by
  unfold sprintService.moveTask
  by_cases hd : t.Status = "DONE"
  · have hb : (t.Status != "DONE") = false := by simp [hd]
    simp only [hb, Bool.false_eq_true, if_false]
    rw [if_neg (fun h => h.1 hd)]
  · have hb : (t.Status != "DONE") = true := by simp [hd]
    simp only [hb, if_true, ne_eq, hd, not_false_eq_true, true_and]
    simp only [taskRepository.Update, taskRepository.FindByID, GoMap.get_set]
    by_cases hm : moveIncomplete = "backlog"
    · have hb2 : (moveIncomplete == "backlog") = true := beq_iff_eq.mpr hm
      simp only [hb2, if_true, sprintService.movedTask]
    · have hb2 : (moveIncomplete == "backlog") = false := beq_eq_false_iff_ne.mpr hm
      simp only [hb2, Bool.false_eq_true, if_false, sprintService.movedTask]

/-- The task store after the loop of `sprintService.Complete` over tasks with pairwise
different IDs. -/
theorem moveTasks_get (moveIncomplete : String) (now : Time) (tid : String) :
    ∀ (found : List Task) (r : taskRepository), (found.map Task.ID).Nodup →
      (found.foldl (sprintService.moveTask moveIncomplete now) r).FindByID tid
        = match found.find? (fun t => t.ID == tid) with
          | some t =>
            if t.Status ≠ "DONE" then some (sprintService.movedTask moveIncomplete now t)
            else r.FindByID tid
          | none => r.FindByID tid := by
  intro found
  induction found with
  | nil => intro r _; rfl
  | cons t rest ih =>
    intro r hnd
    simp only [List.map_cons, List.nodup_cons] at hnd
    simp only [List.foldl_cons, List.find?_cons]
    rw [ih _ hnd.2]
    by_cases hid : t.ID = tid
    · have hb : (t.ID == tid) = true := beq_iff_eq.mpr hid
      have hnone : rest.find? (fun u => u.ID == tid) = none := by
        apply List.find?_eq_none.mpr
        intro u hu hbu
        simp only [beq_iff_eq] at hbu
        exact hnd.1 (by rw [hid, ← hbu]; exact List.mem_map_of_mem _ hu)
      simp only [hb, hnone]
      rw [moveTask_get]
      by_cases hd : t.Status = "DONE"
      · simp [hd]
      · simp [hd, hid]
    · have hb : (t.ID == tid) = false := beq_eq_false_iff_ne.mpr hid
      have hne : ¬ (tid = t.ID) := fun e => hid e.symm
      simp only [hb, moveTask_get, hne, and_false, if_false]

/-- Looking a key up among the values of a well-formed task store that pass a test. -/
theorem find_in_filtered_values (p : Task → Bool) (tid : String) :
    ∀ (l : List (String × Task)), (l.map Prod.fst).Nodup → (∀ e ∈ l, e.2.ID = e.1) →
      ((l.map Prod.snd).filter p).find? (fun t => t.ID == tid)
        = ((l.find? (fun e => e.1 == tid)).map Prod.snd).filter p := by
  intro l
  induction l with
  | nil => intro _ _; rfl
  | cons e rest ih =>
    intro hnd hE
    obtain ⟨k, v⟩ := e
    simp only [List.map_cons, List.nodup_cons] at hnd
    have hv : v.ID = k := hE (k, v) (List.mem_cons_self _ _)
    have hE' : ∀ e ∈ rest, e.2.ID = e.1 := fun e he => hE e (List.mem_cons_of_mem _ he)
    simp only [List.map_cons, List.find?_cons, List.filter_cons]
    by_cases hk : k = tid
    · have hb : (k == tid) = true := beq_iff_eq.mpr hk
      simp only [hb, Option.map_some']
      by_cases hp : p v = true
      · have hb2 : (v.ID == tid) = true := beq_iff_eq.mpr (hv.trans hk)
        simp [hp, hb2, Option.filter]
      · have hnone : ((rest.map Prod.snd).filter p).find? (fun t => t.ID == tid) = none := by
          apply List.find?_eq_none.mpr
          intro u hu hbu
          simp only [beq_iff_eq] at hbu
          obtain ⟨hu1, _⟩ := List.mem_filter.mp hu
          obtain ⟨e', he', he2⟩ := List.mem_map.mp hu1
          have : e'.1 = k := by rw [← hE' e' he', he2, hbu, hk]
          exact hnd.1 (by rw [← this]; exact List.mem_map_of_mem _ he')
        simp [hp, hnone, Option.filter]
    · have hb : (k == tid) = false := beq_eq_false_iff_ne.mpr hk
      have hb2 : (v.ID == tid) = false := beq_eq_false_iff_ne.mpr (by rw [hv]; exact hk)
      simp only [hb]
      rw [← ih hnd.2 hE']
      by_cases hp : p v = true
      · simp [hp, hb2]
      · simp [hp]

theorem values_ID_nodup (r : taskRepository) (h : r.WellFormed) (p : Task → Bool) :
    ((r.tasks.values.filter p).map Task.ID).Nodup := by
  have h1 : r.tasks.values.map Task.ID = r.tasks.keys := by
    unfold GoMap.values GoMap.keys
    rw [List.map_map]
    apply List.map_congr_left
    intro e he
    exact h.2 e he
  have h2 : (r.tasks.values.map Task.ID).Nodup := by rw [h1]; exact h.1
  exact (List.Nodup.sublist ((List.filter_sublist _).map Task.ID) h2)

/-- What `sprintService.Complete` does on a stored sprint: it succeeds, stores and returns
the sprint as `COMPLETED`, and, when the policy is not empty, rewrites exactly the tasks
of the sprint that are not `DONE`. -/
theorem complete_effect (s : sprintService) (id moveIncomplete : String) (now : Time)
    (uuid : String) (sp : Sprint)
    (hT : s.taskRepo.WellFormed) (hS : s.sprintRepo.KeyedByID)
    (h : s.sprintRepo.FindByID id = some sp) :
    (s.Complete id moveIncomplete now uuid).1
      = .ok { sp with Status := "COMPLETED", EndDate := some now, UpdatedAt := now } ∧
    (s.Complete id moveIncomplete now uuid).2.sprintRepo.FindByID id
      = some { sp with Status := "COMPLETED", EndDate := some now, UpdatedAt := now } ∧
    ∀ tid, (s.Complete id moveIncomplete now uuid).2.taskRepo.FindByID tid
      = if moveIncomplete = "" then s.taskRepo.FindByID tid
        else (s.taskRepo.FindByID tid).map (fun t =>
          if t.SprintID = some id ∧ t.Status ≠ "DONE"
          then sprintService.movedTask moveIncomplete now t else t) := by
  have hid : sp.ID = id := hS id sp h
  unfold sprintService.Complete
  simp only [h, sprintRepository.Update]
  refine ⟨trivial, ?_, ?_⟩
  · simp only [sprintRepository.FindByID, GoMap.get_set, hid, if_true]
  · intro tid
    by_cases hm : moveIncomplete = ""
    · have hb : (moveIncomplete != "") = false := by simp [hm]
      simp only [hb, Bool.false_eq_true, if_false, if_pos hm]
    · have hb : (moveIncomplete != "") = true := by simp [hm]
      simp only [hb, if_true, if_neg hm]
      unfold taskRepository.FindBySprintID
      rw [moveTasks_get moveIncomplete now tid _ _ (values_ID_nodup s.taskRepo hT _)]
      unfold GoMap.values
      rw [find_in_filtered_values _ tid _ hT.1 hT.2]
      unfold taskRepository.FindByID GoMap.get
      cases hf : (s.taskRepo.tasks.entries.find? (fun e => e.1 == tid)).map Prod.snd with
      | none => simp [Option.filter]
      | some t =>
        by_cases hsp : t.SprintID = some id
        · by_cases hd : t.Status = "DONE"
          · simp [Option.filter, hsp, hd, hf]
          · simp [Option.filter, hsp, hd]
        · simp [Option.filter, hsp, hf]

/-- C6: `sprintService.Complete` with policy `"backlog"` on a stored sprint succeeds, the
sprint is stored as `COMPLETED`, every task of the sprint that is not `DONE` ends with no
sprint (only `SprintID` and the update time change), and every `DONE` task of the sprint
is stored exactly as before. -/
theorem complete_backlog (s : sprintService) (id : String) (now : Time) (uuid : String)
    (sp : Sprint) (hT : s.taskRepo.WellFormed) (hS : s.sprintRepo.KeyedByID)
    (h : s.sprintRepo.FindByID id = some sp) :
    (∃ sp', (s.Complete id "backlog" now uuid).1 = .ok sp' ∧ sp'.Status = "COMPLETED" ∧
      (s.Complete id "backlog" now uuid).2.sprintRepo.FindByID id = some sp') ∧
    (∀ tid t, s.taskRepo.FindByID tid = some t → t.SprintID = some id → t.Status ≠ "DONE" →
      (s.Complete id "backlog" now uuid).2.taskRepo.FindByID tid
        = some { t with SprintID := none, UpdatedAt := now }) ∧
    (∀ tid t, s.taskRepo.FindByID tid = some t → t.SprintID = some id → t.Status = "DONE" →
      (s.Complete id "backlog" now uuid).2.taskRepo.FindByID tid = some t) := by
  obtain ⟨h1, h2, h3⟩ := complete_effect s id "backlog" now uuid sp hT hS h
  refine ⟨⟨_, h1, rfl, h2⟩, ?_, ?_⟩
  · intro tid t ht hsp hnd
    rw [h3 tid, if_neg (by decide), ht]
    simp only [Option.map_some', hsp, hnd, ne_eq, not_false_eq_true, and_self, if_true]
    rfl
  · intro tid t ht hsp hd
    rw [h3 tid, if_neg (by decide), ht]
    simp [hd]

theorem complete_backlog_witness :
    demoBoard.taskRepo.WellFormed ∧ demoBoard.sprintRepo.FindByID "sp1" = some demoSprint ∧
    ((∃ sp', (demoBoard.Complete "sp1" "backlog" 9 "n1").1 = .ok sp' ∧
        sp'.Status = "COMPLETED" ∧
        (demoBoard.Complete "sp1" "backlog" 9 "n1").2.sprintRepo.FindByID "sp1" = some sp') ∧
      (∀ tid t, demoBoard.taskRepo.FindByID tid = some t → t.SprintID = some "sp1" →
        t.Status ≠ "DONE" →
        (demoBoard.Complete "sp1" "backlog" 9 "n1").2.taskRepo.FindByID tid
          = some { t with SprintID := none, UpdatedAt := 9 }) ∧
      (∀ tid t, demoBoard.taskRepo.FindByID tid = some t → t.SprintID = some "sp1" →
        t.Status = "DONE" →
        (demoBoard.Complete "sp1" "backlog" 9 "n1").2.taskRepo.FindByID tid = some t)) :=
  ⟨by decide, by decide,
    complete_backlog demoBoard "sp1" 9 "n1" demoSprint (by decide)
      (sprint_keyed_of_entries _ (by decide)) (by decide)⟩

/-- The sprint IDs of the tasks of `demoBoard` after `Complete` with policy `"backlog"`. -/
theorem complete_backlog_demo :
    (demoBoard.Complete "sp1" "backlog" 9 "n1").2.taskRepo.tasks.values.map
        (fun t => (t.ID, t.Status, t.SprintID))
      = [("t1", "TODO", none), ("t2", "DONE", some "sp1"), ("t3", "TODO", some "sp0")] := by
  decide

/-- The empty string is not a target: it is the policy of a request without
`moveIncomplete`, and `Complete` with it completes the sprint and leaves the open task
`t1` in sprint `sp1`. -/
theorem complete_empty_target_moves_nothing :
    ("" : String) ≠ "backlog" ∧
    (demoBoard.Complete "sp1" "" 9 "n1").1.toOption.map Sprint.Status = some "COMPLETED" ∧
    (demoBoard.taskRepo.FindByID "t1").map (fun t => (t.Status, t.SprintID))
      = some ("TODO", some "sp1") ∧
    ((demoBoard.Complete "sp1" "" 9 "n1").2.taskRepo.FindByID "t1").map Task.SprintID
      = some (some "sp1") ∧
    ((demoBoard.Complete "sp1" "" 9 "n1").2.taskRepo.FindByID "t1").map Task.SprintID
      ≠ some (some "") := by
  decide

/-- C7: for a stored sprint `S` and a target sprint ID `T`, that is a policy string other
than `"backlog"` (and, being the ID of a sprint, not the empty string, which stands for
the absent policy), `sprintService.Complete(S, T)` succeeds, every task of `S` that is
not `DONE` ends with `SprintID` `T` (only `SprintID` and the update time change), every
`DONE` task of `S` and every task outside `S` is stored exactly as before, and no task
appears. -/
theorem complete_target (s : sprintService) (id T : String) (now : Time) (uuid : String)
    (sp : Sprint) (hT : s.taskRepo.WellFormed) (hS : s.sprintRepo.KeyedByID)
    (h : s.sprintRepo.FindByID id = some sp) (hb : T ≠ "backlog") (he : T ≠ "") :
    (∃ sp', (s.Complete id T now uuid).1 = .ok sp' ∧ sp'.Status = "COMPLETED") ∧
    (∀ tid t, s.taskRepo.FindByID tid = some t → t.SprintID = some id → t.Status ≠ "DONE" →
      (s.Complete id T now uuid).2.taskRepo.FindByID tid
        = some { t with SprintID := some T, UpdatedAt := now }) ∧
    (∀ tid t, s.taskRepo.FindByID tid = some t → t.SprintID = some id → t.Status = "DONE" →
      (s.Complete id T now uuid).2.taskRepo.FindByID tid = some t) ∧
    (∀ tid t, s.taskRepo.FindByID tid = some t → t.SprintID ≠ some id →
      (s.Complete id T now uuid).2.taskRepo.FindByID tid = some t) ∧
    (∀ tid, s.taskRepo.FindByID tid = none →
      (s.Complete id T now uuid).2.taskRepo.FindByID tid = none) := by
  obtain ⟨h1, _, h3⟩ := complete_effect s id T now uuid sp hT hS h
  have hbeq : (T == "backlog") = false := beq_eq_false_iff_ne.mpr hb
  refine ⟨⟨_, h1, rfl⟩, ?_, ?_, ?_, ?_⟩
  · intro tid t ht hsp hnd
    rw [h3 tid, if_neg he, ht]
    simp only [Option.map_some', hsp, hnd, ne_eq, not_false_eq_true, and_self, if_true,
      sprintService.movedTask, hbeq, Bool.false_eq_true, if_false]
  · intro tid t ht hsp hd
    rw [h3 tid, if_neg he, ht]
    simp [hd]
  · intro tid t ht hsp
    rw [h3 tid, if_neg he, ht]
    simp [hsp]
  · intro tid ht
    rw [h3 tid, if_neg he, ht]
    rfl

theorem complete_target_witness :
    demoBoard.taskRepo.WellFormed ∧ demoBoard.sprintRepo.FindByID "sp1" = some demoSprint ∧
    ("sp2" : String) ≠ "backlog" ∧ ("sp2" : String) ≠ "" ∧
    ((demoBoard.Complete "sp1" "sp2" 9 "n1").2.taskRepo.FindByID "t1"
        = some { demoTask "t1" "ABC-1" "TODO" (some "sp1") with
                  SprintID := some "sp2", UpdatedAt := 9 }) :=
  ⟨by decide, by decide, by decide, by decide,
    (complete_target demoBoard "sp1" "sp2" 9 "n1" demoSprint (by decide)
      (sprint_keyed_of_entries _ (by decide)) (by decide) (by decide) (by decide)).2.1
      "t1" (demoTask "t1" "ABC-1" "TODO" (some "sp1")) (by decide) (by decide) (by decide)⟩

/-! ## Operations on a sprint that is not stored -/

/-- C8: for a sprint ID that is not in the sprint store, `Start`, `Complete` (with any
policy), `Update` and `GetByID` fail with `ErrNotFound` and return the stores (sprints,
tasks, notifications) exactly as they were. -/
theorem sprint_not_found (s : sprintService) (id : String)
    (h : s.sprintRepo.FindByID id = none) :
    (∀ now uuid, s.Start id now uuid = (.error .ErrNotFound, s)) ∧
    (∀ moveIncomplete now uuid,
      s.Complete id moveIncomplete now uuid = (.error .ErrNotFound, s)) ∧
    (∀ name goal startDate endDate now,
      s.Update id name goal startDate endDate now = (.error .ErrNotFound, s)) ∧
    s.GetByID id = (.error .ErrNotFound, s) := by
  refine ⟨?_, ?_, ?_, ?_⟩
  · intro now uuid
    unfold sprintService.Start
    rw [h]
  · intro moveIncomplete now uuid
    unfold sprintService.Complete
    rw [h]
  · intro name goal startDate endDate now
    unfold sprintService.Update
    rw [h]
  · unfold sprintService.GetByID
    rw [h]

theorem sprint_not_found_witness :
    demoBoard.sprintRepo.FindByID "sp9" = none ∧
    ((∀ now uuid, demoBoard.Start "sp9" now uuid = (.error .ErrNotFound, demoBoard)) ∧
    (∀ moveIncomplete now uuid,
      demoBoard.Complete "sp9" moveIncomplete now uuid = (.error .ErrNotFound, demoBoard)) ∧
    (∀ name goal startDate endDate now,
      demoBoard.Update "sp9" name goal startDate endDate now
        = (.error .ErrNotFound, demoBoard)) ∧
    demoBoard.GetByID "sp9" = (.error .ErrNotFound, demoBoard)) :=
  ⟨by decide, sprint_not_found demoBoard "sp9" (by decide)⟩

/-! ## Workspace membership -/

theorem membersOf_set (r : workspaceRepository) (W W' : String) (rows : List WorkspaceMember) :
    ({ r with members := r.members.set W rows } : workspaceRepository).membersOf W'
      = if W' = W then rows else r.membersOf W' := by
  unfold workspaceRepository.membersOf
  simp only [GoMap.get_set]
  by_cases h : W' = W
  · simp [h]
  · simp [h]

/-- C9 (counterexample): `u2` already is a member of `w1`; `AddMember` for `u2` returns no
error and the member list of `w1` then holds two rows for `u2`. -/
theorem add_member_twice :
    (demoWorkspaceService.workspaceRepo.FindMember "w1" "u2").isSome = true ∧
    (demoWorkspaceService.AddMember "w1" "b@x.io" "ADMIN" 7 "m3" "n1").1.toOption = some () ∧
    ((demoWorkspaceService.AddMember "w1" "b@x.io" "ADMIN" 7 "m3" "n1").2.memberRows "w1").map
        (fun m => (m.UserID, m.Role))
      = [("u1", "OWNER"), ("u2", "MEMBER"), ("u2", "ADMIN")] := by
  decide

/-- C9 (amended): when the email resolves to a user `U`, `AddMember` succeeds whether or
not `U` already has a row in workspace `W`; it appends one row for `(W, U)` with the given
role and the call time as join timestamp after the rows `W` had, and leaves the member
list of every other workspace as it was. -/
theorem add_member_appends (s : workspaceService) (W email role : String) (now : Time)
    (memberUUID notifUUID : String) (user : User)
    (hU : s.userRepo.FindByEmail email = some user) :
    (s.AddMember W email role now memberUUID notifUUID).1 = .ok () ∧
    (s.AddMember W email role now memberUUID notifUUID).2.memberRows W
      = s.memberRows W ++ [{ ID := memberUUID, WorkspaceID := W, UserID := user.ID,
                             Role := role, JoinedAt := now, User := none }] ∧
    ∀ W', W' ≠ W →
      (s.AddMember W email role now memberUUID notifUUID).2.memberRows W' = s.memberRows W' := by
  unfold workspaceService.AddMember
  simp only [hU, workspaceRepository.AddMember]
  cases hW : workspaceRepository.FindByID
      { workspaces := s.workspaceRepo.workspaces,
        members := s.workspaceRepo.members.set W
          (s.workspaceRepo.membersOf W ++
            [{ ID := memberUUID, WorkspaceID := W, UserID := user.ID, Role := role,
               JoinedAt := now, User := none }]) } W with
  | none =>
    simp only [workspaceService.memberRows, workspaceRepository.FindMembers]
    refine ⟨trivial, ?_, ?_⟩
    · rw [membersOf_set]; simp
    · intro W' hne; rw [membersOf_set]; simp [hne]
  | some ws =>
    simp only [workspaceService.memberRows, workspaceRepository.FindMembers]
    refine ⟨trivial, ?_, ?_⟩
    · rw [membersOf_set]; simp
    · intro W' hne; rw [membersOf_set]; simp [hne]

theorem add_member_appends_witness :
    demoWorkspaceService.userRepo.FindByEmail "c@x.io" = some (demoUser "u3" "c@x.io") ∧
    (demoWorkspaceService.AddMember "w1" "c@x.io" "VIEWER" 7 "m3" "n1").2.memberRows "w1"
      = demoWorkspaceService.memberRows "w1" ++
          [{ ID := "m3", WorkspaceID := "w1", UserID := "u3", Role := "VIEWER",
             JoinedAt := 7, User := none }] :=
  ⟨by decide,
    (add_member_appends demoWorkspaceService "w1" "c@x.io" "VIEWER" 7 "m3" "n1"
      (demoUser "u3" "c@x.io") (by decide)).2.1⟩

theorem updateRoleLoop_none (userID role : String) :
    ∀ (ms : List WorkspaceMember), ms.find? (fun m => m.UserID == userID) = none →
      workspaceRepository.updateRoleLoop userID role ms = ms := by
  intro ms
  induction ms with
  | nil => intro _; rfl
  | cons m rest ih =>
    intro h
    simp only [List.find?_cons] at h
    cases hb : (m.UserID == userID) with
    | true => rw [hb] at h; exact absurd h (by simp)
    | false =>
      rw [hb] at h
      simp only [workspaceRepository.updateRoleLoop, hb, Bool.false_eq_true, if_false, ih h]

theorem updateRoleLoop_some (userID role : String) :
    ∀ (ms : List WorkspaceMember) (m : WorkspaceMember),
      ms.find? (fun m => m.UserID == userID) = some m →
      ∃ pre post, ms = pre ++ m :: post ∧ (∀ x ∈ pre, x.UserID ≠ userID) ∧
        workspaceRepository.updateRoleLoop userID role ms
          = pre ++ { m with Role := role } :: post := by
  intro ms
  induction ms with
  | nil => intro m h; simp at h
  | cons a rest ih =>
    intro m h
    simp only [List.find?_cons] at h
    cases hb : (a.UserID == userID) with
    | true =>
      rw [hb] at h
      simp only [Option.some.injEq] at h
      subst h
      refine ⟨[], rest, rfl, fun x hx => absurd hx (List.not_mem_nil x), ?_⟩
      simp only [workspaceRepository.updateRoleLoop, hb, if_true, List.nil_append]
    | false =>
      rw [hb] at h
      obtain ⟨pre, post, h1, h2, h3⟩ := ih m h
      refine ⟨a :: pre, post, by rw [h1]; rfl, ?_, ?_⟩
      · intro x hx
        rcases List.mem_cons.mp hx with rfl | hx
        · exact fun e => by simp [e] at hb
        · exact h2 x hx
      · simp only [workspaceRepository.updateRoleLoop, hb, Bool.false_eq_true, if_false, h3,
          List.cons_append]

theorem membersOf_eq_of_get (r : workspaceRepository) (W : String) (ms : List WorkspaceMember)
    (h : r.members.get W = some ms) : r.membersOf W = ms := by
  unfold workspaceRepository.membersOf
  rw [h]; rfl

/-- C10 (counterexample): `u3` has no membership in `w1`, and `UpdateMemberRole` for `u3`
returns no error. -/
theorem update_role_of_non_member_succeeds :
    demoWorkspaceService.workspaceRepo.FindMember "w1" "u3" = none ∧
    (demoWorkspaceService.UpdateMemberRole "w1" "u3" "ADMIN").1.toOption = some () ∧
    (demoWorkspaceService.UpdateMemberRole "w1" "u3" "ADMIN").2.memberRows "w1"
      = demoWorkspaceService.memberRows "w1" := by
  decide

/-- C10 (amended): `UpdateMemberRole` never fails.  If `U` has no row in `W`, every
member list is left as it was.  If `U` has a row in `W`, the first row of `U` gets the
role `R` (so that looking `U` up in `W` gives that row with role `R`) and every other row
of `W` as well as the member list of every other workspace is left as it was. -/
theorem update_member_role (s : workspaceService) (W U R : String) :
    (s.UpdateMemberRole W U R).1 = .ok () ∧
    (∀ W', W' ≠ W → (s.UpdateMemberRole W U R).2.memberRows W' = s.memberRows W') ∧
    (s.workspaceRepo.FindMember W U = none →
      (s.UpdateMemberRole W U R).2.memberRows W = s.memberRows W) ∧
    (∀ m, s.workspaceRepo.FindMember W U = some m →
      (s.UpdateMemberRole W U R).2.workspaceRepo.FindMember W U = some { m with Role := R } ∧
      ∃ pre post, s.memberRows W = pre ++ m :: post ∧ (∀ x ∈ pre, x.UserID ≠ U) ∧
        (s.UpdateMemberRole W U R).2.memberRows W = pre ++ { m with Role := R } :: post) := by
  unfold workspaceService.UpdateMemberRole workspaceRepository.UpdateMemberRole
  simp only [workspaceService.memberRows, workspaceRepository.FindMembers,
    workspaceRepository.FindMember]
  cases hg : s.workspaceRepo.members.get W with
  | none =>
    have hm : s.workspaceRepo.membersOf W = [] := by
      unfold workspaceRepository.membersOf; rw [hg]; rfl
    refine ⟨rfl, fun _ _ => rfl, fun _ => rfl, fun m h => ?_⟩
    rw [hm] at h
    simp at h
  | some ms =>
    have hm : s.workspaceRepo.membersOf W = ms := membersOf_eq_of_get _ _ _ hg
    simp only [membersOf_set, if_true]
    refine ⟨trivial, fun W' hne => by rw [if_neg hne], fun h => ?_, fun m h => ?_⟩
    · rw [hm] at h ⊢
      exact updateRoleLoop_none U R ms h
    · rw [hm] at h ⊢
      obtain ⟨pre, post, h1, h2, h3⟩ := updateRoleLoop_some U R ms m h
      refine ⟨?_, pre, post, h1, h2, h3⟩
      rw [h3, List.find?_append]
      have hpre : pre.find? (fun m => m.UserID == U) = none :=
        List.find?_eq_none.mpr (fun x hx => by simpa using h2 x hx)
      have hmU : (m.UserID == U) = true := by
        have := List.find?_some h
        exact this
      simp only [hpre, Option.none_or, List.find?_cons, hmU]

theorem update_member_role_witness :
    demoWorkspaceService.workspaceRepo.FindMember "w1" "u2"
      = some { ID := "m2", WorkspaceID := "w1", UserID := "u2", Role := "MEMBER",
               JoinedAt := 2, User := none } ∧
    (demoWorkspaceService.UpdateMemberRole "w1" "u2" "ADMIN").2.workspaceRepo.FindMember
        "w1" "u2"
      = some { ID := "m2", WorkspaceID := "w1", UserID := "u2", Role := "ADMIN",
               JoinedAt := 2, User := none } :=
  ⟨by decide,
    ((update_member_role demoWorkspaceService "w1" "u2" "ADMIN").2.2.2
      { ID := "m2", WorkspaceID := "w1", UserID := "u2", Role := "MEMBER",
        JoinedAt := 2, User := none } (by decide)).1⟩

/-- A sprint made by `sprintService.Create` starts in `PLANNING`. -/
theorem sprint_create_planning (s : sprintService) (projectID name : String)
    (goal : Option String) (startDate endDate : Option Time) (now : Time) (uuid : String) :
    ∃ sp, (s.Create projectID name goal startDate endDate now uuid).1 = .ok sp ∧
      sp.Status = "PLANNING" ∧
      (s.Create projectID name goal startDate endDate now uuid).2.sprintRepo.FindByID uuid
        = some sp := by
  refine ⟨_, rfl, rfl, ?_⟩
  simp [sprintService.Create, sprintRepository.Create, sprintRepository.FindByID,
    GoMap.get_set]

/-! ## Well-formed stores stay well-formed -/

theorem GoMap.keys_set {β : Type} (m : GoMap β) (k : String) (v : β) :
    (m.set k v).keys = if k ∈ m.keys then m.keys else m.keys ++ [k] := by
  unfold GoMap.set GoMap.keys
  by_cases hany : m.entries.any (fun e => e.1 == k) = true
  · obtain ⟨e, he, hek⟩ := List.any_eq_true.mp hany
    have hmem : k ∈ m.entries.map Prod.fst := by
      simp only [beq_iff_eq] at hek
      rw [← hek]; exact List.mem_map_of_mem _ he
    rw [if_pos hany, if_pos hmem]
    simp only [List.map_map]
    apply List.map_congr_left
    intro x _
    by_cases hx : x.1 = k
    · simp [hx]
    · simp [hx]
  · have hmem : k ∉ m.entries.map Prod.fst := by
      intro hk
      obtain ⟨e, he, hek⟩ := List.mem_map.mp hk
      exact hany (List.any_eq_true.mpr ⟨e, he, by simp [hek]⟩)
    rw [if_neg hany, if_neg hmem]
    simp

theorem GoMap.WF_set {β : Type} (m : GoMap β) (k : String) (v : β) (h : m.WF) :
    (m.set k v).WF := by
  unfold GoMap.WF at h ⊢
  rw [GoMap.keys_set]
  by_cases hk : k ∈ m.keys
  · rw [if_pos hk]; exact h
  · rw [if_neg hk]
    exact List.Nodup.append h (List.nodup_singleton k)
      (by
        intro a ha hb
        rw [List.mem_singleton] at hb
        exact hk (hb ▸ ha))

theorem GoMap.WF_delete {β : Type} (m : GoMap β) (k : String) (h : m.WF) :
    (m.delete k).WF := by
  unfold GoMap.WF GoMap.keys GoMap.delete at *
  exact List.Nodup.sublist ((List.filter_sublist _).map Prod.fst) h

theorem GoMap.mem_set {β : Type} (m : GoMap β) (k : String) (v : β) (e : String × β)
    (he : e ∈ (m.set k v).entries) : e = (k, v) ∨ e ∈ m.entries := by
  unfold GoMap.set at he
  by_cases hany : m.entries.any (fun e => e.1 == k) = true
  · rw [if_pos hany] at he
    obtain ⟨x, hx, hxe⟩ := List.mem_map.mp he
    by_cases hxk : x.1 = k
    · left; rw [← hxe]; simp [hxk]
    · right; rw [← hxe]; simpa [hxk] using hx
  · rw [if_neg hany] at he
    rcases List.mem_append.mp he with h1 | h1
    · exact Or.inr h1
    · left; simpa using h1

/-- The task store stays a map keyed by task ID under `taskRepository.Create`,
`taskRepository.Update` and `taskRepository.Delete`. -/
theorem taskRepository_wellFormed_preserved (r : taskRepository) (h : r.WellFormed) :
    (∀ task now uuid, (r.Create task now uuid).2.WellFormed) ∧
    (∀ task now, (r.Update task now).2.WellFormed) ∧
    (∀ id, (r.Delete id).2.WellFormed) := by
  refine ⟨?_, ?_, ?_⟩
  · intro task now uuid
    refine ⟨GoMap.WF_set _ _ _ h.1, fun e he => ?_⟩
    rcases GoMap.mem_set _ _ _ e he with h1 | h1
    · rw [h1]
    · exact h.2 e h1
  · intro task now
    refine ⟨GoMap.WF_set _ _ _ h.1, fun e he => ?_⟩
    rcases GoMap.mem_set _ _ _ e he with h1 | h1
    · rw [h1]
    · exact h.2 e h1
  · intro id
    refine ⟨GoMap.WF_delete _ _ h.1, fun e he => ?_⟩
    exact h.2 e (List.mem_filter.mp he).1

/-! ## Removing members -/

theorem workspace_removeLoop_none (userID : String) :
    ∀ (ms : List WorkspaceMember), ms.find? (fun m => m.UserID == userID) = none →
      workspaceRepository.removeLoop userID ms = none := by
  intro ms
  induction ms with
  | nil => intro _; rfl
  | cons m rest ih =>
    intro h
    simp only [List.find?_cons] at h
    cases hb : (m.UserID == userID) with
    | true => rw [hb] at h; exact absurd h (by simp)
    | false =>
      rw [hb] at h
      simp only [workspaceRepository.removeLoop, hb, Bool.false_eq_true, if_false, ih h,
        Option.map_none']

theorem project_removeLoop_none (userID : String) :
    ∀ (ms : List ProjectMember), ms.find? (fun m => m.UserID == userID) = none →
      projectRepository.removeLoop userID ms = none := by
  intro ms
  induction ms with
  | nil => intro _; rfl
  | cons m rest ih =>
    intro h
    simp only [List.find?_cons] at h
    cases hb : (m.UserID == userID) with
    | true => rw [hb] at h; exact absurd h (by simp)
    | false =>
      rw [hb] at h
      simp only [projectRepository.removeLoop, hb, Bool.false_eq_true, if_false, ih h,
        Option.map_none']

/-- C11: when user `U` has no membership row in workspace `W` (a workspace without any
member included), `workspaceService.RemoveMember` returns no error and the stores exactly
as they were; `projectService.RemoveMember` does the same for a project. -/
theorem remove_absent_member (U : String) :
    (∀ (s : workspaceService) (W : String), s.workspaceRepo.FindMember W U = none →
      s.RemoveMember W U = (.ok (), s)) ∧
    (∀ (s : projectService) (P : String),
      (s.projectRepo.FindMembers P).find? (fun m => m.UserID == U) = none →
      s.RemoveMember P U = (.ok (), s)) := by
  constructor
  · intro s W h
    unfold workspaceRepository.FindMember at h
    unfold workspaceService.RemoveMember workspaceRepository.RemoveMember
    rw [workspace_removeLoop_none U _ h]
  · intro s P h
    unfold projectRepository.FindMembers at h
    unfold projectService.RemoveMember projectRepository.RemoveMember
    rw [project_removeLoop_none U _ h]

theorem remove_absent_member_witness :
    demoWorkspaceService.workspaceRepo.FindMember "w1" "u3" = none ∧
    demoWorkspaceService.RemoveMember "w1" "u3" = (.ok (), demoWorkspaceService) ∧
    demoWorkspaceService.workspaceRepo.FindMember "w9" "u3" = none ∧
    demoWorkspaceService.RemoveMember "w9" "u3" = (.ok (), demoWorkspaceService) ∧
    (demoProjectService.projectRepo.FindMembers "p1").find? (fun m => m.UserID == "u3") = none ∧
    demoProjectService.RemoveMember "p1" "u3" = (.ok (), demoProjectService) :=
  ⟨by decide, (remove_absent_member "u3").1 demoWorkspaceService "w1" (by decide),
    by decide, (remove_absent_member "u3").1 demoWorkspaceService "w9" (by decide),
    by decide, (remove_absent_member "u3").2 demoProjectService "p1" (by decide)⟩

theorem workspace_removeLoop_some (userID : String) :
    ∀ (ms : List WorkspaceMember) (m : WorkspaceMember),
      ms.find? (fun m => m.UserID == userID) = some m →
      ∃ pre post, ms = pre ++ m :: post ∧ (∀ x ∈ pre, x.UserID ≠ userID) ∧
        workspaceRepository.removeLoop userID ms = some (pre ++ post) := by
  intro ms
  induction ms with
  | nil => intro m h; simp at h
  | cons a rest ih =>
    intro m h
    simp only [List.find?_cons] at h
    cases hb : (a.UserID == userID) with
    | true =>
      rw [hb] at h
      simp only [Option.some.injEq] at h
      subst h
      refine ⟨[], rest, rfl, fun x hx => absurd hx (List.not_mem_nil x), ?_⟩
      simp only [workspaceRepository.removeLoop, hb, if_true, List.nil_append]
    | false =>
      rw [hb] at h
      obtain ⟨pre, post, h1, h2, h3⟩ := ih m h
      refine ⟨a :: pre, post, by rw [h1]; rfl, ?_, ?_⟩
      · intro x hx
        rcases List.mem_cons.mp hx with rfl | hx
        · exact fun e => by simp [e] at hb
        · exact h2 x hx
      · simp only [workspaceRepository.removeLoop, hb, Bool.false_eq_true, if_false, h3,
          Option.map_some', List.cons_append]

theorem listMembers_result (s : workspaceService) (W : String) :
    (s.ListMembers W).1
      = .ok ((s.workspaceRepo.FindMembers W).map (workspaceService.withUser s.userRepo)) := by
  unfold workspaceService.ListMembers
  cases s.workspaceRepo.members.get W <;> rfl

/-- C12 (counterexample): in the state reached by creating workspace `w1` and inviting
user `u2` twice, `u2` is a member of `w1`, and after `RemoveMember` the member list
still holds an entry of `u2`. -/
theorem remove_member_leaves_second_row :
    ((freshWorkspaceService.run inviteTwice).workspaceRepo.FindMember "w1" "u2").isSome = true ∧
    ((((freshWorkspaceService.run inviteTwice).RemoveMember "w1" "u2").2.ListMembers
        "w1").1.toOption.map (fun rows => rows.map (fun m => (m.UserID, m.Role))))
      = some [("u1", "OWNER"), ("u2", "ADMIN")] := by
  decide

/-- C12 (amended): when `U` has a row in `W`, `RemoveMember` succeeds and `ListMembers`
then returns the list it returned before without the first entry of `U`: every other
entry, of another user or a further one of `U`, is kept in the same order, so no entry of
`U` is left exactly when `U` had a single row. -/
theorem remove_member_first_row (s : workspaceService) (W U : String) (m : WorkspaceMember)
    (h : s.workspaceRepo.FindMember W U = some m) :
    (s.RemoveMember W U).1 = .ok () ∧
    ∃ pre post,
      (s.ListMembers W).1 = .ok (pre ++ workspaceService.withUser s.userRepo m :: post) ∧
      (∀ x ∈ pre, x.UserID ≠ U) ∧
      ((s.RemoveMember W U).2.ListMembers W).1 = .ok (pre ++ post) ∧
      ((∀ x ∈ post, x.UserID ≠ U) → ∀ x ∈ pre ++ post, x.UserID ≠ U) := by
  unfold workspaceRepository.FindMember at h
  obtain ⟨pre, post, h1, h2, h3⟩ := workspace_removeLoop_some U _ m h
  have hres : (s.RemoveMember W U).1 = .ok () ∧
      (s.RemoveMember W U).2.workspaceRepo.FindMembers W = pre ++ post ∧
      (s.RemoveMember W U).2.userRepo = s.userRepo := by
    unfold workspaceService.RemoveMember workspaceRepository.RemoveMember
    rw [h3]
    refine ⟨rfl, ?_, rfl⟩
    simp only [workspaceRepository.FindMembers, membersOf_set, if_true]
  refine ⟨hres.1, pre.map (workspaceService.withUser s.userRepo),
    post.map (workspaceService.withUser s.userRepo), ?_, ?_, ?_, ?_⟩
  · rw [listMembers_result]
    unfold workspaceRepository.FindMembers
    rw [h1]
    simp only [List.map_append, List.map_cons]
  · intro x hx
    obtain ⟨y, hy, rfl⟩ := List.mem_map.mp hx
    exact h2 y hy
  · rw [listMembers_result, hres.2.1, hres.2.2]
    simp only [List.map_append]
  · intro hpost x hx
    rcases List.mem_append.mp hx with hx | hx
    · obtain ⟨y, hy, rfl⟩ := List.mem_map.mp hx
      exact h2 y hy
    · exact hpost x hx

theorem remove_member_first_row_witness :
    demoWorkspaceService.workspaceRepo.FindMember "w1" "u2"
      = some { ID := "m2", WorkspaceID := "w1", UserID := "u2", Role := "MEMBER",
               JoinedAt := 2, User := none } ∧
    (demoWorkspaceService.RemoveMember "w1" "u2").1 = .ok () :=
  ⟨by decide,
    (remove_member_first_row demoWorkspaceService "w1" "u2"
      { ID := "m2", WorkspaceID := "w1", UserID := "u2", Role := "MEMBER",
        JoinedAt := 2, User := none } (by decide)).1⟩

/-! ## Creating a workspace -/

/-- C13: `workspaceService.Create` by user `A` (with a workspace ID not yet used as a key
of the member map) returns a workspace `W` owned by `A`; `ListMembers(W)` then is exactly
one entry, of user `A` with role `OWNER`, and `List(A)` contains `W`. -/
theorem workspace_create_owner (s : workspaceService) (A name : String)
    (description icon color : Option String) (now : Time) (wsUUID memberUUID : String)
    (hfresh : s.workspaceRepo.FindMembers wsUUID = []) :
    ∃ W, (s.Create A name description icon color now wsUUID memberUUID).1 = .ok W ∧
      W.OwnerID = A ∧
      ((s.Create A name description icon color now wsUUID memberUUID).2.ListMembers W.ID).1
        = .ok [{ ID := memberUUID, WorkspaceID := W.ID, UserID := A, Role := "OWNER",
                 JoinedAt := now, User := (s.userRepo.FindByID A).map User.ID }] ∧
      ∃ l, ((s.Create A name description icon color now wsUUID memberUUID).2.List_ A).1
          = .ok l ∧ W ∈ l := by
  have hm : s.workspaceRepo.membersOf wsUUID = [] := hfresh
  refine ⟨{ ID := wsUUID, Name := name, Description := description, Icon := icon,
            Color := color, OwnerID := A, CreatedAt := now, UpdatedAt := now }, ?_, rfl, ?_, ?_⟩
  · simp only [workspaceService.Create, workspaceRepository.Create,
      workspaceRepository.AddMember]
  · rw [listMembers_result]
    simp only [workspaceService.Create, workspaceRepository.Create,
      workspaceRepository.AddMember, workspaceRepository.FindMembers,
      workspaceRepository.membersOf, GoMap.get_set, if_true, Option.getD_some]
    unfold workspaceRepository.membersOf at hm
    rw [hm]
    rfl
  · refine ⟨_, rfl, ?_⟩
    simp only [workspaceService.Create, workspaceRepository.Create,
      workspaceRepository.AddMember, workspaceRepository.FindByUserID]
    rw [List.mem_filterMap]
    refine ⟨(wsUUID, _), GoMap.mem_of_get _ wsUUID _ (by rw [GoMap.get_set, if_pos rfl]), ?_⟩
    simp [GoMap.get_set]

theorem workspace_create_owner_witness :
    freshWorkspaceService.workspaceRepo.FindMembers "w1" = [] ∧
    ∃ W, (freshWorkspaceService.Create "u1" "Team" none none none 1 "w1" "m1").1 = .ok W ∧
      W.OwnerID = "u1" ∧
      ((freshWorkspaceService.Create "u1" "Team" none none none 1 "w1" "m1").2.ListMembers
          W.ID).1
        = .ok [{ ID := "m1", WorkspaceID := W.ID, UserID := "u1", Role := "OWNER",
                 JoinedAt := 1, User := (freshWorkspaceService.userRepo.FindByID "u1").map
                   User.ID }] ∧
      ∃ l, ((freshWorkspaceService.Create "u1" "Team" none none none 1 "w1" "m1").2.List_
          "u1").1 = .ok l ∧ W ∈ l :=
  ⟨by decide, workspace_create_owner freshWorkspaceService "u1" "Team" none none none 1
    "w1" "m1" (by decide)⟩

/-! ## The owner's membership row -/

/-- C14 (counterexample): after `Create` by `u1`, `UpdateMemberRole(w1, u1, ADMIN)` leaves
the stored workspace `w1`, owned by `u1`, without any `OWNER` row, and
`RemoveMember(w1, u1)` leaves it without any row. -/
theorem owner_row_lost :
    ((freshWorkspaceService.run
        [.create "u1" "Team" none none none 1 "w1" "m1",
         .updateMemberRole "w1" "u1" "ADMIN"]).workspaceRepo.FindByID "w1").map
        Workspace.OwnerID = some "u1" ∧
    ((freshWorkspaceService.run
        [.create "u1" "Team" none none none 1 "w1" "m1",
         .updateMemberRole "w1" "u1" "ADMIN"]).workspaceRepo.FindMembers "w1").map
        (fun m => (m.UserID, m.Role)) = [("u1", "ADMIN")] ∧
    ((freshWorkspaceService.run
        [.create "u1" "Team" none none none 1 "w1" "m1",
         .removeMember "w1" "u1"]).workspaceRepo.FindByID "w1").map
        Workspace.OwnerID = some "u1" ∧
    (freshWorkspaceService.run
        [.create "u1" "Team" none none none 1 "w1" "m1",
         .removeMember "w1" "u1"]).workspaceRepo.FindMembers "w1" = [] := by
  decide

theorem updateRoleLoop_mem (U R : String) :
    ∀ (ms : List WorkspaceMember) (x : WorkspaceMember), x ∈ ms →
      x ∈ workspaceRepository.updateRoleLoop U R ms ∨
      (x.UserID = U ∧ { x with Role := R } ∈ workspaceRepository.updateRoleLoop U R ms) := by
  intro ms
  induction ms with
  | nil => intro x hx; exact absurd hx (List.not_mem_nil x)
  | cons a rest ih =>
    intro x hx
    cases hb : (a.UserID == U) with
    | true =>
      simp only [workspaceRepository.updateRoleLoop, hb, if_true]
      rcases List.mem_cons.mp hx with rfl | hx
      · right
        exact ⟨beq_iff_eq.mp hb, List.mem_cons_self _ _⟩
      · left; exact List.mem_cons_of_mem _ hx
    | false =>
      simp only [workspaceRepository.updateRoleLoop, hb, Bool.false_eq_true, if_false]
      rcases List.mem_cons.mp hx with rfl | hx
      · left; exact List.mem_cons_self _ _
      · rcases ih x hx with h1 | ⟨h1, h2⟩
        · left; exact List.mem_cons_of_mem _ h1
        · right; exact ⟨h1, List.mem_cons_of_mem _ h2⟩

theorem workspace_removeLoop_mem (U : String) :
    ∀ (ms rows : List WorkspaceMember) (x : WorkspaceMember),
      workspaceRepository.removeLoop U ms = some rows → x ∈ ms → x.UserID ≠ U → x ∈ rows := by
  intro ms
  induction ms with
  | nil => intro rows x _ hx; exact absurd hx (List.not_mem_nil x)
  | cons a rest ih =>
    intro rows x hr hx hne
    cases hb : (a.UserID == U) with
    | true =>
      simp only [workspaceRepository.removeLoop, hb, if_true, Option.some.injEq] at hr
      rcases List.mem_cons.mp hx with rfl | hx
      · exact absurd (beq_iff_eq.mp hb) hne
      · rw [← hr]; exact hx
    | false =>
      simp only [workspaceRepository.removeLoop, hb, Bool.false_eq_true, if_false] at hr
      cases hrest : workspaceRepository.removeLoop U rest with
      | none => rw [hrest] at hr; simp at hr
      | some r' =>
        rw [hrest] at hr
        simp only [Option.map_some', Option.some.injEq] at hr
        rw [← hr]
        rcases List.mem_cons.mp hx with rfl | hx
        · exact List.mem_cons_self _ _
        · exact List.mem_cons_of_mem _ (ih r' x hrest hx hne)

/-- Rewriting the rows of one workspace keeps the invariant when the owner keeps an
`OWNER` row. -/
theorem ownerInv_members_set (r : workspaceRepository) (W : String)
    (rows : List WorkspaceMember) (hInv : r.OwnerInv)
    (hrows : ∀ ws, r.FindByID W = some ws →
      ∃ m ∈ rows, m.UserID = ws.OwnerID ∧ m.Role = "OWNER") :
    ({ r with members := r.members.set W rows } : workspaceRepository).OwnerInv := by
  intro id ws hws
  have hws' : r.FindByID id = some ws := hws
  obtain ⟨h1, m, hm, h2⟩ := hInv id ws hws'
  refine ⟨h1, ?_⟩
  simp only [workspaceRepository.FindMembers, membersOf_set]
  by_cases hid : id = W
  · rw [if_pos hid]
    exact hrows ws (by rw [← hid]; exact hws')
  · rw [if_neg hid]
    exact ⟨m, hm, h2⟩

theorem ownerInv_create (s : workspaceService) (userID name : String)
    (description icon color : Option String) (now : Time) (wsUUID memberUUID : String)
    (hInv : s.workspaceRepo.OwnerInv) :
    (s.Create userID name description icon color now wsUUID memberUUID).2.workspaceRepo.OwnerInv := by
  intro id ws hws
  simp only [workspaceService.Create, workspaceRepository.Create,
    workspaceRepository.AddMember, workspaceRepository.FindByID,
    workspaceRepository.FindMembers, workspaceRepository.membersOf, GoMap.get_set] at hws ⊢
  by_cases hid : id = wsUUID
  · rw [if_pos hid] at hws
    simp only [Option.some.injEq] at hws
    rw [if_pos hid, ← hws]
    refine ⟨hid.symm, (⟨memberUUID, wsUUID, userID, "OWNER", now, none⟩ : WorkspaceMember),
      ?_, rfl, rfl⟩
    simp
  · rw [if_neg hid] at hws
    rw [if_neg hid]
    exact hInv id ws hws

theorem ownerInv_update (s : workspaceService) (id0 : String)
    (name description icon color : Option String) (now : Time)
    (hInv : s.workspaceRepo.OwnerInv) :
    (s.Update id0 name description icon color now).2.workspaceRepo.OwnerInv := by
  unfold workspaceService.Update
  cases h0 : s.workspaceRepo.FindByID id0 with
  | none => exact hInv
  | some ws0 =>
    obtain ⟨hid0, m0, hm0, hown0⟩ := hInv id0 ws0 h0
    have key : ∀ new : Workspace, new.ID = ws0.ID → new.OwnerID = ws0.OwnerID →
        (s.workspaceRepo.Update new now).2.OwnerInv := by
      intro new hID hOwn id ws hws
      simp only [workspaceRepository.Update, workspaceRepository.FindByID, GoMap.get_set,
        hID, hid0] at hws
      have hmem : (s.workspaceRepo.Update new now).2.FindMembers id
          = s.workspaceRepo.FindMembers id := rfl
      rw [hmem]
      by_cases hid : id = id0
      · rw [if_pos hid] at hws
        simp only [Option.some.injEq] at hws
        rw [← hws, hid]
        exact ⟨rfl, m0, hm0, hown0.1.trans hOwn.symm, hown0.2⟩
      · rw [if_neg hid] at hws
        exact hInv id ws hws
    cases name <;> cases description <;> cases icon <;> cases color <;>
      exact key _ rfl rfl

theorem ownerInv_delete (s : workspaceService) (id0 : String)
    (hInv : s.workspaceRepo.OwnerInv) : (s.Delete id0).2.workspaceRepo.OwnerInv := by
  intro id ws hws
  simp only [workspaceService.Delete, workspaceRepository.Delete,
    workspaceRepository.FindByID, workspaceRepository.FindMembers,
    workspaceRepository.membersOf, GoMap.get_delete] at hws ⊢
  by_cases hid : id = id0
  · rw [if_pos hid] at hws; exact absurd hws (by simp)
  · rw [if_neg hid] at hws
    rw [if_neg hid]
    exact hInv id ws hws

theorem ownerInv_addMember (s : workspaceService) (W email role : String) (now : Time)
    (memberUUID notifUUID : String) (hInv : s.workspaceRepo.OwnerInv) :
    (s.AddMember W email role now memberUUID notifUUID).2.workspaceRepo.OwnerInv := by
  unfold workspaceService.AddMember
  cases hU : s.userRepo.FindByEmail email with
  | none => exact hInv
  | some user =>
    have hset := ownerInv_members_set s.workspaceRepo W
      (s.workspaceRepo.membersOf W ++
        [{ ID := memberUUID, WorkspaceID := W, UserID := user.ID, Role := role,
           JoinedAt := now, User := none }]) hInv
      (fun ws hws => by
        obtain ⟨_, m, hm, h2⟩ := hInv W ws hws
        exact ⟨m, List.mem_append_left _ hm, h2⟩)
    simp only [workspaceRepository.AddMember]
    split <;> exact hset

theorem ownerInv_listMembers (s : workspaceService) (W : String)
    (hInv : s.workspaceRepo.OwnerInv) : (s.ListMembers W).2.workspaceRepo.OwnerInv := by
  unfold workspaceService.ListMembers
  cases hg : s.workspaceRepo.members.get W with
  | none => exact hInv
  | some ms =>
    exact ownerInv_members_set s.workspaceRepo W _ hInv
      (fun ws hws => by
        obtain ⟨_, m, hm, h2⟩ := hInv W ws hws
        exact ⟨workspaceService.withUser s.userRepo m, List.mem_map_of_mem _ hm, h2⟩)

theorem ownerInv_updateMemberRole (s : workspaceService) (W U R : String)
    (hInv : s.workspaceRepo.OwnerInv)
    (hsp : (WorkspaceOp.updateMemberRole W U R).sparesOwner s = true) :
    (s.UpdateMemberRole W U R).2.workspaceRepo.OwnerInv := by
  unfold workspaceService.UpdateMemberRole workspaceRepository.UpdateMemberRole
  cases hg : s.workspaceRepo.members.get W with
  | none => exact hInv
  | some ms =>
    have hm : s.workspaceRepo.membersOf W = ms := membersOf_eq_of_get _ _ _ hg
    refine ownerInv_members_set s.workspaceRepo W _ hInv (fun ws hws => ?_)
    obtain ⟨_, m, hmem, hu, hr⟩ := hInv W ws hws
    rw [workspaceRepository.FindMembers, hm] at hmem
    rcases updateRoleLoop_mem U R ms m hmem with h1 | ⟨h1, h2⟩
    · exact ⟨m, h1, hu, hr⟩
    · refine ⟨_, h2, hu, ?_⟩
      simp only [WorkspaceOp.sparesOwner, hws, Option.map_some', Bool.or_eq_true,
        beq_iff_eq, bne_iff_ne, ne_eq, Option.some.injEq] at hsp
      rcases hsp with h3 | h3
      · exact h3
      · exact absurd (hu.symm.trans h1) h3

theorem ownerInv_removeMember (s : workspaceService) (W U : String)
    (hInv : s.workspaceRepo.OwnerInv)
    (hsp : (WorkspaceOp.removeMember W U).sparesOwner s = true) :
    (s.RemoveMember W U).2.workspaceRepo.OwnerInv := by
  unfold workspaceService.RemoveMember workspaceRepository.RemoveMember
  cases hl : workspaceRepository.removeLoop U (s.workspaceRepo.membersOf W) with
  | none => exact hInv
  | some rows =>
    refine ownerInv_members_set s.workspaceRepo W _ hInv (fun ws hws => ?_)
    obtain ⟨_, m, hmem, hu, hr⟩ := hInv W ws hws
    simp only [WorkspaceOp.sparesOwner, hws, Option.map_some', bne_iff_ne, ne_eq,
      Option.some.injEq] at hsp
    exact ⟨m, workspace_removeLoop_mem U _ rows m hl hmem (by rw [hu]; exact hsp), hu, hr⟩

/-- One operation that spares the owner keeps the invariant. -/
theorem ownerInv_step (s : workspaceService) (op : WorkspaceOp)
    (hInv : s.workspaceRepo.OwnerInv) (hsp : op.sparesOwner s = true) :
    (s.step op).workspaceRepo.OwnerInv := by
  cases op with
  | create userID name description icon color now wsUUID memberUUID =>
    exact ownerInv_create s userID name description icon color now wsUUID memberUUID hInv
  | update id name description icon color now =>
    exact ownerInv_update s id name description icon color now hInv
  | delete id => exact ownerInv_delete s id hInv
  | addMember W email role now memberUUID notifUUID =>
    exact ownerInv_addMember s W email role now memberUUID notifUUID hInv
  | listMembers W => exact ownerInv_listMembers s W hInv
  | updateMemberRole W U R => exact ownerInv_updateMemberRole s W U R hInv hsp
  | removeMember W U => exact ownerInv_removeMember s W U hInv hsp

theorem ownerInv_run : ∀ (ops : List WorkspaceOp) (s : workspaceService),
    s.workspaceRepo.OwnerInv → s.sparesOwners ops = true →
    (s.run ops).workspaceRepo.OwnerInv := by
  intro ops
  induction ops with
  | nil => intro s h _; exact h
  | cons op rest ih =>
    intro s hInv hsp
    simp only [workspaceService.sparesOwners, Bool.and_eq_true] at hsp
    exact ih (s.step op) (ownerInv_step s op hInv hsp.1) hsp.2

/-- C14 (amended): starting with no workspace stored, after every run of `Create`,
`Update`, `AddMember`, `ListMembers`, `Delete`, and of `UpdateMemberRole` and
`RemoveMember` calls that spare the owner (on the owner of a stored workspace:
`UpdateMemberRole` only with role `OWNER`, no `RemoveMember`), every stored workspace has
a membership row of its owner with role `OWNER`. -/
theorem owner_row_kept (s : workspaceService) (ops : List WorkspaceOp)
    (hstart : s.workspaceRepo.workspaces.entries = [])
    (hsp : s.sparesOwners ops = true) :
    ∀ id ws, (s.run ops).workspaceRepo.FindByID id = some ws →
      ∃ m ∈ (s.run ops).workspaceRepo.FindMembers id,
        m.UserID = ws.OwnerID ∧ m.Role = "OWNER" := by
  have h0 : s.workspaceRepo.OwnerInv := by
    intro id ws hws
    simp [workspaceRepository.FindByID, GoMap.get, hstart] at hws
  intro id ws hws
  exact (ownerInv_run ops s h0 hsp id ws hws).2

theorem owner_row_kept_witness :
    freshWorkspaceService.workspaceRepo.workspaces.entries = [] ∧
    freshWorkspaceService.sparesOwners
      (inviteTwice ++ [.updateMemberRole "w1" "u2" "VIEWER", .removeMember "w1" "u2",
        .update "w1" (some "Crew") none none none 9]) = true ∧
    ∀ id ws, (freshWorkspaceService.run
        (inviteTwice ++ [.updateMemberRole "w1" "u2" "VIEWER", .removeMember "w1" "u2",
          .update "w1" (some "Crew") none none none 9])).workspaceRepo.FindByID id = some ws →
      ∃ m ∈ (freshWorkspaceService.run
          (inviteTwice ++ [.updateMemberRole "w1" "u2" "VIEWER", .removeMember "w1" "u2",
            .update "w1" (some "Crew") none none none 9])).workspaceRepo.FindMembers id,
        m.UserID = ws.OwnerID ∧ m.Role = "OWNER" :=
  ⟨by decide, by decide,
    owner_row_kept freshWorkspaceService
      (inviteTwice ++ [.updateMemberRole "w1" "u2" "VIEWER", .removeMember "w1" "u2",
        .update "w1" (some "Crew") none none none 9]) (by decide) (by decide)⟩

/-! ## Comment ownership -/

/-- C15: for a stored comment `c` (stored under its ID) and an acting user `U`: when `U`
is not the author, `Update` and `Delete` fail with `ErrUnauthorized` and return the stores
as they were; when `U` is the author, `Update` succeeds and the stored comment carries
the new content, and `Delete` succeeds and the comment is gone; for an ID with no stored
comment both fail with `ErrNotFound`. -/
theorem comment_author_only (s : commentService) (id U content : String) (now : Time)
    (hK : s.commentRepo.KeyedByID) :
    (∀ c, s.commentRepo.FindByID id = some c → c.UserID ≠ U →
      s.Update id U content now = (.error .ErrUnauthorized, s) ∧
      s.Delete id U = (.error .ErrUnauthorized, s)) ∧
    (∀ c, s.commentRepo.FindByID id = some c → c.UserID = U →
      (∃ c', (s.Update id U content now).1 = .ok c' ∧ c'.Content = content ∧
        c'.ID = id ∧ c'.UserID = U ∧
        (s.Update id U content now).2.commentRepo.FindByID id = some c') ∧
      (s.Delete id U).1 = .ok () ∧ (s.Delete id U).2.commentRepo.FindByID id = none) ∧
    (s.commentRepo.FindByID id = none →
      s.Update id U content now = (.error .ErrNotFound, s) ∧
      s.Delete id U = (.error .ErrNotFound, s)) := by
  refine ⟨?_, ?_, ?_⟩
  · intro c hc hne
    have hb : (c.UserID != U) = true := bne_iff_ne.mpr hne
    constructor
    · unfold commentService.Update
      rw [hc]
      simp only [hb, if_true]
    · unfold commentService.Delete
      rw [hc]
      simp only [hb, if_true]
  · intro c hc heq
    have hb : (c.UserID != U) = false := by simp [heq]
    have hid : c.ID = id := hK id c hc
    refine ⟨?_, ?_, ?_⟩
    · unfold commentService.Update
      rw [hc]
      simp only [hb, Bool.false_eq_true, if_false, commentRepository.Update,
        commentRepository.FindByID, GoMap.get_set, hid, if_true]
      exact ⟨_, rfl, rfl, rfl, heq, rfl⟩
    · unfold commentService.Delete
      rw [hc]
      simp only [hb, Bool.false_eq_true, if_false, commentRepository.Delete]
    · unfold commentService.Delete
      rw [hc]
      simp only [hb, Bool.false_eq_true, if_false, commentRepository.Delete,
        commentRepository.FindByID, GoMap.get_delete, if_true]
  · intro hc
    constructor
    · unfold commentService.Update
      rw [hc]
    · unfold commentService.Delete
      rw [hc]

theorem comment_keyed_of_entries (r : commentRepository)
    (h : ∀ e ∈ r.comments.entries, e.2.ID = e.1) : r.KeyedByID := by
  intro id c hget
  exact h (id, c) (GoMap.mem_of_get _ _ _ hget)

theorem comment_author_only_witness :
    (demoCommentService.Update "c1" "u2" "hijacked" 5
        = (.error .ErrUnauthorized, demoCommentService) ∧
      demoCommentService.Delete "c1" "u2" = (.error .ErrUnauthorized, demoCommentService)) ∧
    (demoCommentService.Update "c9" "u1" "lost" 5
        = (.error .ErrNotFound, demoCommentService) ∧
      demoCommentService.Delete "c9" "u1" = (.error .ErrNotFound, demoCommentService)) :=
  ⟨(comment_author_only demoCommentService "c1" "u2" "hijacked" 5
      (comment_keyed_of_entries _ (by decide))).1
      { ID := "c1", Content := "first draft", TaskID := "t1", UserID := "u1",
        CreatedAt := 1, UpdatedAt := 1, User := none } (by decide) (by decide),
    (comment_author_only demoCommentService "c9" "u1" "lost" 5
      (comment_keyed_of_entries _ (by decide))).2.2 (by decide)⟩

/-- The author of `c1` rewrites it and then deletes it. -/
theorem comment_author_demo :
    ((demoCommentService.Update "c1" "u1" "second draft" 5).2.commentRepo.FindByID "c1").map
        (fun c => (c.Content, c.UserID, c.UpdatedAt)) = some ("second draft", "u1", 5) ∧
    (demoCommentService.Delete "c1" "u1").2.commentRepo.FindByID "c1" = none := by
  decide

/-! ## Reordering tasks -/

theorem prisma_find_map (f : Prisma.TaskModel → Prisma.TaskModel) (hf : ∀ t, (f t).ID = t.ID)
    (k : String) :
    ∀ (l : List Prisma.TaskModel),
      (l.map f).find? (fun t => t.ID == k) = (l.find? (fun t => t.ID == k)).map f := by
  intro l
  induction l with
  | nil => rfl
  | cons a rest ih =>
    simp only [List.map_cons, List.find?_cons, hf]
    cases hb : (a.ID == k) with
    | true => rfl
    | false => exact ih

/-- The rows after a successful `UpdateOrder`. -/
theorem prisma_updateOrder (client : Prisma.PrismaClient) (id : String) (order : Int)
    (h : (client.task id).isSome = true) :
    (Prisma.taskRepository.UpdateOrder client id order).1 = .ok () ∧
    ∀ k, (Prisma.taskRepository.UpdateOrder client id order).2.task k
      = if k = id then (client.task k).map (fun t => { t with Order := order })
        else client.task k := by
  have hany : client.tasks.any (fun t => t.ID == id) = true := by
    unfold Prisma.PrismaClient.task at h
    cases hf : client.tasks.find? (fun t => t.ID == id) with
    | none => rw [hf] at h; simp at h
    | some t =>
      have hp : (t.ID == id) = true := by
        have := List.find?_some hf
        exact this
      exact List.any_eq_true.mpr ⟨t, List.mem_of_find?_eq_some hf, hp⟩
  unfold Prisma.taskRepository.UpdateOrder
  rw [if_pos hany]
  refine ⟨rfl, fun k => ?_⟩
  unfold Prisma.PrismaClient.task
  simp only []
  rw [prisma_find_map _ (fun t => by split <;> rfl) k]
  by_cases hk : k = id
  · rw [if_pos hk]
    cases hf : client.tasks.find? (fun t => t.ID == k) with
    | none => rfl
    | some t =>
      have ht : (t.ID == k) = true := by
        have := List.find?_some hf
        exact this
      have ht2 : (t.ID == id) = true := by rw [← hk]; exact ht
      simp only [Option.map_some', ht2, if_true]
  · rw [if_neg hk]
    cases hf : client.tasks.find? (fun t => t.ID == k) with
    | none => rfl
    | some t =>
      have ht : (t.ID == k) = true := by
        have := List.find?_some hf
        exact this
      have ht2 : (t.ID == id) = false := by
        apply beq_eq_false_iff_ne.mpr
        intro e
        exact hk ((beq_iff_eq.mp ht).symm.trans e)
      simp only [Option.map_some', ht2, Bool.false_eq_true, if_false]

/-- The loop of `Reorder` over pairwise different IDs of existing rows. -/
theorem prisma_reorderFrom :
    ∀ (L : List String) (i0 : Nat) (client : Prisma.PrismaClient), L.Nodup →
      (∀ id ∈ L, (client.task id).isSome = true) →
      (Prisma.taskService.reorderFrom i0 L client).1 = .ok () ∧
      (∀ (j : Nat) (id : String), L[j]? = some id →
        (Prisma.taskService.reorderFrom i0 L client).2.task id
          = (client.task id).map (fun t => { t with Order := ((i0 + j : Nat) : Int) })) ∧
      (∀ id, id ∉ L →
        (Prisma.taskService.reorderFrom i0 L client).2.task id = client.task id) := by
  intro L
  induction L with
  | nil =>
    intro i0 client _ _
    refine ⟨rfl, fun j id h => by simp at h, fun id _ => rfl⟩
  | cons a rest ih =>
    intro i0 client hnd hex
    simp only [List.nodup_cons] at hnd
    obtain ⟨hok, hrows⟩ := prisma_updateOrder client a (i0 : Int)
      (hex a (List.mem_cons_self _ _))
    have hex' : ∀ id ∈ rest,
        ((Prisma.taskRepository.UpdateOrder client a (i0 : Int)).2.task id).isSome = true := by
      intro id hid
      rw [hrows id]
      have hne : id ≠ a := fun e => hnd.1 (e ▸ hid)
      rw [if_neg hne]
      exact hex id (List.mem_cons_of_mem _ hid)
    obtain ⟨h1, h2, h3⟩ := ih (i0 + 1)
      (Prisma.taskRepository.UpdateOrder client a (i0 : Int)).2 hnd.2 hex'
    have hstep : Prisma.taskService.reorderFrom i0 (a :: rest) client
        = Prisma.taskService.reorderFrom (i0 + 1) rest
            (Prisma.taskRepository.UpdateOrder client a (i0 : Int)).2 := by
      cases hres : Prisma.taskRepository.UpdateOrder client a (i0 : Int) with
      | mk r c =>
        rw [hres] at hok
        simp only at hok
        subst hok
        simp only [Prisma.taskService.reorderFrom, hres]
    rw [hstep]
    refine ⟨h1, ?_, ?_⟩
    · intro j id hj
      cases j with
      | zero =>
        simp only [List.getElem?_cons_zero, Option.some.injEq] at hj
        subst hj
        rw [h3 a hnd.1, hrows a, if_pos rfl]
        simp
      | succ j =>
        simp only [List.getElem?_cons_succ] at hj
        have hmem : id ∈ rest := List.getElem?_mem hj
        have hne : id ≠ a := fun e => hnd.1 (e ▸ hmem)
        rw [h2 j id hj, hrows id, if_neg hne]
        have : i0 + 1 + j = i0 + (j + 1) := by omega
        rw [this]
    · intro id hid
      have hne : id ≠ a := fun e => hid (e ▸ List.mem_cons_self _ _)
      have hnr : id ∉ rest := fun e => hid (List.mem_cons_of_mem _ e)
      rw [h3 id hnr, hrows id, if_neg hne]

/-- C16: for a list `L` of pairwise different IDs of existing tasks, `taskService.Reorder`
succeeds, the task `L[i]` ends with order index `i` (and is otherwise the row it was), and
every task whose ID is not in `L` is the row it was. -/
theorem reorder_positions (client : Prisma.PrismaClient) (L : List String)
    (hnd : L.Nodup) (hex : ∀ id ∈ L, (client.task id).isSome = true) :
    (Prisma.taskService.Reorder client ⟨L⟩).1 = .ok () ∧
    (∀ (i : Nat) (id : String), L[i]? = some id →
      ∃ t, client.task id = some t ∧
        (Prisma.taskService.Reorder client ⟨L⟩).2.task id
          = some { t with Order := (i : Int) }) ∧
    (∀ id, id ∉ L → (Prisma.taskService.Reorder client ⟨L⟩).2.task id = client.task id) := by
  obtain ⟨h1, h2, h3⟩ := prisma_reorderFrom L 0 client hnd hex
  refine ⟨h1, ?_, h3⟩
  intro i id hi
  have hmem : id ∈ L := List.getElem?_mem hi
  cases ht : client.task id with
  | none => have := hex id hmem; rw [ht] at this; simp at this
  | some t =>
    refine ⟨t, rfl, ?_⟩
    have := h2 i id hi
    rw [ht] at this
    simpa using this

theorem reorder_positions_witness :
    ["t3", "t1", "t2"].Nodup ∧
    (∀ id ∈ ["t3", "t1", "t2"], (Prisma.demoOrdered.task id).isSome = true) ∧
    (Prisma.taskService.Reorder Prisma.demoOrdered ⟨["t3", "t1", "t2"]⟩).1 = .ok () :=
  ⟨by decide, by decide,
    (reorder_positions Prisma.demoOrdered ["t3", "t1", "t2"] (by decide) (by decide)).1⟩

/-- The scenario of the specification: `Reorder([t3, t1, t2])` gives `t3` the order 0,
`t1` the order 1 and `t2` the order 2; `t4` keeps its order. -/
theorem reorder_demo :
    (Prisma.taskService.Reorder Prisma.demoOrdered ⟨["t3", "t1", "t2"]⟩).2.tasks.map
        (fun t => (t.ID, t.Order))
      = [("t1", 1), ("t2", 2), ("t3", 0), ("t4", 7)] := by
  decide

/-! ## Bulk updates -/

theorem GoMap.set_entries_of_get_none {β : Type} (m : GoMap β) (k : String) (v : β)
    (h : m.get k = none) : (m.set k v).entries = m.entries ++ [(k, v)] := by
  unfold GoMap.set
  have hany : ¬ (m.entries.any (fun e => e.1 == k) = true) := by
    intro hany
    obtain ⟨e, he, hek⟩ := List.any_eq_true.mp hany
    unfold GoMap.get at h
    cases hf : m.entries.find? (fun e => e.1 == k) with
    | none => exact absurd hek (List.find?_eq_none.mp hf e he)
    | some x => rw [hf] at h; simp at h
  rw [if_neg hany]

/-- The result and the stores of a successful `taskService.Create`. -/
theorem create_success (s : taskService) (a : CreateTaskArgs) (t : Task)
    (h : (s.Create a).1 = .ok t) :
    ∃ P, s.projectRepo.FindByID a.projectID = some P ∧
      t = taskService.populate s.userRepo
        { ID := a.taskUUID,
          Key := P.Key ++ "-" ++ fmtInt (s.projectRepo.GetNextTaskNumber a.projectID).1,
          Title := a.title, Description := a.description,
          Status := a.status.getD "BACKLOG", Priority := a.priority.getD "MEDIUM",
          Type_ := a.taskType.getD "TASK", ProjectID := a.projectID, SprintID := a.sprintID,
          AssigneeID := a.assigneeID, ReporterID := a.reporterID, ParentID := a.parentID,
          StoryPoints := a.storyPoints, DueDate := a.dueDate, OrderIndex := 0,
          Labels := a.labels, CreatedAt := a.now, UpdatedAt := a.now, Assignee := none,
          Reporter := none } := by
  unfold taskService.Create at h
  cases hP : s.projectRepo.FindByID a.projectID with
  | none => rw [hP] at h; simp at h
  | some P =>
    rw [hP] at h
    simp only [taskRepository.Create, Except.ok.injEq] at h
    refine ⟨P, rfl, ?_⟩
    rw [← h]
    cases a.status <;> cases a.priority <;> cases a.taskType <;> rfl

theorem create_stored (s : taskService) (a : CreateTaskArgs) (t : Task)
    (h : (s.Create a).1 = .ok t) : (s.Create a).2.taskRepo.FindByID t.ID = some t := by
  unfold taskService.Create at h ⊢
  cases hP : s.projectRepo.FindByID a.projectID with
  | none => rw [hP] at h; simp at h
  | some P =>
    rw [hP] at h
    simp only [taskRepository.Create, Except.ok.injEq] at h
    simp only [taskRepository.Create, taskRepository.FindByID, GoMap.get_set]
    rw [h]
    simp

theorem populate_fields (userRepo : userRepository) (t : Task) :
    (taskService.populate userRepo t).Status = t.Status ∧
    (taskService.populate userRepo t).Priority = t.Priority ∧
    (taskService.populate userRepo t).Type_ = t.Type_ ∧
    (taskService.populate userRepo t).ReporterID = t.ReporterID ∧
    (taskService.populate userRepo t).AssigneeID = t.AssigneeID ∧
    (taskService.populate userRepo t).Title = t.Title := by
  unfold taskService.populate
  cases hA : t.AssigneeID with
  | none => exact ⟨rfl, rfl, rfl, rfl, hA, rfl⟩
  | some x => exact ⟨rfl, rfl, rfl, rfl, rfl, rfl⟩

/-- C18: the task returned by a successful `taskService.Create` has status `BACKLOG` when
no status was given and the given status otherwise, priority `MEDIUM` or the given one,
type `TASK` or the given one; its reporter is the creating user, its project the given
project, and it is the task stored under its ID. -/
theorem create_defaults (s : taskService) (a : CreateTaskArgs) (t : Task)
    (h : (s.Create a).1 = .ok t) :
    (a.status = none → t.Status = "BACKLOG") ∧ (∀ v, a.status = some v → t.Status = v) ∧
    (a.priority = none → t.Priority = "MEDIUM") ∧
    (∀ v, a.priority = some v → t.Priority = v) ∧
    (a.taskType = none → t.Type_ = "TASK") ∧ (∀ v, a.taskType = some v → t.Type_ = v) ∧
    t.ReporterID = a.reporterID ∧ t.ProjectID = a.projectID ∧
    (s.Create a).2.taskRepo.FindByID t.ID = some t := by
  obtain ⟨P, hP, ht⟩ := create_success s a t h
  have hf := populate_fields s.userRepo
    { ID := a.taskUUID,
      Key := P.Key ++ "-" ++ fmtInt (s.projectRepo.GetNextTaskNumber a.projectID).1,
      Title := a.title, Description := a.description,
      Status := a.status.getD "BACKLOG", Priority := a.priority.getD "MEDIUM",
      Type_ := a.taskType.getD "TASK", ProjectID := a.projectID, SprintID := a.sprintID,
      AssigneeID := a.assigneeID, ReporterID := a.reporterID, ParentID := a.parentID,
      StoryPoints := a.storyPoints, DueDate := a.dueDate, OrderIndex := 0,
      Labels := a.labels, CreatedAt := a.now, UpdatedAt := a.now, Assignee := none,
      Reporter := none }
  rw [← ht] at hf
  obtain ⟨h1, h2, h3, h4, _, _⟩ := hf
  refine ⟨?_, ?_, ?_, ?_, ?_, ?_, h4, ?_, ?_⟩
  · intro hn; rw [h1, hn]; rfl
  · intro v hv; rw [h1, hv]; rfl
  · intro hn; rw [h2, hn]; rfl
  · intro v hv; rw [h2, hv]; rfl
  · intro hn; rw [h3, hn]; rfl
  · intro v hv; rw [h3, hv]; rfl
  · rw [ht]; exact (populate_identity _ _).2.2
  · exact create_stored s a t h

theorem create_defaults_witness :
    (demoTracker.Create (demoCreate "third" "t3")).1
      = .ok (taskService.populate demoTracker.userRepo
          { demoTask "t3" "ABC-3" "BACKLOG" none with
              Title := "third", CreatedAt := 5, UpdatedAt := 5 }) ∧
    (taskService.populate demoTracker.userRepo
        { demoTask "t3" "ABC-3" "BACKLOG" none with
            Title := "third", CreatedAt := 5, UpdatedAt := 5 }).Status = "BACKLOG" :=
  ⟨rfl,
    (create_defaults demoTracker (demoCreate "third" "t3")
      (taskService.populate demoTracker.userRepo
        { demoTask "t3" "ABC-3" "BACKLOG" none with
            Title := "third", CreatedAt := 5, UpdatedAt := 5 }) rfl).1 rfl⟩

theorem sendTaskAssigned_store (n : notification.Service)
    (userID taskTitle taskID projectID : String) (now : Time) (uuid : String) :
    (n.SendTaskAssigned userID taskTitle taskID projectID now uuid).2.notificationRepo.notifications
      = n.notificationRepo.notifications.set uuid
          (notification.taskAssigned userID taskTitle taskID projectID now uuid) := rfl

/-- C19: after a successful `taskService.Create` with reporter `R`: when an assignee `A`
different from `R` is given, the notification store is the old one with one notification
put under the drawn ID (so, the ID being new, exactly one entry more): type
`TASK_ASSIGNED`, unread, addressed to `A`, carrying the ID of the new task and the project
ID; when no assignee is given or the assignee is `R`, the notification store is
unchanged. -/
theorem create_notifies_assignee (s : taskService) (a : CreateTaskArgs) (t : Task)
    (h : (s.Create a).1 = .ok t) :
    (∀ A, a.assigneeID = some A → A ≠ a.reporterID →
      (s.Create a).2.notifSvc.notificationRepo.notifications
        = s.notifSvc.notificationRepo.notifications.set a.notifUUID
            { ID := a.notifUUID, UserID := A, Type_ := "TASK_ASSIGNED",
              Title := "Task Assigned",
              Message := "You have been assigned to task: " ++ a.title, Read := false,
              Data := [("taskId", t.ID), ("projectId", a.projectID)], CreatedAt := a.now } ∧
      (s.notifSvc.notificationRepo.notifications.get a.notifUUID = none →
        (s.Create a).2.notifSvc.notificationRepo.notifications.entries
          = s.notifSvc.notificationRepo.notifications.entries ++
              [(a.notifUUID, notification.taskAssigned A a.title t.ID a.projectID a.now
                  a.notifUUID)])) ∧
    ((a.assigneeID = none ∨ a.assigneeID = some a.reporterID) →
      (s.Create a).2.notifSvc = s.notifSvc) := by
  obtain ⟨P, hP, ht⟩ := create_success s a t h
  have hid : t.ID = a.taskUUID := by rw [ht]; exact populate_ID _ _
  constructor
  · intro A hA hne
    have hb : (A != a.reporterID) = true := bne_iff_ne.mpr hne
    have hstore : (s.Create a).2.notifSvc.notificationRepo.notifications
        = s.notifSvc.notificationRepo.notifications.set a.notifUUID
            (notification.taskAssigned A a.title t.ID a.projectID a.now a.notifUUID) := by
      unfold taskService.Create
      rw [hP]
      simp only [taskRepository.Create, hA, hb, if_true, sendTaskAssigned_store, hid]
    refine ⟨hstore, fun hfresh => ?_⟩
    rw [hstore]
    exact GoMap.set_entries_of_get_none _ _ _ hfresh
  · intro hcase
    unfold taskService.Create
    rw [hP]
    rcases hcase with hn | hr
    · simp only [taskRepository.Create, hn]
    · have hb : (a.reporterID != a.reporterID) = false := by simp
      simp only [taskRepository.Create, hr, hb, Bool.false_eq_true, if_false]

theorem create_notifies_assignee_witness :
    (demoTracker.Create { demoCreate "third" "t3" with assigneeID := some "u2" }).2.notifSvc.notificationRepo.notifications.entries
      = [("n-t3", notification.taskAssigned "u2" "third" "t3" "p1" 5 "n-t3")] :=
  ((create_notifies_assignee demoTracker { demoCreate "third" "t3" with assigneeID := some "u2" }
      (taskService.populate demoTracker.userRepo
        { demoTask "t3" "ABC-3" "BACKLOG" none with
            Title := "third", CreatedAt := 5, UpdatedAt := 5, AssigneeID := some "u2" })
      rfl).1 "u2" rfl (by decide)).2 rfl

/-! ## Updating a task: the notification of a new assignee -/

theorem applyUpdates_fields (updates : GoMap Value) (t : Task) :
    (taskService.applyUpdates updates t).ProjectID = t.ProjectID ∧
    (taskService.applyUpdates updates t).AssigneeID
      = match updates.get "assigneeId" with
        | some (.strPtr v) => v
        | _ => t.AssigneeID := by
  unfold taskService.applyUpdates
  lift_lets
  intro t1 t2 t3 t4 t5 t6 t7 t8 t9 t10 t11
  have h1 : t1.AssigneeID = t.AssigneeID := by simp only [t1]; split <;> rfl
  have h2 : t2.AssigneeID = t1.AssigneeID := by simp only [t2]; split <;> rfl
  have h3 : t3.AssigneeID = t2.AssigneeID := by simp only [t3]; split <;> rfl
  have h4 : t4.AssigneeID = t3.AssigneeID := by simp only [t4]; split <;> rfl
  have h5 : t5.AssigneeID = t4.AssigneeID := by simp only [t5]; split <;> rfl
  have h6 : t6.AssigneeID = match updates.get "assigneeId" with
      | some (.strPtr v) => v
      | _ => t5.AssigneeID := by
    simp only [t6]; split <;> rfl
  have h7 : t7.AssigneeID = t6.AssigneeID := by simp only [t7]; split <;> rfl
  have h8 : t8.AssigneeID = t7.AssigneeID := by simp only [t8]; split <;> rfl
  have h9 : t9.AssigneeID = t8.AssigneeID := by simp only [t9]; split <;> rfl
  have h10 : t10.AssigneeID = t9.AssigneeID := by simp only [t10]; split <;> rfl
  have h11 : t11.AssigneeID = t10.AssigneeID := by simp only [t11]; split <;> rfl
  refine ⟨(applyUpdates_identity updates t).2.2, ?_⟩
  rw [h11, h10, h9, h8, h7, h6, h5, h4, h3, h2, h1]

/-- The result of a successful `taskService.Update`. -/
theorem update_success (s : taskService) (id : String) (updates : GoMap Value) (now : Time)
    (notifUUID : String) (t0 t : Task) (h0 : s.taskRepo.FindByID id = some t0)
    (h : (s.Update id updates now notifUUID).1 = .ok t) :
    t = taskService.populate s.userRepo
      { taskService.applyUpdates updates t0 with UpdatedAt := now } := by
  unfold taskService.Update at h
  rw [h0] at h
  simp only [taskRepository.Update, Except.ok.injEq] at h
  exact h.symm

/-- C20: after a successful `taskService.Update` of a task whose assignee was `P`: when
the assignee after the update is some `X` different from `P`, the notification store is
the old one with one `TASK_ASSIGNED` notification addressed to `X` put under the drawn ID
(so, the ID being new, exactly one entry more); when the assignee after the update is
none or equals `P`, and in particular when the update does not name the assignee, the
notification store is unchanged. -/
theorem update_notifies_new_assignee (s : taskService) (id : String) (updates : GoMap Value)
    (now : Time) (notifUUID : String) (t0 t : Task)
    (h0 : s.taskRepo.FindByID id = some t0)
    (h : (s.Update id updates now notifUUID).1 = .ok t) :
    (∀ X, t.AssigneeID = some X → t0.AssigneeID ≠ some X →
      (s.Update id updates now notifUUID).2.notifSvc.notificationRepo.notifications
        = s.notifSvc.notificationRepo.notifications.set notifUUID
            { ID := notifUUID, UserID := X, Type_ := "TASK_ASSIGNED", Title := "Task Assigned",
              Message := "You have been assigned to task: " ++ t.Title, Read := false,
              Data := [("taskId", t.ID), ("projectId", t.ProjectID)], CreatedAt := now } ∧
      (s.notifSvc.notificationRepo.notifications.get notifUUID = none →
        (s.Update id updates now notifUUID).2.notifSvc.notificationRepo.notifications.entries
          = s.notifSvc.notificationRepo.notifications.entries ++
              [(notifUUID, notification.taskAssigned X t.Title t.ID t.ProjectID now
                  notifUUID)])) ∧
    ((t.AssigneeID = none ∨ t.AssigneeID = t0.AssigneeID) →
      (s.Update id updates now notifUUID).2.notifSvc = s.notifSvc) ∧
    (updates.get "assigneeId" = none →
      (s.Update id updates now notifUUID).2.notifSvc = s.notifSvc) := by
  have ht := update_success s id updates now notifUUID t0 t h0 h
  have hf := populate_fields s.userRepo
    { taskService.applyUpdates updates t0 with UpdatedAt := now }
  have hi := populate_identity s.userRepo
    { taskService.applyUpdates updates t0 with UpdatedAt := now }
  rw [← ht] at hf hi
  have hA : t.AssigneeID = (taskService.applyUpdates updates t0).AssigneeID := hf.2.2.2.2.1
  have hTitle : t.Title = (taskService.applyUpdates updates t0).Title := hf.2.2.2.2.2
  have hID : t.ID = (taskService.applyUpdates updates t0).ID := hi.1
  have hProj : t.ProjectID = (taskService.applyUpdates updates t0).ProjectID := hi.2.2
  have hunch : (t.AssigneeID = none ∨ t.AssigneeID = t0.AssigneeID) →
      (s.Update id updates now notifUUID).2.notifSvc = s.notifSvc := by
    intro hcase
    unfold taskService.Update
    rw [h0]
    simp only [taskRepository.Update]
    rw [hA] at hcase
    cases hx : (taskService.applyUpdates updates t0).AssigneeID with
    | none => rfl
    | some X =>
      rw [hx] at hcase
      rcases hcase with hn | he
      · exact absurd hn (by simp)
      · have hb : (t0.AssigneeID != some X) = false := by simp [he]
        simp only [hb, Bool.false_eq_true, if_false]
  refine ⟨?_, hunch, ?_⟩
  · intro X hX hne
    have hb : (t0.AssigneeID != some X) = true := bne_iff_ne.mpr hne
    have hstore : (s.Update id updates now notifUUID).2.notifSvc.notificationRepo.notifications
        = s.notifSvc.notificationRepo.notifications.set notifUUID
            (notification.taskAssigned X t.Title t.ID t.ProjectID now notifUUID) := by
      rw [hA] at hX
      unfold taskService.Update
      rw [h0]
      simp only [taskRepository.Update, hX, hb, if_true, sendTaskAssigned_store, hTitle, hID,
        hProj]
    refine ⟨hstore, fun hfresh => ?_⟩
    rw [hstore]
    exact GoMap.set_entries_of_get_none _ _ _ hfresh
  · intro hnokey
    apply hunch
    right
    rw [hA, (applyUpdates_fields updates t0).2, hnokey]

theorem update_notifies_new_assignee_witness :
    demoTracker.taskRepo.FindByID "t1" = some (demoTask "t1" "ABC-1" "TODO" none) ∧
    (demoTracker.Update "t1" ⟨[("assigneeId", .strPtr (some "u2"))]⟩ 9 "n9").2.notifSvc.notificationRepo.notifications.entries
      = [("n9", notification.taskAssigned "u2" "task t1" "t1" "p1" 9 "n9")] :=
  ⟨by decide,
    ((update_notifies_new_assignee demoTracker "t1" ⟨[("assigneeId", .strPtr (some "u2"))]⟩ 9
      "n9" (demoTask "t1" "ABC-1" "TODO" none)
      (taskService.populate demoTracker.userRepo
        { demoTask "t1" "ABC-1" "TODO" none with AssigneeID := some "u2", UpdatedAt := 9 })
      (by decide) rfl).1 "u2" rfl (by decide)).2 rfl⟩

/-- Updates of `demoTracker`: a new title notifies nobody, the assignee that `t2` already
has notifies nobody, a new assignee of `t2` is notified once. -/
theorem update_notification_demo :
    (demoTracker.Update "t2" ⟨[("title", .str "renamed")]⟩ 9
        "n9").2.notifSvc.notificationRepo.notifications.entries = [] ∧
    (demoTracker.Update "t2" ⟨[("assigneeId", .strPtr (some "u2"))]⟩ 9
        "n9").2.notifSvc.notificationRepo.notifications.entries = [] ∧
    ((demoTracker.Update "t2" ⟨[("assigneeId", .strPtr (some "u1"))]⟩ 9
        "n9").2.notifSvc.notificationRepo.notifications.values.map
        (fun n => (n.UserID, n.Type_, n.Read))) = [("u1", "TASK_ASSIGNED", false)] := by
  decide

/-! ## Commenting on a task: who is notified -/

theorem sendTaskCommented_store (n : notification.Service)
    (userID taskTitle taskID : String) (now : Time) (uuid : String) :
    (n.SendTaskCommented userID taskTitle taskID now uuid).2.notificationRepo.notifications
      = n.notificationRepo.notifications.set uuid
          (notification.taskCommented userID taskTitle taskID now uuid) := rfl

theorem comment_create_notifSvc (s : commentService) (taskID userID content : String)
    (now : Time) (uuid uuidA uuidR : String) :
    (s.Create taskID userID content now uuid uuidA uuidR).2.notifSvc
      = s.notify taskID userID now uuidA uuidR := rfl

/-- C21: `commentService.Create` by commenter `U` on a stored task with reporter `R` and
optional assignee `A` succeeds, and, the drawn notification IDs being new and different,
the notification store afterwards is the old one followed by one `TASK_COMMENTED`
notification for `A` when `A` is set and differs from `U`, and then one for `R` when `R`
differs from `U` and from `A`; nothing else is added, so nobody else is notified and no
added notification is addressed to `U`. -/
theorem comment_notifies (s : commentService) (taskID userID content : String) (now : Time)
    (uuid uuidA uuidR : String) (task : Task)
    (htask : s.taskRepo.FindByID taskID = some task)
    (hA : s.notifSvc.notificationRepo.notifications.get uuidA = none)
    (hR : s.notifSvc.notificationRepo.notifications.get uuidR = none)
    (hAR : uuidA ≠ uuidR) :
    (∃ c, (s.Create taskID userID content now uuid uuidA uuidR).1 = .ok c) ∧
    (s.Create taskID userID content now uuid uuidA uuidR).2.notifSvc.notificationRepo.notifications.entries
      = s.notifSvc.notificationRepo.notifications.entries
        ++ (match task.AssigneeID with
            | some A =>
              if A ≠ userID then
                [(uuidA, notification.taskCommented A task.Title task.ID now uuidA)]
              else []
            | none => [])
        ++ (if task.ReporterID ≠ userID ∧ task.AssigneeID ≠ some task.ReporterID then
              [(uuidR, notification.taskCommented task.ReporterID task.Title task.ID now uuidR)]
            else []) := by
  refine ⟨⟨_, rfl⟩, ?_⟩
  rw [comment_create_notifSvc]
  unfold commentService.notify
  rw [htask]
  simp only []
  cases hAs : task.AssigneeID with
  | none =>
    simp only [Option.isNone_none, Bool.true_or, Bool.and_true, List.append_nil]
    by_cases hRU : task.ReporterID = userID
    · simp [hRU]
    · have hb : (task.ReporterID != userID) = true := bne_iff_ne.mpr hRU
      simp only [hb, if_true, ne_eq, hRU, not_false_eq_true, true_and]
      rw [sendTaskCommented_store]
      simp only [reduceCtorEq, not_false_eq_true, if_true]
      exact GoMap.set_entries_of_get_none _ _ _ hR
  | some A =>
    simp only [Option.isNone_some, Bool.false_or]
    by_cases hAU : A = userID
    · subst hAU
      simp only [bne_self_eq_false, Bool.false_eq_true, if_false, ne_eq, not_true_eq_false,
        List.append_nil]
      by_cases hRU : task.ReporterID = A
      · simp [hRU]
      · have hb : (task.ReporterID != A) = true := bne_iff_ne.mpr hRU
        have hb2 : (some A != some task.ReporterID) = true :=
          bne_iff_ne.mpr (fun h => hRU (Option.some.inj h).symm)
        have hne : ¬ (some A = some task.ReporterID) := fun h => hRU (Option.some.inj h).symm
        simp only [hb, hb2, Bool.and_self, if_true, hRU, not_false_eq_true, hne, and_self]
        rw [sendTaskCommented_store]
        exact GoMap.set_entries_of_get_none _ _ _ hR
    · have hbA : (A != userID) = true := bne_iff_ne.mpr hAU
      simp only [hbA, if_true, ne_eq, hAU, not_false_eq_true]
      have hR2 : (s.notifSvc.SendTaskCommented A task.Title task.ID now
          uuidA).2.notificationRepo.notifications.get uuidR = none := by
        rw [sendTaskCommented_store, GoMap.get_set, if_neg (fun h => hAR h.symm)]
        exact hR
      by_cases hsend : task.ReporterID ≠ userID ∧ ¬ (some A = some task.ReporterID)
      · have hb : (task.ReporterID != userID) = true := bne_iff_ne.mpr hsend.1
        have hb2 : (some A != some task.ReporterID) = true := bne_iff_ne.mpr hsend.2
        simp only [hb, hb2, Bool.and_self, if_true]
        rw [if_pos hsend, sendTaskCommented_store,
          GoMap.set_entries_of_get_none _ _ _ hR2,
          sendTaskCommented_store, GoMap.set_entries_of_get_none _ _ _ hA]
      · rw [if_neg hsend]
        have hb : ((task.ReporterID != userID) && (some A != some task.ReporterID)) = false := by
          rcases Classical.not_and_iff_or_not_not.mp hsend with h | h
          · have : task.ReporterID = userID := not_not.mp h
            simp [this]
          · have : some A = some task.ReporterID := not_not.mp h
            simp [this]
        simp only [hb, Bool.false_eq_true, if_false, List.append_nil]
        rw [sendTaskCommented_store]
        exact GoMap.set_entries_of_get_none _ _ _ hA

/-- Evaluation of C21 on `demoDiscussion`: `u3` comments on a task reported by `u1` and
assigned to `u2`. -/
theorem comment_notifies_witness :
    ((demoDiscussion.Create "t1" "u3" "looks good" 5 "c2" "n1" "n2").2.notifSvc.notificationRepo.notifications.entries.map
        (fun e => (e.2.UserID, e.2.Type_)))
      = [("u2", "TASK_COMMENTED"), ("u1", "TASK_COMMENTED")] := by
  have h := (comment_notifies demoDiscussion "t1" "u3" "looks good" 5 "c2" "n1" "n2"
    (demoAssigned "t1" "u1" (some "u2")) (by decide) (by decide) (by decide) (by decide)).2
  rw [h]
  decide

/-! ## Deleting a workspace -/

/-- C22, counterexample: workspace `w1` has the space `sp1`; `Workspace.Delete("w1")`
succeeds and removes the workspace, yet `ListByWorkspace("w1")` still returns `sp1` and
`GetByID("sp1")` still succeeds. -/
theorem workspace_delete_keeps_spaces :
    (demoServices.deleteWorkspace "w1").1.toOption = some () ∧
    (demoServices.deleteWorkspace "w1").2.Workspace.workspaceRepo.FindByID "w1" = none ∧
    (demoServices.deleteWorkspace "w1").2.Space.ListByWorkspace "w1" = [demoSpace] ∧
    ((demoServices.deleteWorkspace "w1").2.Space.GetByID "sp1").toOption = some demoSpace := by
  refine ⟨by decide, by decide, by decide, by decide⟩

/-- C22, amended: for a stored workspace `W`, `Workspace.Delete(W)` succeeds, removes
the workspace and its member rows, and leaves the space store as it was: the list
`ListByWorkspace(W)` is the same as before and every space that `GetByID` found before
is still found. -/
theorem workspace_delete_effect (S : Services) (id : String) (w : Workspace)
    (_hW : S.Workspace.workspaceRepo.FindByID id = some w) :
    (S.deleteWorkspace id).1 = .ok () ∧
    (S.deleteWorkspace id).2.Workspace.workspaceRepo.FindByID id = none ∧
    (S.deleteWorkspace id).2.Workspace.workspaceRepo.membersOf id = [] ∧
    (S.deleteWorkspace id).2.Space.spaceRepo = S.Space.spaceRepo ∧
    (S.deleteWorkspace id).2.Space.ListByWorkspace id = S.Space.ListByWorkspace id ∧
    ∀ sid, (S.deleteWorkspace id).2.Space.GetByID sid = S.Space.GetByID sid := by
  refine ⟨rfl, ?_, ?_, rfl, rfl, fun _ => rfl⟩
  · show (S.Workspace.workspaceRepo.workspaces.delete id).get id = none
    rw [GoMap.get_delete, if_pos rfl]
  · show ((S.Workspace.workspaceRepo.members.delete id).get id).getD [] = []
    rw [GoMap.get_delete, if_pos rfl]
    rfl

/-- Evaluation of the amended C22 on `demoServices`. -/
theorem workspace_delete_effect_witness :
    (demoServices.deleteWorkspace "w1").2.Space.spaceRepo = demoServices.Space.spaceRepo :=
  (workspace_delete_effect demoServices "w1"
    { ID := "w1", Name := "Team", Description := none, Icon := none, Color := none,
      OwnerID := "u1", CreatedAt := 1, UpdatedAt := 1 } (by decide)).2.2.2.1

/-! ## Registration and the uniqueness of emails -/

theorem findByEmail_some (r : userRepository) (email : String) (u : User)
    (h : r.FindByEmail email = some u) :
    u.Email = email ∧ ∃ k, (k, u) ∈ r.users.entries := by
  unfold userRepository.FindByEmail at h
  have h1 := List.find?_some h
  have h2 := List.mem_of_find?_eq_some h
  simp only [beq_iff_eq] at h1
  refine ⟨h1, ?_⟩
  unfold GoMap.values at h2
  obtain ⟨e, he, heq⟩ := List.mem_map.mp h2
  exact ⟨e.1, by rw [← heq]; exact he⟩

theorem findByEmail_none (r : userRepository) (email : String)
    (h : r.FindByEmail email = none) : ∀ e ∈ r.users.entries, e.2.Email ≠ email := by
  intro e he heq
  unfold userRepository.FindByEmail at h
  have h1 := List.find?_eq_none.mp h e.2 (by
    unfold GoMap.values
    exact List.mem_map.mpr ⟨e, he, rfl⟩)
  simp only [beq_iff_eq] at h1
  exact h1 heq

theorem users_keyed_set (users : GoMap User) (k : String) (v : User)
    (hkey : ∀ e ∈ users.entries, e.2.ID = e.1) (hv : v.ID = k) :
    ∀ e ∈ (users.set k v).entries, e.2.ID = e.1 := by
  intro e he
  rcases GoMap.mem_set _ _ _ _ he with h | h
  · rw [h]; exact hv
  · exact hkey e h

theorem users_unique_set_fresh (users : GoMap User) (k : String) (v : User)
    (huniq : ∀ e1 ∈ users.entries, ∀ e2 ∈ users.entries, e1.2.Email = e2.2.Email → e1.1 = e2.1)
    (hfresh : ∀ e ∈ users.entries, e.2.Email ≠ v.Email) :
    ∀ e1 ∈ (users.set k v).entries, ∀ e2 ∈ (users.set k v).entries,
      e1.2.Email = e2.2.Email → e1.1 = e2.1 := by
  intro e1 h1 e2 h2 heq
  rcases GoMap.mem_set _ _ _ _ h1 with a | a <;> rcases GoMap.mem_set _ _ _ _ h2 with b | b
  · rw [a, b]
  · rw [a] at heq; exact absurd heq.symm (hfresh e2 b)
  · rw [b] at heq; exact absurd heq (hfresh e1 a)
  · exact huniq e1 a e2 b heq

theorem users_unique_set_same (users : GoMap User) (k : String) (u v : User)
    (huniq : ∀ e1 ∈ users.entries, ∀ e2 ∈ users.entries, e1.2.Email = e2.2.Email → e1.1 = e2.1)
    (hmem : (k, u) ∈ users.entries) (hv : v.Email = u.Email) :
    ∀ e1 ∈ (users.set k v).entries, ∀ e2 ∈ (users.set k v).entries,
      e1.2.Email = e2.2.Email → e1.1 = e2.1 := by
  intro e1 h1 e2 h2 heq
  rcases GoMap.mem_set _ _ _ _ h1 with a | a <;> rcases GoMap.mem_set _ _ _ _ h2 with b | b
  · rw [a, b]
  · rw [a] at heq ⊢
    simp only [] at heq ⊢
    exact huniq (k, u) hmem e2 b (by rw [← hv]; exact heq)
  · rw [b] at heq ⊢
    simp only [] at heq ⊢
    exact huniq e1 a (k, u) hmem (by rw [← hv] ; exact heq)
  · exact huniq e1 a e2 b heq

theorem generateTokens_users (lib : Crypto) (s : authService) (userID : String) (now : Time)
    (tokenUUID idUUID : String) :
    (authService.generateTokens lib s userID now tokenUUID idUUID).2.userRepo.users
      = s.userRepo.users := by
  unfold authService.generateTokens
  cases lib.SignedString s.cfg.JWTSecret userID (Time.addHours now s.cfg.JWTExpiry) now <;> rfl

theorem generateTokens_match_users (lib : Crypto) (s0 : authService) (userID : String)
    (now : Time) (tokenUUID idUUID : String) (user : User) :
    (match authService.generateTokens lib s0 userID now tokenUUID idUUID with
      | (.error err, s) => ((.error err : Except Error (User × String × String)), s)
      | (.ok (accessToken, refreshToken), s) =>
        (.ok (user, accessToken, refreshToken), s)).2.userRepo.users
      = s0.userRepo.users := by
  have hu := generateTokens_users lib s0 userID now tokenUUID idUUID
  generalize authService.generateTokens lib s0 userID now tokenUUID idUUID = g at hu ⊢
  obtain ⟨r, s2⟩ := g
  cases r with
  | error err => exact hu
  | ok p => obtain ⟨a, b⟩ := p; exact hu

theorem register_users (lib : Crypto) (s : authService) (name email password : String)
    (now : Time) (userUUID tokenUUID idUUID : String) :
    (authService.Register lib s name email password now userUUID tokenUUID idUUID).2.userRepo.users
        = s.userRepo.users ∨
    (s.userRepo.FindByEmail email = none ∧
      ∃ v : User, v.ID = userUUID ∧ v.Email = email ∧
        (authService.Register lib s name email password now userUUID tokenUUID
          idUUID).2.userRepo.users = s.userRepo.users.set userUUID v) := by
  unfold authService.Register
  cases hf : s.userRepo.FindByEmail email with
  | some u => left; rfl
  | none =>
    cases hh : lib.GenerateFromPassword password with
    | error err => left; rfl
    | ok hashed =>
      right
      refine ⟨rfl, ⟨⟨userUUID, email, hashed, name, none, "ONLINE", now, now⟩, rfl, rfl, ?_⟩⟩
      simp only [userRepository.Create]
      exact generateTokens_match_users lib _ _ now tokenUUID idUUID _

theorem login_users (lib : Crypto) (s : authService) (email password : String)
    (now : Time) (tokenUUID idUUID : String) :
    (authService.Login lib s email password now tokenUUID idUUID).2.userRepo.users
        = s.userRepo.users ∨
    ∃ u v : User, s.userRepo.FindByEmail email = some u ∧ v.ID = u.ID ∧ v.Email = u.Email ∧
      (authService.Login lib s email password now tokenUUID idUUID).2.userRepo.users
        = s.userRepo.users.set u.ID v := by
  unfold authService.Login
  cases hf : s.userRepo.FindByEmail email with
  | none => left; rfl
  | some u =>
    simp only []
    by_cases hc : lib.CompareHashAndPassword u.Password password = true
    · right
      refine ⟨u, ⟨u.ID, u.Email, u.Password, u.Name, u.Avatar, "ONLINE", u.CreatedAt, now⟩,
        rfl, rfl, rfl, ?_⟩
      simp only [hc, Bool.not_true, Bool.false_eq_true, if_false, userRepository.Update]
      exact generateTokens_match_users lib _ _ now tokenUUID idUUID _
    · left
      have hc2 : lib.CompareHashAndPassword u.Password password = false := by
        cases h : lib.CompareHashAndPassword u.Password password
        · rfl
        · exact absurd h hc
      simp [hc2]

theorem user_update_users (s : userService) (id : String) (name avatar : Option String)
    (now : Time) :
    (s.Update id name avatar now).2.userRepo.users = s.userRepo.users ∨
    ∃ u v : User, s.userRepo.FindByID id = some u ∧ v.ID = u.ID ∧ v.Email = u.Email ∧
      (s.Update id name avatar now).2.userRepo.users = s.userRepo.users.set u.ID v := by
  unfold userService.Update
  cases hf : s.userRepo.FindByID id with
  | none => left; rfl
  | some u =>
    right
    refine ⟨u, ⟨u.ID, u.Email, u.Password, name.getD u.Name,
      if avatar.isSome then avatar else u.Avatar, u.Status, u.CreatedAt, now⟩,
      rfl, rfl, rfl, ?_⟩
    cases name <;> cases avatar <;> rfl

theorem auth_step_inv (lib : Crypto) (s : authService) (op : AuthOp)
    (hkey : s.userRepo.KeyedByID) (huniq : s.userRepo.EmailsUnique) :
    (authService.step lib s op).userRepo.KeyedByID ∧
    (authService.step lib s op).userRepo.EmailsUnique := by
  unfold userRepository.KeyedByID userRepository.EmailsUnique at *
  cases op with
  | register name email password now userUUID tokenUUID idUUID =>
    simp only [authService.step]
    rcases register_users lib s name email password now userUUID tokenUUID idUUID with h | h
    · rw [h]; exact ⟨hkey, huniq⟩
    · obtain ⟨hnone, v, hid, hem, hu⟩ := h
      rw [hu]
      refine ⟨users_keyed_set _ _ _ hkey hid, users_unique_set_fresh _ _ _ huniq ?_⟩
      rw [hem]
      exact findByEmail_none _ _ hnone
  | login email password now tokenUUID idUUID =>
    simp only [authService.step]
    rcases login_users lib s email password now tokenUUID idUUID with h | h
    · rw [h]; exact ⟨hkey, huniq⟩
    · obtain ⟨u, v, hf, hid, hem, hu⟩ := h
      rw [hu]
      obtain ⟨_, k, hk⟩ := findByEmail_some _ _ _ hf
      have hku : u.ID = k := hkey _ hk
      rw [← hku] at hk
      exact ⟨users_keyed_set _ _ _ hkey hid, users_unique_set_same _ _ u _ huniq hk hem⟩
  | update id name avatar now =>
    simp only [authService.step]
    rcases user_update_users ⟨s.userRepo⟩ id name avatar now with h | h
    · rw [h]; exact ⟨hkey, huniq⟩
    · obtain ⟨u, v, hf, hid, hem, hu⟩ := h
      rw [hu]
      have hk : (id, u) ∈ s.userRepo.users.entries := GoMap.mem_of_get _ _ _ hf
      have hku : u.ID = id := hkey _ hk
      rw [← hku] at hk
      exact ⟨users_keyed_set _ _ _ hkey hid, users_unique_set_same _ _ u _ huniq hk hem⟩

theorem auth_run_inv (lib : Crypto) (ops : List AuthOp) (s : authService)
    (hkey : s.userRepo.KeyedByID) (huniq : s.userRepo.EmailsUnique) :
    (authService.run lib s ops).userRepo.KeyedByID ∧
    (authService.run lib s ops).userRepo.EmailsUnique := by
  induction ops generalizing s with
  | nil => exact ⟨hkey, huniq⟩
  | cons op ops ih =>
    have h := auth_step_inv lib s op hkey huniq
    exact ih (authService.step lib s op) h.1 h.2

theorem demoAuthService_users :
    demoAuthService.userRepo.users.entries = [("u1", demoAnn)] := by decide

/-- C23: whatever the library functions are, `authService.Register` with an email that
a stored user already has fails with `ErrUserExists` and returns the service as it was
(user store and refresh-token store unchanged); and from a state in which users are
stored under their IDs with pairwise different emails (such as the empty store), after
any calls of `Register`, `Login` and `userService.Update` two users found under
different IDs have different emails. -/
theorem register_keeps_emails_unique (lib : Crypto) (s : authService)
    (hkey : s.userRepo.KeyedByID) (huniq : s.userRepo.EmailsUnique) :
    (∀ (name email password : String) (now : Time) (userUUID tokenUUID idUUID id : String)
        (u : User), s.userRepo.FindByID id = some u → u.Email = email →
        authService.Register lib s name email password now userUUID tokenUUID idUUID
          = (.error .ErrUserExists, s)) ∧
    (∀ (ops : List AuthOp) (id1 id2 : String) (u1 u2 : User),
        (authService.run lib s ops).userRepo.FindByID id1 = some u1 →
        (authService.run lib s ops).userRepo.FindByID id2 = some u2 →
        u1.Email = u2.Email → id1 = id2) := by
  constructor
  · intro name email password now userUUID tokenUUID idUUID id u hu hem
    unfold authService.Register
    cases hf : s.userRepo.FindByEmail email with
    | some x => rfl
    | none =>
      exact absurd hem (findByEmail_none _ _ hf (id, u) (GoMap.mem_of_get _ _ _ hu))
  · intro ops id1 id2 u1 u2 h1 h2 heq
    have h := (auth_run_inv lib ops s hkey huniq).2
    exact h (id1, u1) (GoMap.mem_of_get _ _ _ h1) (id2, u2) (GoMap.mem_of_get _ _ _ h2) heq

/-- Evaluation of C23 on `demoAuthService`: after `a@x.io` has registered, a second
registration with that email fails and changes nothing. -/
theorem register_keeps_emails_unique_witness :
    authService.Register demoCrypto demoAuthService "Bob" "a@x.io" "password2" 11
        "u2" "r2" "k2"
      = (.error .ErrUserExists, demoAuthService) :=
  (register_keeps_emails_unique demoCrypto demoAuthService
    (by intro e he
        rw [demoAuthService_users] at he
        rw [List.mem_singleton.mp he]
        rfl)
    (by intro e1 h1 e2 h2 _
        rw [demoAuthService_users] at h1 h2
        rw [List.mem_singleton.mp h1, List.mem_singleton.mp h2])).1
    "Bob" "a@x.io" "password2" 11 "u2" "r2" "k2" "u1" demoAnn (by decide) rfl

/-! ## Who is told that a sprint started or completed -/

/-- C24: on a stored sprint, `sprintService.Start` and `sprintService.Complete` each add
a single notification (the drawn ID being new), of type `SPRINT_STARTED` respectively
`SPRINT_COMPLETED`, and its `UserID` is the empty string: the recipient does not depend
on any member list. -/
theorem sprint_notification_recipient (s : sprintService) (id moveIncomplete : String)
    (now : Time) (uuid : String) (sp : Sprint)
    (h : s.sprintRepo.FindByID id = some sp)
    (hfresh : s.notifSvc.notificationRepo.notifications.get uuid = none) :
    (s.Start id now uuid).2.notifSvc.notificationRepo.notifications.entries
      = s.notifSvc.notificationRepo.notifications.entries
          ++ [(uuid, notification.sprintStarted "" sp.Name sp.ID now uuid)] ∧
    (s.Complete id moveIncomplete now uuid).2.notifSvc.notificationRepo.notifications.entries
      = s.notifSvc.notificationRepo.notifications.entries
          ++ [(uuid, notification.sprintCompleted "" sp.Name sp.ID now uuid)] := by
  constructor
  · unfold sprintService.Start
    simp only [h, sprintRepository.Update]
    exact GoMap.set_entries_of_get_none _ _ _ hfresh
  · unfold sprintService.Complete
    simp only [h, sprintRepository.Update]
    exact GoMap.set_entries_of_get_none _ _ _ hfresh

/-- Evaluation of C24: project `p1` has the members `u1` and `u2`; starting its sprint
`sp1` stores one notification, addressed to the empty user ID. -/
theorem sprint_notification_recipient_witness :
    (demoProjectService.projectRepo.membersOf "p1").map (fun m => m.UserID) = ["u1", "u2"] ∧
    demoSprint.ProjectID = "p1" ∧
    (demoBoard.Start "sp1" 5 "n1").2.notifSvc.notificationRepo.notifications.entries
      = [("n1", notification.sprintStarted "" "Sprint 1" "sp1" 5 "n1")] :=
  ⟨by decide, rfl,
    (sprint_notification_recipient demoBoard "sp1" "" 5 "n1" demoSprint (by decide)
      (by decide)).1⟩

/-! ## Completing a sprint with the empty policy -/

/-- C28: on a stored sprint `S`, `sprintService.Complete(S, "")` succeeds, returns and
stores the sprint as `COMPLETED`, and leaves the task store as it was, so every task that
had `SprintID` `S` (done or not) still has it; and this is the call that
`SprintHandler.Complete` makes when the request carries no `moveIncomplete` value. -/
theorem complete_empty_policy (s : sprintService) (id : String) (now : Time)
    (uuid : String) (sp : Sprint)
    (hS : s.sprintRepo.KeyedByID)
    (h : s.sprintRepo.FindByID id = some sp) :
    (s.Complete id "" now uuid).1
      = .ok { sp with Status := "COMPLETED", EndDate := some now, UpdatedAt := now } ∧
    (s.Complete id "" now uuid).2.sprintRepo.FindByID id
      = some { sp with Status := "COMPLETED", EndDate := some now, UpdatedAt := now } ∧
    (s.Complete id "" now uuid).2.taskRepo = s.taskRepo ∧
    (∀ tid t, s.taskRepo.FindByID tid = some t → t.SprintID = some id → t.Status ≠ "DONE" →
      ∃ t2, (s.Complete id "" now uuid).2.taskRepo.FindByID tid = some t2 ∧ t2 = t ∧
        t2.SprintID = some id) ∧
    SprintHandler.Complete s id none now uuid = s.Complete id "" now uuid := by
  have hid : sp.ID = id := hS id sp h
  have htasks : (s.Complete id "" now uuid).2.taskRepo = s.taskRepo := by
    unfold sprintService.Complete
    simp only [h, sprintRepository.Update]
    rfl
  refine ⟨?_, ?_, htasks, ?_, rfl⟩
  · unfold sprintService.Complete
    simp only [h, sprintRepository.Update]
  · unfold sprintService.Complete
    simp only [h, sprintRepository.Update]
    simp only [sprintRepository.FindByID, GoMap.get_set, hid, if_true]
  · intro tid t ht hsp _
    rw [htasks]
    exact ⟨t, ht, rfl, hsp⟩

/-- Evaluation of C28 on `demoBoard`: the open task `t1` of `sp1` stays in `sp1`. -/
theorem complete_empty_policy_witness :
    (demoBoard.Complete "sp1" "" 9 "n1").2.taskRepo = demoBoard.taskRepo :=
  (complete_empty_policy demoBoard "sp1" 9 "n1" demoSprint
    (by intro id sp h
        have hm := GoMap.mem_of_get _ _ _ h
        have : (id, sp) = ("sp1", demoSprint) := by simpa [demoBoard] using hm
        rw [(Prod.mk.inj this).1, (Prod.mk.inj this).2]
        rfl)
    (by decide)).2.2.1

/-! ## Bulk updates: what changes and what does not -/

theorem bulkStep_get (now : Time) (r : taskRepository) (u : BulkTaskUpdate) (id : String) :
    (taskRepository.bulkStep now r u).FindByID id
      = if id = u.ID then (r.FindByID id).map (u.applied now) else r.FindByID id := by
  unfold taskRepository.bulkStep
  cases hT : r.tasks.get u.ID with
  | none =>
    by_cases hid : id = u.ID
    · rw [if_pos hid, hid]
      unfold taskRepository.FindByID
      rw [hT]; rfl
    · rw [if_neg hid]
  | some t =>
    simp only [taskRepository.FindByID, GoMap.get_set]
    by_cases hid : id = u.ID
    · rw [if_pos hid, if_pos hid, hid, hT]
      unfold BulkTaskUpdate.applied
      cases u.Status <;> cases u.SprintID <;> cases u.OrderIndex <;> rfl
    · rw [if_neg hid, if_neg hid]

theorem find_update_of_mem (updates : List BulkTaskUpdate)
    (hnd : (updates.map BulkTaskUpdate.ID).Nodup) (u : BulkTaskUpdate) (hu : u ∈ updates) :
    updates.find? (fun x => x.ID == u.ID) = some u := by
  induction updates with
  | nil => simp at hu
  | cons x rest ih =>
    rw [List.map_cons, List.nodup_cons] at hnd
    rcases List.mem_cons.mp hu with h | h
    · rw [h]; simp
    · have hne : x.ID ≠ u.ID := by
        intro heq
        exact hnd.1 (heq ▸ List.mem_map_of_mem BulkTaskUpdate.ID h)
      have hb : (x.ID == u.ID) = false := beq_eq_false_iff_ne.mpr hne
      rw [List.find?_cons, hb]
      exact ih hnd.2 h

theorem find_update_none (updates : List BulkTaskUpdate) (id : String)
    (h : id ∉ updates.map BulkTaskUpdate.ID) :
    updates.find? (fun x => x.ID == id) = none := by
  apply List.find?_eq_none.mpr
  intro x hx hb
  simp only [beq_iff_eq] at hb
  exact h (hb ▸ List.mem_map_of_mem BulkTaskUpdate.ID hx)

theorem bulkFold_get (now : Time) (id : String) :
    ∀ (updates : List BulkTaskUpdate) (r : taskRepository),
      (updates.map BulkTaskUpdate.ID).Nodup →
      (updates.foldl (taskRepository.bulkStep now) r).FindByID id
        = match updates.find? (fun x => x.ID == id) with
          | some u => (r.FindByID id).map (u.applied now)
          | none => r.FindByID id := by
  intro updates
  induction updates with
  | nil => intro r _; rfl
  | cons x rest ih =>
    intro r hnd
    rw [List.map_cons, List.nodup_cons] at hnd
    rw [List.foldl_cons, ih _ hnd.2, List.find?_cons]
    by_cases hx : x.ID = id
    · have hb : (x.ID == id) = true := by simp [hx]
      rw [hb, find_update_none rest id (hx ▸ hnd.1)]
      simp only []
      rw [bulkStep_get, if_pos hx.symm]
    · have hb : (x.ID == id) = false := beq_eq_false_iff_ne.mpr hx
      rw [hb]
      simp only []
      rw [bulkStep_get, if_neg (fun h => hx h.symm)]

/-- C26: for a list of bulk updates with pairwise different IDs, `BulkUpdate` succeeds;
for each update whose ID is in the task store, the task found under that ID afterwards
is the old one with `Status`, `SprintID` and `OrderIndex` set to the values the update
has and kept where it has none, `UpdatedAt` set, and every other field (`Key`, `Title`,
`AssigneeID`, `ReporterID`, `ProjectID`, ...) as before; and what is found under an ID
that the list does not name is what was found before. -/
theorem bulk_update_frame (r : taskRepository) (updates : List BulkTaskUpdate) (now : Time)
    (hnd : (updates.map BulkTaskUpdate.ID).Nodup) :
    (r.BulkUpdate updates now).1 = .ok () ∧
    (∀ u ∈ updates, ∀ t, r.FindByID u.ID = some t →
      (r.BulkUpdate updates now).2.FindByID u.ID = some (u.applied now t) ∧
      (u.applied now t).Status = u.Status.getD t.Status ∧
      (u.applied now t).SprintID = (if u.SprintID.isSome then u.SprintID else t.SprintID) ∧
      (u.applied now t).OrderIndex = u.OrderIndex.getD t.OrderIndex ∧
      (u.applied now t).ID = t.ID ∧ (u.applied now t).Key = t.Key ∧
      (u.applied now t).Title = t.Title ∧ (u.applied now t).Description = t.Description ∧
      (u.applied now t).Priority = t.Priority ∧ (u.applied now t).Type_ = t.Type_ ∧
      (u.applied now t).ProjectID = t.ProjectID ∧ (u.applied now t).AssigneeID = t.AssigneeID ∧
      (u.applied now t).ReporterID = t.ReporterID ∧ (u.applied now t).ParentID = t.ParentID ∧
      (u.applied now t).StoryPoints = t.StoryPoints ∧ (u.applied now t).DueDate = t.DueDate ∧
      (u.applied now t).Labels = t.Labels ∧ (u.applied now t).CreatedAt = t.CreatedAt ∧
      (u.applied now t).Assignee = t.Assignee ∧ (u.applied now t).Reporter = t.Reporter) ∧
    (∀ id, id ∉ updates.map BulkTaskUpdate.ID →
      (r.BulkUpdate updates now).2.FindByID id = r.FindByID id) := by
  refine ⟨rfl, ?_, ?_⟩
  · intro u hu t ht
    refine ⟨?_, rfl, rfl, rfl, rfl, rfl, rfl, rfl, rfl, rfl, rfl, rfl, rfl, rfl, rfl, rfl, rfl,
      rfl, rfl, rfl⟩
    show (updates.foldl (taskRepository.bulkStep now) r).FindByID u.ID = _
    rw [bulkFold_get now u.ID updates r hnd, find_update_of_mem updates hnd u hu]
    simp only []
    rw [ht]; rfl
  · intro id hid
    show (updates.foldl (taskRepository.bulkStep now) r).FindByID id = _
    rw [bulkFold_get now id updates r hnd, find_update_none updates id hid]

/-- Evaluation of C26 on `demoBulkStore`: task `t3`, which `demoBulk` does not name, is
found unchanged. -/
theorem bulk_update_frame_witness :
    (demoBulkStore.BulkUpdate demoBulk 9).2.FindByID "t3" = demoBulkStore.FindByID "t3" :=
  (bulk_update_frame demoBulkStore demoBulk 9 (by decide)).2.2 "t3" (by decide)

/-! ## The read flag of a notification -/

theorem find_map_values {β : Type} (f : β → β) (k : String) (l : List (String × β)) :
    ((l.map (fun e => (e.1, f e.2))).find? (fun e => e.1 == k)).map Prod.snd
      = ((l.find? (fun e => e.1 == k)).map Prod.snd).map f := by
  induction l with
  | nil => rfl
  | cons e l ih =>
    simp only [List.map_cons, List.find?_cons]
    cases hb : (e.1 == k) with
    | true => rfl
    | false => exact ih

theorem count_total_congr (userID : String) (l : List Notification) :
    ∀ a b : Int × Int, a.1 = b.1 →
      (l.foldl (notificationRepository.countStep userID) a).1
        = (l.foldl (notificationRepository.countStep userID) b).1 := by
  induction l with
  | nil => intro a b h; exact h
  | cons n l ih =>
    intro a b h
    simp only [List.foldl_cons]
    apply ih
    unfold notificationRepository.countStep
    cases (n.UserID == userID) with
    | true => simp only [if_true]; rw [h]
    | false => exact h

theorem count_after_mark (userID : String) (l : List Notification) :
    ∀ acc : Int × Int,
      (l.map (notificationRepository.markFor userID)).foldl
          (notificationRepository.countStep userID) acc
        = ((l.foldl (notificationRepository.countStep userID) acc).1, acc.2) := by
  induction l with
  | nil => intro acc; rfl
  | cons n l ih =>
    intro acc
    simp only [List.map_cons, List.foldl_cons]
    rw [ih]
    have hstep : (notificationRepository.countStep userID acc
          (notificationRepository.markFor userID n)).1
          = (notificationRepository.countStep userID acc n).1 ∧
        (notificationRepository.countStep userID acc
          (notificationRepository.markFor userID n)).2 = acc.2 := by
      unfold notificationRepository.countStep notificationRepository.markFor
      cases hb : (n.UserID == userID) with
      | true => simp [hb]
      | false => simp [hb]
    rw [hstep.2, count_total_congr userID l _ _ hstep.1]

/-- C27: `MarkAsRead(id)` and `MarkAllAsRead(user)` succeed and change no field but
`Read`: after `MarkAsRead(id)` the notification found under `id` is the old one with
`Read` true and every other ID finds what it found before; after `MarkAllAsRead(user)`
every ID finds the old notification, with `Read` true when its `UserID` is `user` and
untouched otherwise; neither turns a true flag false; and after `MarkAllAsRead(u)`,
`CountByUserID(u)` gives the same total as before and unread 0. -/
theorem mark_read_frame (r : notificationRepository) (id userID : String) :
    (r.MarkAsRead id).1 = .ok () ∧
    (∀ k, (r.MarkAsRead id).2.FindByID k
      = if k = id then (r.FindByID k).map (fun n => { n with Read := true })
        else r.FindByID k) ∧
    (r.MarkAllAsRead userID).1 = .ok () ∧
    (∀ k, (r.MarkAllAsRead userID).2.FindByID k
      = (r.FindByID k).map (fun n =>
          if n.UserID = userID then { n with Read := true } else n)) ∧
    (∀ k n, r.FindByID k = some n → n.Read = true →
      (∃ n1, (r.MarkAsRead id).2.FindByID k = some n1 ∧ n1.Read = true) ∧
      (∃ n2, (r.MarkAllAsRead userID).2.FindByID k = some n2 ∧ n2.Read = true)) ∧
    (r.MarkAllAsRead userID).2.CountByUserID userID = ((r.CountByUserID userID).1, 0) := by
  have h1 : ∀ k, (r.MarkAsRead id).2.FindByID k
      = if k = id then (r.FindByID k).map (fun n => { n with Read := true })
        else r.FindByID k := by
    intro k
    unfold notificationRepository.MarkAsRead notificationRepository.FindByID
    cases hg : r.notifications.get id with
    | none =>
      by_cases hk : k = id
      · rw [if_pos hk, hk, hg]; rfl
      · rw [if_neg hk]
    | some n =>
      simp only [GoMap.get_set]
      by_cases hk : k = id
      · rw [if_pos hk, if_pos hk, hk, hg]; rfl
      · rw [if_neg hk, if_neg hk]
  have h2 : ∀ k, (r.MarkAllAsRead userID).2.FindByID k
      = (r.FindByID k).map (fun n =>
          if n.UserID = userID then { n with Read := true } else n) := by
    intro k
    unfold notificationRepository.MarkAllAsRead notificationRepository.FindByID GoMap.get
    simp only []
    rw [find_map_values (notificationRepository.markFor userID)]
    unfold notificationRepository.markFor
    simp only [beq_iff_eq]
  refine ⟨?_, h1, rfl, h2, ?_, ?_⟩
  · unfold notificationRepository.MarkAsRead
    cases r.notifications.get id <;> rfl
  · intro k n hn hread
    constructor
    · rw [h1 k, hn]
      by_cases hk : k = id
      · rw [if_pos hk]; exact ⟨_, rfl, rfl⟩
      · rw [if_neg hk]; exact ⟨n, rfl, hread⟩
    · rw [h2 k, hn]
      by_cases hu : n.UserID = userID
      · simp only [Option.map_some', if_pos hu]; exact ⟨_, rfl, rfl⟩
      · simp only [Option.map_some', if_neg hu]; exact ⟨n, rfl, hread⟩
  · unfold notificationRepository.CountByUserID notificationRepository.MarkAllAsRead
      GoMap.values
    simp only []
    rw [List.map_map]
    have hmap : (Prod.snd ∘ fun e : String × Notification =>
          (e.1, notificationRepository.markFor userID e.2))
        = notificationRepository.markFor userID ∘ Prod.snd := rfl
    rw [hmap, ← List.map_map, count_after_mark]

/-- Evaluation of C27 on `demoInbox`: `u1` has two notifications, both unread; after
`MarkAllAsRead("u1")` the count is two in total and none unread, and the notification of
`u2` is as before. -/
theorem mark_read_frame_witness :
    demoInbox.CountByUserID "u1" = (2, 2) ∧
    (demoInbox.MarkAllAsRead "u1").2.CountByUserID "u1" = ((demoInbox.CountByUserID "u1").1, 0) ∧
    (demoInbox.MarkAllAsRead "u1").2.FindByID "n3" = demoInbox.FindByID "n3" :=
  ⟨by decide, (mark_read_frame demoInbox "n1" "u1").2.2.2.2.2, by decide⟩

/-! ## Refresh tokens are used once -/

theorem generateTokens_other_token (lib : Crypto) (s : authService) (userID : String)
    (now : Time) (tokenUUID idUUID t : String) (h : tokenUUID ≠ t) :
    (authService.generateTokens lib s userID now tokenUUID idUUID).2.userRepo.FindRefreshToken t
      = s.userRepo.FindRefreshToken t := by
  unfold authService.generateTokens
  cases lib.SignedString s.cfg.JWTSecret userID (Time.addHours now s.cfg.JWTExpiry) now with
  | error err => rfl
  | ok a =>
    simp only [userRepository.SaveRefreshToken, userRepository.FindRefreshToken, GoMap.get_set]
    rw [if_neg (fun e => h e.symm)]

theorem refreshToken_removes (lib : Crypto) (s : authService) (t : String) (now : Time)
    (tokenUUID idUUID : String) (hfresh : tokenUUID ≠ t) :
    (authService.RefreshToken lib s t now tokenUUID idUUID).2.userRepo.FindRefreshToken t
      = none := by
  unfold authService.RefreshToken
  cases hf : s.userRepo.FindRefreshToken t with
  | none => exact hf
  | some rt =>
    simp only []
    by_cases hexp : rt.ExpiresAt < now
    · rw [if_pos hexp]
      simp only [userRepository.DeleteRefreshToken, userRepository.FindRefreshToken,
        GoMap.get_delete, if_true]
    · rw [if_neg hexp, generateTokens_other_token lib _ _ now tokenUUID idUUID t hfresh]
      simp only [userRepository.DeleteRefreshToken, userRepository.FindRefreshToken,
        GoMap.get_delete, if_true]

/-- C30: the string drawn for the new refresh token being different from `t`, after
`authService.RefreshToken(t)` has returned (with or without an error) `t` is not in the
refresh-token store, and a second `RefreshToken(t)` fails with `ErrInvalidToken` and
changes nothing; a stored token that has expired is deleted and the call fails with
`ErrInvalidToken`; and a token that is not in the store fails with `ErrInvalidToken`
without any change of the service. -/
theorem refresh_token_single_use (lib : Crypto) (s : authService) (t : String) (now : Time)
    (tokenUUID idUUID : String) (hfresh : tokenUUID ≠ t) :
    (authService.RefreshToken lib s t now tokenUUID idUUID).2.userRepo.FindRefreshToken t
      = none ∧
    (∀ (now2 : Time) (tokenUUID2 idUUID2 : String),
      authService.RefreshToken lib
          (authService.RefreshToken lib s t now tokenUUID idUUID).2 t now2 tokenUUID2 idUUID2
        = (.error .ErrInvalidToken,
            (authService.RefreshToken lib s t now tokenUUID idUUID).2)) ∧
    (∀ rt, s.userRepo.FindRefreshToken t = some rt → rt.ExpiresAt < now →
      authService.RefreshToken lib s t now tokenUUID idUUID
        = (.error .ErrInvalidToken,
            { s with userRepo := (s.userRepo.DeleteRefreshToken t).2 })) ∧
    (s.userRepo.FindRefreshToken t = none →
      authService.RefreshToken lib s t now tokenUUID idUUID
        = (.error .ErrInvalidToken, s)) := by
  have hgone := refreshToken_removes lib s t now tokenUUID idUUID hfresh
  refine ⟨hgone, ?_, ?_, ?_⟩
  · intro now2 tokenUUID2 idUUID2
    generalize (authService.RefreshToken lib s t now tokenUUID idUUID).2 = s1 at hgone ⊢
    unfold authService.RefreshToken
    rw [hgone]
  · intro rt hrt hexp
    unfold authService.RefreshToken
    rw [hrt]
    simp only [if_pos hexp]
  · intro hnone
    unfold authService.RefreshToken
    rw [hnone]

/-- Evaluation of C30 on `demoAuthService`, whose registration stored the refresh token
`r1`: once `r1` has been exchanged for `r2` it is gone. -/
theorem refresh_token_single_use_witness :
    demoAuthService.userRepo.FindRefreshToken "r1" ≠ none ∧
    ((authService.RefreshToken demoCrypto demoAuthService "r1" 20 "r2" "k2").1.toOption
      = some ("jwt:u1", "r2")) ∧
    (authService.RefreshToken demoCrypto demoAuthService "r1" 20 "r2"
      "k2").2.userRepo.FindRefreshToken "r1" = none :=
  ⟨by decide, by decide,
    (refresh_token_single_use demoCrypto demoAuthService "r1" 20 "r2" "k2" (by decide)).1⟩

/-! ## Pagination -/

theorem atoi_range (s : String) (v : Int) (h : strconv.Atoi s = some v) :
    -9223372036854775808 ≤ v ∧ v ≤ 9223372036854775807 := by
  unfold strconv.Atoi at h
  simp only [] at h
  split_ifs at h <;> simp only [Option.some.injEq, reduceCtorEq] at h <;> omega

/-- Every query gives parameters with `1 ≤ Page` (and `Page` an `int`) and
`1 ≤ PageSize ≤ 100`; a value that is missing, not an integer, or out of range leaves the
defaults 1 and 20. -/
theorem parseListParams_bounds (query : List (String × String)) :
    1 ≤ (Prisma.parseListParams query).Page ∧
    (Prisma.parseListParams query).Page ≤ 9223372036854775807 ∧
    1 ≤ (Prisma.parseListParams query).PageSize ∧
    (Prisma.parseListParams query).PageSize ≤ 100 ∧
    ((Prisma.Query query "page" = "" ∨ strconv.Atoi (Prisma.Query query "page") = none ∨
        (∃ p, strconv.Atoi (Prisma.Query query "page") = some p ∧ p ≤ 0)) →
      (Prisma.parseListParams query).Page = 1) ∧
    ((Prisma.Query query "pageSize" = "" ∨
        strconv.Atoi (Prisma.Query query "pageSize") = none ∨
        (∃ p, strconv.Atoi (Prisma.Query query "pageSize") = some p ∧ (p ≤ 0 ∨ 100 < p))) →
      (Prisma.parseListParams query).PageSize = 20) := by
  have hPage : (Prisma.parseListParams query).Page
      = if Prisma.Query query "page" != "" then
          match strconv.Atoi (Prisma.Query query "page") with
          | some p => if p > 0 then p else 1
          | none => 1
        else 1 := by
    unfold Prisma.parseListParams
    cases strconv.Atoi (Prisma.Query query "page") <;>
      cases strconv.Atoi (Prisma.Query query "pageSize") <;>
      simp [apply_ite Prisma.ListParams.Page, Prisma.NewListParams]
  have hSize : (Prisma.parseListParams query).PageSize
      = if Prisma.Query query "pageSize" != "" then
          match strconv.Atoi (Prisma.Query query "pageSize") with
          | some ps => if ps > 0 ∧ ps ≤ 100 then ps else 20
          | none => 20
        else 20 := by
    unfold Prisma.parseListParams
    cases strconv.Atoi (Prisma.Query query "page") <;>
      cases strconv.Atoi (Prisma.Query query "pageSize") <;>
      simp [apply_ite Prisma.ListParams.PageSize, Prisma.NewListParams]
  rw [hPage, hSize]
  refine ⟨?_, ?_, ?_, ?_, ?_, ?_⟩
  · split
    · split
      · split <;> omega
      · omega
    · omega
  · split
    · split
      · rename_i p hp
        have := (atoi_range _ _ hp).2
        split <;> omega
      · omega
    · omega
  · split
    · split
      · split <;> omega
      · omega
    · omega
  · split
    · split
      · split <;> omega
      · omega
    · omega
  · rintro (h | h | ⟨p, hp, hle⟩)
    · simp [h]
    · simp [h]
    · simp [hp, show ¬ (0 < p) by omega]
  · rintro (h | h | ⟨p, hp, hle⟩)
    · simp [h]
    · simp [h]
    · have hno : ¬ (0 < p ∧ p ≤ 100) := by omega
      simp only [hp, gt_iff_lt, hno, if_false, ite_self]

theorem wrapInt_id (x : Int) (h0 : -9223372036854775808 ≤ x) (h1 : x ≤ 9223372036854775807) :
    wrapInt x = x := by
  unfold wrapInt
  norm_num
  omega

/-- With `1 ≤ PageSize` the division in `TotalPages` is not a division by zero, and for
a total from 0 up to the largest `int` less the page size the quotient is the ceiling of
`total / PageSize`. -/
theorem totalPages_ceiling (total : Int) (params : Prisma.ListParams)
    (hps : 1 ≤ params.PageSize) (h0 : 0 ≤ total)
    (hr : total + params.PageSize ≤ 9223372036854775807) :
    ∃ tp, Prisma.totalPages total params = some tp ∧
      (total = 0 → tp = 0) ∧
      (0 < total → (tp - 1) * params.PageSize < total ∧ total ≤ tp * params.PageSize) := by
  unfold Prisma.totalPages goDiv
  rw [if_neg (by omega)]
  rw [wrapInt_id (total + params.PageSize) (by omega) hr,
    wrapInt_id (total + params.PageSize - 1) (by omega) (by omega),
    Int.tdiv_eq_ediv (by omega) (by omega)]
  have hq0 : 0 ≤ (total + params.PageSize - 1) / params.PageSize :=
    Int.ediv_nonneg (by omega) (by omega)
  have hle : (total + params.PageSize - 1) / params.PageSize * params.PageSize
      ≤ total + params.PageSize - 1 := Int.ediv_mul_le _ (by omega)
  have hlt : total + params.PageSize - 1
      < ((total + params.PageSize - 1) / params.PageSize + 1) * params.PageSize :=
    Int.lt_ediv_add_one_mul_self _ (by omega)
  have hqle : (total + params.PageSize - 1) / params.PageSize
      ≤ total + params.PageSize - 1 := by
    apply Int.ediv_le_self; omega
  rw [wrapInt_id _ (by omega) (by omega)]
  refine ⟨_, rfl, ?_, ?_⟩
  · intro ht
    rw [ht]
    apply Int.ediv_eq_zero_of_lt <;> omega
  · intro _
    generalize (total + params.PageSize - 1) / params.PageSize = q at hle hlt
    have e1 : (q + 1) * params.PageSize = q * params.PageSize + params.PageSize := by ring
    have e2 : (q - 1) * params.PageSize = q * params.PageSize - params.PageSize := by ring
    rw [e1] at hlt
    rw [e2]
    constructor <;> omega

/-- With `1 ≤ Page` and `1 ≤ PageSize`, the offset is non-negative as long as the product
`(Page - 1) * PageSize` is within the range of `int`. -/
theorem pageOffset_nonneg (params : Prisma.ListParams)
    (hp : 1 ≤ params.Page) (hp2 : params.Page ≤ 9223372036854775807)
    (hps : 1 ≤ params.PageSize)
    (hr : (params.Page - 1) * params.PageSize ≤ 9223372036854775807) :
    Prisma.pageOffset params = (params.Page - 1) * params.PageSize ∧
    0 ≤ Prisma.pageOffset params := by
  unfold Prisma.pageOffset
  have hnn : 0 ≤ (params.Page - 1) * params.PageSize :=
    Int.mul_nonneg (by omega) (by omega)
  rw [wrapInt_id (params.Page - 1) (by omega) (by omega), wrapInt_id _ (by omega) hr]
  exact ⟨rfl, hnn⟩

/-- C29: the query `?page=9223372036854775807&pageSize=100` is parsed into
`Page = 9223372036854775807` and `PageSize = 100`, within the bounds `1 ≤ Page` and
`1 ≤ PageSize ≤ 100`, and the 64-bit product `(Page - 1) * PageSize` that
`FindByProjectID` hands to `Skip` is `-200`, a negative offset. -/
theorem page_offset_wraps :
    (Prisma.parseListParams Prisma.demoQuery).Page = 9223372036854775807 ∧
    (Prisma.parseListParams Prisma.demoQuery).PageSize = 100 ∧
    Prisma.pageOffset (Prisma.parseListParams Prisma.demoQuery) = -200 ∧
    (Prisma.taskRepository.FindByProjectID Prisma.demoClient "p1"
      (Prisma.parseListParams Prisma.demoQuery)).1 < 0 := by
  refine ⟨by decide, by decide, by decide, by decide⟩

/-! ## Repository errors inside `taskService.Create` -/

/-- With the in-memory repositories, `CreateWith` is `taskService.Create`. -/
theorem createWith_inMemory (s : taskService) (a : CreateTaskArgs) :
    taskService.CreateWith TaskRepos.inMemory s a = s.Create a := by
  unfold taskService.CreateWith taskService.Create TaskRepos.inMemory
  simp only []
  cases hp : s.projectRepo.FindByID a.projectID with
  | none => rfl
  | some project => rfl

/-- With the working repositories, `Prisma.taskService.CreateWith` is
`Prisma.taskService.Create`. -/
theorem prisma_createWith_working (client : Prisma.PrismaClient)
    (req : Prisma.CreateTaskRequest) (reporterID : String) (now : Time) (uuid : String) :
    Prisma.taskService.CreateWith Prisma.TaskRepos.working client req reporterID now uuid
      = Prisma.taskService.Create client req reporterID now uuid := by
  unfold Prisma.taskService.CreateWith Prisma.taskService.Create Prisma.TaskRepos.working
    Prisma.taskService.GetByID
  simp only []
  cases hp : Prisma.projectRepository.FindByID client req.ProjectID with
  | error e => rfl
  | ok project =>
    simp only []
    cases hf : Prisma.taskRepository.FindByID
      (Prisma.taskRepository.Create client req (project.Key ++ "-" ++
        fmtInt (Prisma.projectRepository.GetNextTaskNumber client req.ProjectID))
        reporterID now uuid).2
      (Prisma.taskRepository.Create client req (project.Key ++ "-" ++
        fmtInt (Prisma.projectRepository.GetNextTaskNumber client req.ProjectID))
        reporterID now uuid).1.ID with
    | error e => rfl
    | ok t => rfl

/-- C25, counterexample: in both implementations, when `GetNextTaskNumber` returns an
error, `taskService.Create` still succeeds and the task is created (with the number
returned next to the error in its key); and in the in-memory backend an error of
`projectRepo.FindByID` comes back as `ErrNotFound`, not as the repository's error. -/
theorem create_swallows_number_error :
    ((taskService.CreateWith (TaskRepos.failingNumber (.external "db down")) demoTaskService
        (demoCreate "first" "t1")).1.toOption.map Task.Key = some "ABC-0") ∧
    ((taskService.CreateWith (TaskRepos.failingNumber (.external "db down")) demoTaskService
        (demoCreate "first" "t1")).2.taskRepo.FindByID "t1").isSome = true ∧
    (taskService.CreateWith (TaskRepos.failingFind (.external "db down")) demoTaskService
        (demoCreate "first" "t1")).1 = .error .ErrNotFound ∧
    ((Prisma.taskService.CreateWith (Prisma.TaskRepos.failingNumber .dbNotFound)
        Prisma.demoClient (Prisma.demoRequest "first") "u1" 5 "t1").1.toOption.map
          Prisma.TaskModel.Key = some "ABC-1") ∧
    (Prisma.taskService.CreateWith (Prisma.TaskRepos.failingNumber .dbNotFound)
        Prisma.demoClient (Prisma.demoRequest "first") "u1" 5 "t1").2.tasks.length = 1 := by
  refine ⟨by decide, by decide, rfl, by decide, by decide⟩

/-- C25, amended: whatever functions the repositories are, in both implementations
`taskService.Create` fails with `ErrNotFound`, and leaves the stores alone, when
`projectRepo.FindByID` returns an error (in the in-memory backend also when it returns no
project); otherwise it goes on with the number that `GetNextTaskNumber` returns, whether
or not an error comes with it: an error of `taskRepo.Create` is returned unchanged, and
without one the call succeeds with the created task, whose key is built from that number.
In the Prisma-backed implementation the call then ends with the re-read of `GetByID`: it
returns the row read, and an error of that read is returned as `ErrNotFound`. -/
theorem create_error_handling (repos : TaskRepos) (s : taskService) (a : CreateTaskArgs)
    (prepos : Prisma.TaskRepos) (client : Prisma.PrismaClient)
    (req : Prisma.CreateTaskRequest) (reporterID : String) (now : Time) (uuid : String) :
    (((repos.FindByID s.projectRepo a.projectID).2 ≠ none ∨
        (repos.FindByID s.projectRepo a.projectID).1 = none) →
      taskService.CreateWith repos s a = (.error .ErrNotFound, s)) ∧
    (∀ project, repos.FindByID s.projectRepo a.projectID = (some project, none) →
      (∀ err, (repos.Create s.taskRepo
            (taskService.draft a (project.Key ++ "-" ++
              fmtInt (repos.GetNextTaskNumber s.projectRepo a.projectID).1.1))
            a.now a.taskUUID).1.2 = some err →
        taskService.CreateWith repos s a
          = (.error err,
              { s with
                projectRepo := (repos.GetNextTaskNumber s.projectRepo a.projectID).2,
                taskRepo := (repos.Create s.taskRepo
                  (taskService.draft a (project.Key ++ "-" ++
                    fmtInt (repos.GetNextTaskNumber s.projectRepo a.projectID).1.1))
                  a.now a.taskUUID).2 })) ∧
      ((repos.Create s.taskRepo
            (taskService.draft a (project.Key ++ "-" ++
              fmtInt (repos.GetNextTaskNumber s.projectRepo a.projectID).1.1))
            a.now a.taskUUID).1.2 = none →
        (taskService.CreateWith repos s a).1
          = .ok (taskService.populate s.userRepo (repos.Create s.taskRepo
              (taskService.draft a (project.Key ++ "-" ++
                fmtInt (repos.GetNextTaskNumber s.projectRepo a.projectID).1.1))
              a.now a.taskUUID).1.1) ∧
        (taskService.populate s.userRepo (repos.Create s.taskRepo
              (taskService.draft a (project.Key ++ "-" ++
                fmtInt (repos.GetNextTaskNumber s.projectRepo a.projectID).1.1))
              a.now a.taskUUID).1.1).Key
          = (repos.Create s.taskRepo
              (taskService.draft a (project.Key ++ "-" ++
                fmtInt (repos.GetNextTaskNumber s.projectRepo a.projectID).1.1))
              a.now a.taskUUID).1.1.Key ∧
        (taskService.draft a (project.Key ++ "-" ++
            fmtInt (repos.GetNextTaskNumber s.projectRepo a.projectID).1.1)).Key
          = project.Key ++ "-" ++
            fmtInt (repos.GetNextTaskNumber s.projectRepo a.projectID).1.1)) ∧
    (∀ e, prepos.FindProject client req.ProjectID = .error e →
      Prisma.taskService.CreateWith prepos client req reporterID now uuid
        = (.error .ErrNotFound, client)) ∧
    (∀ project, prepos.FindProject client req.ProjectID = .ok project →
      (∀ err, (prepos.Create client req
            (project.Key ++ "-" ++ fmtInt (prepos.GetNextTaskNumber client req.ProjectID).1)
            reporterID now uuid).1 = .error err →
        Prisma.taskService.CreateWith prepos client req reporterID now uuid
          = (.error err, (prepos.Create client req
              (project.Key ++ "-" ++ fmtInt (prepos.GetNextTaskNumber client req.ProjectID).1)
              reporterID now uuid).2)) ∧
      (∀ task, (prepos.Create client req
            (project.Key ++ "-" ++ fmtInt (prepos.GetNextTaskNumber client req.ProjectID).1)
            reporterID now uuid).1 = .ok task →
        (∀ t, prepos.FindByID (prepos.Create client req
              (project.Key ++ "-" ++ fmtInt (prepos.GetNextTaskNumber client req.ProjectID).1)
              reporterID now uuid).2 task.ID = .ok t →
          Prisma.taskService.CreateWith prepos client req reporterID now uuid
            = (.ok t, (prepos.Create client req
                (project.Key ++ "-" ++
                  fmtInt (prepos.GetNextTaskNumber client req.ProjectID).1)
                reporterID now uuid).2)) ∧
        (∀ e, prepos.FindByID (prepos.Create client req
              (project.Key ++ "-" ++ fmtInt (prepos.GetNextTaskNumber client req.ProjectID).1)
              reporterID now uuid).2 task.ID = .error e →
          Prisma.taskService.CreateWith prepos client req reporterID now uuid
            = (.error .ErrNotFound, (prepos.Create client req
                (project.Key ++ "-" ++
                  fmtInt (prepos.GetNextTaskNumber client req.ProjectID).1)
                reporterID now uuid).2)))) := by
  refine ⟨?_, ?_, ?_, ?_⟩
  · intro h
    unfold taskService.CreateWith
    generalize repos.FindByID s.projectRepo a.projectID = found at h
    obtain ⟨p, e⟩ := found
    cases p <;> cases e <;> first | rfl | simp at h
  · intro project hfound
    constructor
    · intro err hmade
      unfold taskService.CreateWith
      rw [hfound]
      simp only []
      generalize repos.Create s.taskRepo _ a.now a.taskUUID = made at hmade
      obtain ⟨⟨t, e⟩, r⟩ := made
      simp only [] at hmade
      rw [hmade]
    · intro hmade
      refine ⟨?_, (populate_identity s.userRepo _).2.1, ?_⟩
      · unfold taskService.CreateWith
        rw [hfound]
        simp only []
        generalize repos.Create s.taskRepo _ a.now a.taskUUID = made at hmade
        obtain ⟨⟨t, e⟩, r⟩ := made
        simp only [] at hmade
        rw [hmade]
      · unfold taskService.draft
        rfl
  · intro e he
    unfold Prisma.taskService.CreateWith
    rw [he]
  · intro project hfound
    constructor
    · intro err hmade
      unfold Prisma.taskService.CreateWith
      rw [hfound]
      simp only []
      generalize prepos.Create client req _ reporterID now uuid = made at hmade
      obtain ⟨res, c⟩ := made
      simp only [] at hmade
      rw [hmade]
    · intro task hmade
      constructor
      · intro t hread
        unfold Prisma.taskService.CreateWith
        rw [hfound]
        simp only []
        generalize prepos.Create client req _ reporterID now uuid = made at hmade hread
        obtain ⟨res, c⟩ := made
        simp only [] at hmade hread
        rw [hmade]
        simp only []
        rw [hread]
      · intro e hread
        unfold Prisma.taskService.CreateWith
        rw [hfound]
        simp only []
        generalize prepos.Create client req _ reporterID now uuid = made at hmade hread
        obtain ⟨res, c⟩ := made
        simp only [] at hmade hread
        rw [hmade]
        simp only []
        rw [hread]

/-- Evaluation of the amended C25: in the in-memory backend an error of `taskRepo.Create`
comes back unchanged; in the Prisma-backed implementation an error of the closing re-read
comes back as `ErrNotFound`, with the row inserted. -/
theorem create_error_handling_witness :
    (taskService.CreateWith (TaskRepos.failingCreate (.external "disk full")) demoTaskService
        (demoCreate "first" "t1")).1 = .error (.external "disk full") ∧
    ((Prisma.taskService.CreateWith (Prisma.TaskRepos.failingReread .dbNotFound)
        Prisma.demoClient (Prisma.demoRequest "first") "u1" 5 "t1").1
      = .error .ErrNotFound ∧
    (Prisma.taskService.CreateWith (Prisma.TaskRepos.failingReread .dbNotFound)
        Prisma.demoClient (Prisma.demoRequest "first") "u1" 5 "t1").2.tasks.map
          Prisma.TaskModel.Key = ["ABC-1"]) :=
  ⟨congrArg Prod.fst
      (((create_error_handling (TaskRepos.failingCreate (.external "disk full"))
        demoTaskService (demoCreate "first" "t1") Prisma.TaskRepos.working Prisma.demoClient
        (Prisma.demoRequest "first") "u1" 5 "t1").2.1 demoProject rfl).1
        (.external "disk full") rfl),
    by
      have h := ((create_error_handling TaskRepos.inMemory demoTaskService
        (demoCreate "first" "t1") (Prisma.TaskRepos.failingReread .dbNotFound)
        Prisma.demoClient (Prisma.demoRequest "first") "u1" 5 "t1").2.2.2
        { ID := "p1", Name := "Demo", Key := "ABC", SpaceID := "s1" } rfl).2 _ rfl
      rw [h.2 .dbNotFound rfl]
      exact ⟨rfl, by decide⟩⟩

/-! ## Calls of `taskService.Create` at the same time -/

end OraScrum
